import Mathlib

/-!
IOS kernel message queues (`ios_kernel_messagequeue.cpp`)

A shallow embedding of the message-queue registry of the emulated IOS kernel and
of its five kernel calls, followed by theorems about them.

Conventions of the embedding:

* `uint32_t` fields are natural numbers; arithmetic that the source performs in
  32 bits is reduced modulo `2 ^ 32 = 4294967296` explicitly.
* The `int32_t` queue identifier is represented by its 32-bit two's-complement
  pattern (a natural number below `2 ^ 32`); `static_cast<int32_t>` keeps the pattern.
* A `phys_ptr<MessageQueue>` into `sData->queues` is the index of the slot.
* A `phys_ptr<Message>` buffer reference is an address into `Kernel.memory`, counted
  in messages: `messages[i]` is the cell `messages + i`.
* The output parameter of `receive` is returned next to the outcome
  (`none`: the slot was not written).
* A call that reaches `rescheduleSelfNoLock` stops with `Outcome.suspended`; the
  code after the suspension point is the matching `...Resume` function, applied to
  the state in which the context is resumed.
* An `Error` is its 32-bit value, so that an id returned by create can be compared
  with the error codes.
* The scheduler lock is one flag and is non-reentrant: `lockScheduler` gives the
  state after an acquisition that found the lock free, and a run of several calls
  (`runOps`) stops at a call that is entered with the lock held.
-/

namespace ios.kernel

/-- A message: a fixed-size value the kernel copies and never inspects. -/
abbrev Message := Nat

/-- Identifies an execution context (thread). -/
abbrev ThreadId := Nat

/-- Modelled from the spec: `enum class Error` is declared in ios_error.h, which is not
part of this file. An `Error` is a 32-bit value, kept as its two's-complement
pattern: OK is 0 (spec section 7) and the error codes are the negative values of
the platform ABI. A queue id is returned through the same type. -/
structure Error where
  value : Nat
  deriving DecidableEq, Repr

/-- The enumerator `Error::OK` = 0. -/
def Error.OK : Error := ⟨0⟩

/-- The enumerator `Error::Intr` = -3. -/
def Error.Intr : Error := ⟨4294967293⟩

/-- The enumerator `Error::Invalid` = -4. -/
def Error.Invalid : Error := ⟨4294967292⟩

/-- The enumerator `Error::Max` = -5. -/
def Error.Max : Error := ⟨4294967291⟩

/-- The conversion `static_cast<Error>(v)` of a 32-bit pattern `v`, used by create to
return an id. -/
def Error.cast (v : Nat) : Error := ⟨v⟩

/-- Flag set of a send / jam / receive call; `flags & MessageFlags::NonBlocking`
is the field `NonBlocking`. -/
structure MessageFlags where
  NonBlocking : Bool
  deriving DecidableEq, Repr

/-- Flag set of a queue; `flags & MessageQueueFlags::RegisteredEventHandler` is the
field `RegisteredEventHandler`. -/
structure MessageQueueFlags where
  RegisteredEventHandler : Bool
  deriving DecidableEq, Repr

/-- The enumerator `MessageQueueFlags::None`. -/
def MessageQueueFlags.None : MessageQueueFlags := ⟨false⟩

instance : Inhabited MessageQueueFlags := ⟨MessageQueueFlags.None⟩

/-- Modelled from the spec: `ThreadQueue` is declared in ios_kernel_thread.h, which is
not part of this file. It is an ordered wait list of blocked contexts, the
earliest-enqueued first. -/
abbrev ThreadQueue := List ThreadId

/-- Modelled from the spec: `ThreadQueue_Initialise` (ios_kernel_thread) leaves the
wait list empty. -/
def ThreadQueue_Initialise : ThreadQueue := []

/-- One slot of the table, `struct MessageQueue`, with the members the source uses. -/
structure MessageQueue where
  receiveQueue : ThreadQueue
  sendQueue : ThreadQueue
  first : Nat
  used : Nat
  size : Nat
  messages : Nat
  uid : Nat
  pid : Nat
  flags : MessageQueueFlags
  deriving DecidableEq, Repr

/-- The all-zero slot: what a zero-initialised table holds. -/
def MessageQueue.zero : MessageQueue :=
  { receiveQueue := [], sendQueue := [], first := 0, used := 0, size := 0,
    messages := 0, uid := 0, pid := 0, flags := MessageQueueFlags.None }

instance : Inhabited MessageQueue := ⟨MessageQueue.zero⟩

/-- The part of an execution context the queue code touches: `queueWaitResult` is
read by the blocking loops; `runnable` is what the wake operations set. -/
structure Thread where
  queueWaitResult : Error
  runnable : Bool
  deriving DecidableEq, Repr

/-- The kernel state the five calls work on: `sData` (the slot table and the
generation counter), the guest memory holding the message buffers, the execution
contexts, the identity of the caller and the scheduler lock. -/
structure Kernel where
  queues : List MessageQueue
  numCreatedQueues : Nat
  memory : Nat → Message
  threads : ThreadId → Thread
  currentThread : ThreadId
  currentProcess : Nat
  schedulerLocked : Bool

/-- The slot a `phys_ptr<MessageQueue>` with index `qi` points to. -/
def Kernel.queue (k : Kernel) (qi : Nat) : MessageQueue :=
  k.queues.getD qi default

/-- Store through a `phys_ptr<MessageQueue>`. -/
def Kernel.setQueue (k : Kernel) (qi : Nat) (q : MessageQueue) : Kernel :=
  { k with queues := k.queues.set qi q }

/-- The assignment `messages[index] = message` with `addr = messages + index`. -/
def Kernel.writeMessage (k : Kernel) (addr : Nat) (message : Message) : Kernel :=
  { k with memory := fun a => if a = addr then message else k.memory a }

/-- Modelled from the spec: `internal::lockScheduler` (ios_kernel_scheduler) acquires the
single global scheduler lock; this is the state once the lock is acquired. The lock
is non-reentrant (spec sections 4.4 and 5): it can be acquired only while it is not
held, so a call that is entered with the lock held does not get past its
`lockScheduler`. Runs of several calls (`callOp`, `runOps`) therefore stop at a call
that is entered with the lock held. -/
def lockScheduler (k : Kernel) : Kernel :=
  { k with schedulerLocked := true }

/-- Modelled from the spec: `internal::unlockScheduler` (ios_kernel_scheduler) marks
the scheduler lock as not held. -/
def unlockScheduler (k : Kernel) : Kernel :=
  { k with schedulerLocked := false }

/-- Selects one of the two wait lists of a slot (`queue->sendQueue`,
`queue->receiveQueue`). -/
inductive WaitList
  | sendQueue
  | receiveQueue
  deriving DecidableEq, Repr

/-- Read the selected wait list of a slot. -/
def MessageQueue.waitList (q : MessageQueue) : WaitList → ThreadQueue
  | .sendQueue => q.sendQueue
  | .receiveQueue => q.receiveQueue

/-- Replace the selected wait list of a slot. -/
def MessageQueue.setWaitList (q : MessageQueue) (w : WaitList) (l : ThreadQueue) :
    MessageQueue :=
  match w with
  | .sendQueue => { q with sendQueue := l }
  | .receiveQueue => { q with receiveQueue := l }

/-- Modelled from the spec: `internal::sleepThreadNoLock` (ios_kernel_scheduler) appends
the calling context to the tail of the wait list and marks it blocked. -/
def sleepThreadNoLock (k : Kernel) (qi : Nat) (w : WaitList) : Kernel :=
  let q := k.queue qi
  let k1 := k.setQueue qi (q.setWaitList w (q.waitList w ++ [k.currentThread]))
  { k1 with threads := fun t =>
      if t = k.currentThread then { k.threads t with runnable := false } else k.threads t }

/-- Modelled from the spec: `internal::wakeupOneThreadNoLock` (ios_kernel_scheduler) pops
the earliest-enqueued context of the wait list, if any, sets its `waitResult` and
marks it runnable. -/
def wakeupOneThreadNoLock (k : Kernel) (qi : Nat) (w : WaitList) (result : Error) :
    Kernel :=
  let q := k.queue qi
  match q.waitList w with
  | [] => k
  | t :: rest =>
    let k1 := k.setQueue qi (q.setWaitList w rest)
    { k1 with threads := fun u =>
        if u = t then { queueWaitResult := result, runnable := true } else k.threads u }

/-- Modelled from the spec: `internal::wakeupAllThreadsNoLock` (ios_kernel_scheduler)
drains the wait list, setting `waitResult` on every member and marking it runnable. -/
def wakeupAllThreadsNoLock (k : Kernel) (qi : Nat) (w : WaitList) (result : Error) :
    Kernel :=
  let q := k.queue qi
  let k1 := k.setQueue qi (q.setWaitList w [])
  { k1 with threads := fun u =>
      if u ∈ q.waitList w then { queueWaitResult := result, runnable := true }
      else k.threads u }

/-- Modelled from the spec: `internal::rescheduleAllNoLock` (ios_kernel_scheduler)
triggers a reschedule pass; which context runs next is the external selection
policy, and the pass changes none of the state modelled here. -/
def rescheduleAllNoLock (k : Kernel) : Kernel := k

/-- Modelled from the spec: `internal::rescheduleSelfNoLock` (ios_kernel_scheduler)
suspends the calling context. The state at the suspension point is returned in
`Outcome.suspended`; execution continues in the `...Resume` function. -/
def rescheduleSelfNoLock (k : Kernel) : Kernel := k

/-- How a call that may block ends: it returns a code, or the calling context is
suspended on a wait list, or it evaluates `% queue->size` with `size == 0`
(undefined behaviour). -/
inductive Outcome
  | returned (e : Error) (k : Kernel)
  | suspended (k : Kernel)
  | undefined

/-- The members of `struct MessageQueue`. -/
inductive Member
  | receiveQueue
  | sendQueue
  | first
  | used
  | size
  | messages
  | uid
  | pid
  | flags
  deriving DecidableEq, Repr

/-- The declaration of `struct MessageQueue` (ios_kernel_messagequeue.h) is not part of
this file, so its layout is a parameter of destroy: `covered m` tells whether the
member `m` lies in the first `sizeof(ThreadQueue)` bytes of the struct. -/
abbrev Layout := Member → Bool

/-- The layout in which the struct begins with its `receiveQueue` member: that
`ThreadQueue` fills the first `sizeof(ThreadQueue)` bytes and no other member lies
in them. -/
def Layout.receiveQueueFirst : Layout := fun m => decide (m = Member.receiveQueue)

/-- The layout in which every member lies in the cleared bytes: with it the memset of
destroy zero-fills the whole slot. -/
def Layout.all : Layout := fun _ => true

/-- The statement `std::memset(queue.getRawPointer(), 0, sizeof(ThreadQueue))` of destroy:
the members inside the first `sizeof(ThreadQueue)` bytes become zero, the others keep
their value. A zeroed wait list is the empty list (null `first` pointer). -/
def memsetThreadQueueBytes (covered : Layout) (q : MessageQueue) : MessageQueue :=
  { receiveQueue := if covered .receiveQueue then [] else q.receiveQueue
    sendQueue := if covered .sendQueue then [] else q.sendQueue
    first := if covered .first then 0 else q.first
    used := if covered .used then 0 else q.used
    size := if covered .size then 0 else q.size
    messages := if covered .messages then 0 else q.messages
    uid := if covered .uid then 0 else q.uid
    pid := if covered .pid then 0 else q.pid
    flags := if covered .flags then MessageQueueFlags.None else q.flags }

/-- The scan `for (i = 0; i < queues.size(); ++i) if (queues[i].size == 0) ... break`
of create: the lowest index of a slot whose `size` is zero. -/
def findFreeSlot : List MessageQueue → Option Nat
  | [] => none
  | q :: qs => if q.size = 0 then some 0 else (findFreeSlot qs).map (· + 1)

/-- `internal::getMessageQueue`: mask the id to its low 12 bits, bounds-check, and
require the slot's `pid` to equal the current process id. `none` is `nullptr`. -/
def getMessageQueue (k : Kernel) (id : Nat) : Option Nat :=
  let id := id &&& 0xFFF
  if id ≥ k.queues.length then none
  else if (k.queue id).pid ≠ k.currentProcess then none
  else some id

/-- `IOS_CreateMessageQueue(messages, size)`. -/
def IOS_CreateMessageQueue (k : Kernel) (messages size : Nat) : Error × Kernel :=
  let k := lockScheduler k
  match findFreeSlot k.queues with
  | none => (Error.Max, unlockScheduler k)
  | some i =>
    let queue : MessageQueue :=
      { uid := ((k.numCreatedQueues <<< 12) % 4294967296) ||| i
        first := 0
        used := 0
        size := size
        messages := messages
        flags := MessageQueueFlags.None
        pid := k.currentProcess % 256
        receiveQueue := ThreadQueue_Initialise
        sendQueue := ThreadQueue_Initialise }
    let k := k.setQueue i queue
    let k := { k with numCreatedQueues := (k.numCreatedQueues + 1) % 4294967296 }
    let k := unlockScheduler k
    (Error.cast queue.uid, k)

/-- `IOS_DestroyMessageQueue(id)`; `covered` is the layout parameter of the memset. -/
def IOS_DestroyMessageQueue (covered : Layout) (k : Kernel) (id : Nat) : Error × Kernel :=
  let k := lockScheduler k
  match getMessageQueue k id with
  | none => (Error.Invalid, unlockScheduler k)
  | some qi =>
    let k :=
      if (k.queue qi).flags.RegisteredEventHandler then
        k.setQueue qi { k.queue qi with flags := { RegisteredEventHandler := false } }
      else k
    let k := wakeupAllThreadsNoLock k qi .sendQueue Error.Intr
    let k := wakeupAllThreadsNoLock k qi .receiveQueue Error.Intr
    let k := k.setQueue qi (memsetThreadQueueBytes covered (k.queue qi))
    let k := unlockScheduler k
    (Error.OK, k)

/-- The `while (queue->used == queue->size)` loop of `internal::sendMessage` up to
its first suspension or return, followed by the transfer. -/
def sendLoop (k : Kernel) (qi : Nat) (message : Message) (flags : MessageFlags) : Outcome :=
  let queue := k.queue qi
  if queue.used = queue.size then
    if flags.NonBlocking then .returned Error.Max k
    else .suspended (rescheduleSelfNoLock (sleepThreadNoLock k qi .sendQueue))
  else if queue.size = 0 then .undefined
  else
    let index := ((queue.first + queue.used) % 4294967296) % queue.size
    let k := k.writeMessage (queue.messages + index) message
    let k := k.setQueue qi { queue with used := (queue.used + 1) % 4294967296 }
    let k := wakeupOneThreadNoLock k qi .receiveQueue Error.OK
    let k := rescheduleAllNoLock k
    let k := unlockScheduler k
    .returned Error.OK k

/-- `internal::sendMessage(queue, message, flags)` from its entry. -/
def sendMessage (k : Kernel) (qi : Nat) (message : Message) (flags : MessageFlags) : Outcome :=
  sendLoop (lockScheduler k) qi message flags

/-- `internal::sendMessage` from the point where `rescheduleSelfNoLock` returns: test
`queueWaitResult` of the current thread, then go round the loop again. -/
def sendMessageResume (k : Kernel) (qi : Nat) (message : Message) (flags : MessageFlags) :
    Outcome :=
  let thread := k.threads k.currentThread
  if thread.queueWaitResult ≠ Error.OK then .returned thread.queueWaitResult k
  else sendLoop k qi message flags

/-- `IOS_SendMessage(id, message, flags)`. -/
def IOS_SendMessage (k : Kernel) (id : Nat) (message : Message) (flags : MessageFlags) :
    Outcome :=
  match getMessageQueue k id with
  | none => .returned Error.Invalid k
  | some qi => sendMessage k qi message flags

/-- The `while (queue->used == queue->size)` loop of `IOS_JamMessage` up to its first
suspension or return, followed by the front insert. -/
def jamLoop (k : Kernel) (qi : Nat) (message : Message) (flags : MessageFlags) : Outcome :=
  let queue := k.queue qi
  if queue.used = queue.size then
    if flags.NonBlocking then .returned Error.Max k
    else .suspended (rescheduleSelfNoLock (sleepThreadNoLock k qi .sendQueue))
  else
    let first :=
      if queue.first = 0 then (queue.size + 4294967296 - 1) % 4294967296
      else queue.first - 1
    let k := k.writeMessage (queue.messages + first) message
    let k := k.setQueue qi { queue with first := first, used := (queue.used + 1) % 4294967296 }
    let k := wakeupOneThreadNoLock k qi .receiveQueue Error.OK
    let k := rescheduleAllNoLock k
    let k := unlockScheduler k
    .returned Error.OK k

/-- `IOS_JamMessage(id, message, flags)` from its entry. -/
def IOS_JamMessage (k : Kernel) (id : Nat) (message : Message) (flags : MessageFlags) :
    Outcome :=
  let k := lockScheduler k
  match getMessageQueue k id with
  | none => .returned Error.Invalid (unlockScheduler k)
  | some qi => jamLoop k qi message flags

/-- `IOS_JamMessage` from the point where `rescheduleSelfNoLock` returns. -/
def jamMessageResume (k : Kernel) (qi : Nat) (message : Message) (flags : MessageFlags) :
    Outcome :=
  let thread := k.threads k.currentThread
  if thread.queueWaitResult ≠ Error.OK then .returned thread.queueWaitResult k
  else jamLoop k qi message flags

/-- The `while (queue->used == 0)` loop of `internal::receiveMessage` up to its first
suspension or return, followed by the transfer. The second component is the value
written to `*message`, if any. -/
def receiveLoop (k : Kernel) (qi : Nat) (flags : MessageFlags) : Outcome × Option Message :=
  let queue := k.queue qi
  if queue.used = 0 then
    if flags.NonBlocking then (.returned Error.Max k, none)
    else (.suspended (rescheduleSelfNoLock (sleepThreadNoLock k qi .receiveQueue)), none)
  else
    let out := k.memory (queue.messages + queue.first)
    if queue.size = 0 then (.undefined, some out)
    else
      let k := k.setQueue qi
        { queue with first := ((queue.first + 1) % 4294967296) % queue.size,
                     used := queue.used - 1 }
      let k := wakeupOneThreadNoLock k qi .sendQueue Error.OK
      let k := rescheduleAllNoLock k
      let k := unlockScheduler k
      (.returned Error.OK k, some out)

/-- `internal::receiveMessage(queue, message, flags)` from its entry. -/
def receiveMessage (k : Kernel) (qi : Nat) (flags : MessageFlags) : Outcome × Option Message :=
  receiveLoop (lockScheduler k) qi flags

/-- `internal::receiveMessage` from the point where `rescheduleSelfNoLock` returns. -/
def receiveMessageResume (k : Kernel) (qi : Nat) (flags : MessageFlags) :
    Outcome × Option Message :=
  let thread := k.threads k.currentThread
  if thread.queueWaitResult ≠ Error.OK then (.returned thread.queueWaitResult k, none)
  else receiveLoop k qi flags

/-- `IOS_ReceiveMessage(id, message, flags)`. -/
def IOS_ReceiveMessage (k : Kernel) (id : Nat) (flags : MessageFlags) :
    Outcome × Option Message :=
  match getMessageQueue k id with
  | none => (.returned Error.Invalid k, none)
  | some qi => receiveMessage k qi flags

/-- The invariant of a live slot: `1 ≤ size`, `first < size`, `used ≤ size`, with
`size` a 32-bit value. -/
def MessageQueue.valid (q : MessageQueue) : Prop :=
  1 ≤ q.size ∧ q.size < 4294967296 ∧ q.first < q.size ∧ q.used ≤ q.size

instance (q : MessageQueue) : Decidable q.valid := by
  unfold MessageQueue.valid
  exact inferInstance

/-- The logical contents of slot `qi`: the list
`[messages[(first + i) mod size] for i in 0 .. used - 1]`. -/
def contents (k : Kernel) (qi : Nat) : List Message :=
  let q := k.queue qi
  (List.range q.used).map (fun i => k.memory (q.messages + (q.first + i) % q.size))

/-- The flag set with `NonBlocking` set. -/
def MessageFlags.nonBlocking : MessageFlags := ⟨true⟩

/-- The flag set with no flag set. -/
def MessageFlags.none : MessageFlags := ⟨false⟩

/-- One call on a queue: a send of a message or a receive. -/
inductive QueueOp
  | send (m : Message)
  | receive
  deriving DecidableEq, Repr

/-- Perform one call on slot `qi` with the given flags: the returned code, the value
written to the output slot and the state afterwards; `none` when the call does not
return: it is entered with the non-reentrant scheduler lock held, it suspends, or
its behaviour is undefined. -/
def callOp (k : Kernel) (qi : Nat) (flags : MessageFlags) (op : QueueOp) :
    Option ((Error × Option Message) × Kernel) :=
  if k.schedulerLocked then Option.none
  else
    match op with
    | .send m =>
      match sendMessage k qi m flags with
      | .returned e k1 => some ((e, Option.none), k1)
      | _ => Option.none
    | .receive =>
      match receiveMessage k qi flags with
      | (.returned e k1, out) => some ((e, out), k1)
      | _ => Option.none

/-- Perform a sequence of calls on slot `qi`, collecting what each returns. -/
def runOps (k : Kernel) (qi : Nat) (flags : MessageFlags) :
    List QueueOp → Option (List (Error × Option Message) × Kernel)
  | [] => some ([], k)
  | op :: ops =>
    match callOp k qi flags op with
    | Option.none => Option.none
    | some (r, k1) =>
      match runOps k1 qi flags ops with
      | Option.none => Option.none
      | some (rs, k2) => some (r :: rs, k2)

/-- The bounded FIFO list of the specification, one step: a send appends when fewer
than `C` messages are held and is refused with `Max` otherwise; a receive removes
and outputs the first message and is refused with `Max` on the empty list. -/
def fifoStep (C : Nat) (l : List Message) : QueueOp → (Error × Option Message) × List Message
  | .send m => if l.length < C then ((Error.OK, Option.none), l ++ [m]) else ((Error.Max, Option.none), l)
  | .receive =>
    match l with
    | [] => ((Error.Max, Option.none), [])
    | x :: xs => ((Error.OK, some x), xs)

/-- The bounded FIFO list of the specification, run over a sequence of calls. -/
def fifoRun (C : Nat) (l : List Message) : List QueueOp → List (Error × Option Message) × List Message
  | [] => ([], l)
  | op :: ops =>
    let r := fifoStep C l op
    let rest := fifoRun C r.2 ops
    (r.1 :: rest.1, rest.2)

/-- A kernel state whose table is the single slot `q`, with memory cell `a` holding
the value `a`, called from thread 0 of process 0 with the scheduler lock not held. -/
def Kernel.single (q : MessageQueue) : Kernel :=
  { queues := [q], numCreatedQueues := 1, memory := fun a => a,
    threads := fun _ => { queueWaitResult := Error.OK, runnable := true },
    currentThread := 0, currentProcess := 0, schedulerLocked := false }

/-- An empty queue of capacity 2 over the buffer at address 100. -/
def capacityTwoKernel : Kernel :=
  Kernel.single { receiveQueue := [], sendQueue := [], first := 0, used := 0, size := 2,
                  messages := 100, uid := 0, pid := 0, flags := MessageQueueFlags.None }

/-- Whether no call of the sequence follows a refused one: every call but the last is
accepted by the bounded FIFO list started at `l`. -/
def noCallAfterRefusal (C : Nat) (l : List Message) : List QueueOp → Bool
  | [] => true
  | [_] => true
  | op :: op2 :: ops =>
    decide ((fifoStep C l op).1.1 = Error.OK) &&
      noCallAfterRefusal C (fifoStep C l op).2 (op2 :: ops)

/-- The end-to-end scenario without a call after a refused one: send 11, send 12,
receive, send 13, receive, receive, and a last receive, refused on the empty queue. -/
def endToEndScenario : List QueueOp :=
  [.send 11, .send 12, .receive, .send 13, .receive, .receive, .receive]

/-- The end-to-end scenario of the specification: send 11, send 12, send 13 (refused),
receive, send 13, receive, receive. -/
def refusedSendScenario : List QueueOp :=
  [.send 11, .send 12, .send 13, .receive, .send 13, .receive, .receive]

/-- A valid queue of capacity `2 ^ 32 - 1` holding two messages, whose head is the
last cell of the buffer: `first + used = 2 ^ 32`. -/
def overflowKernel : Kernel :=
  Kernel.single { receiveQueue := [], sendQueue := [], first := 4294967294, used := 2,
                  size := 4294967295, messages := 0, uid := 0, pid := 0,
                  flags := MessageQueueFlags.None }

/-- A zero-initialised table of `n` slots with generation counter 0, called from
thread 0 of process `pid` with the scheduler lock not held. -/
def Kernel.zeroed (n pid : Nat) : Kernel :=
  { queues := List.replicate n MessageQueue.zero, numCreatedQueues := 0,
    memory := fun _ => 0,
    threads := fun _ => { queueWaitResult := Error.OK, runnable := true },
    currentThread := 0, currentProcess := pid, schedulerLocked := false }

/-- A two-slot table whose slot 0 is live and slot 1 free, with generation counter
`2 ^ 20 + 1` (its shift by 12 overflows 32 bits), called from process 3. -/
def twoSlotKernel : Kernel :=
  { queues := [{ receiveQueue := [], sendQueue := [], first := 0, used := 1, size := 2,
                 messages := 100, uid := 0, pid := 3, flags := MessageQueueFlags.None },
               MessageQueue.zero],
    numCreatedQueues := 1048577,
    memory := fun a => a,
    threads := fun _ => { queueWaitResult := Error.OK, runnable := true },
    currentThread := 0, currentProcess := 3, schedulerLocked := false }

/-- A full queue of capacity 2 (slot 0) and an empty one (slot 1), both owned by
process 0, with contexts 5 and 6 waiting to send on the full queue. -/
def fullAndEmptyKernel : Kernel :=
  { queues := [{ receiveQueue := [], sendQueue := [5, 6], first := 1, used := 2, size := 2,
                 messages := 100, uid := 0, pid := 0, flags := MessageQueueFlags.None },
               { receiveQueue := [], sendQueue := [], first := 0, used := 0, size := 2,
                 messages := 200, uid := 1, pid := 0, flags := MessageQueueFlags.None }],
    numCreatedQueues := 2,
    memory := fun a => a,
    threads := fun _ => { queueWaitResult := Error.OK, runnable := true },
    currentThread := 0, currentProcess := 0, schedulerLocked := false }

/-- The state an outcome leaves behind: the state at the return or at the
suspension point; none for undefined behaviour. -/
def Outcome.state? : Outcome → Option Kernel
  | .returned _ k => some k
  | .suspended k => some k
  | .undefined => Option.none

/-- The call ends in a state (it returns or suspends, its behaviour is defined) whose
slot `qi` satisfies `used ≤ size` and `first < size` and has the `size` and the `pid`
it has in `k`. -/
def Outcome.keepsInvariant (o : Outcome) (k : Kernel) (qi : Nat) : Prop :=
  ∃ k1, o.state? = some k1 ∧
    (k1.queue qi).used ≤ (k1.queue qi).size ∧ (k1.queue qi).first < (k1.queue qi).size ∧
    (k1.queue qi).size = (k.queue qi).size ∧ (k1.queue qi).pid = (k.queue qi).pid

/-- A full table of two live queues owned by process 3, called from process 3. Slot 0
has identifier `8192` (generation 2, index 0), is registered as event handler and has
contexts 5 and 6 waiting to send. -/
def liveTableKernel : Kernel :=
  { queues := [{ receiveQueue := [], sendQueue := [5, 6], first := 1, used := 2, size := 2,
                 messages := 100, uid := 8192, pid := 3,
                 flags := { RegisteredEventHandler := true } },
               { receiveQueue := [], sendQueue := [], first := 0, used := 0, size := 4,
                 messages := 200, uid := 4097, pid := 3, flags := MessageQueueFlags.None }],
    numCreatedQueues := 3,
    memory := fun a => a,
    threads := fun _ => { queueWaitResult := Error.OK, runnable := true },
    currentThread := 0, currentProcess := 3, schedulerLocked := false }

/-- The state after process 0 creates a queue of capacity 1 in the zero-initialised
one-slot table (its identifier is 0) and destroys it again. -/
def createdThenDestroyed (L : Layout) : Kernel :=
  (IOS_DestroyMessageQueue L (IOS_CreateMessageQueue (Kernel.zeroed 1 0) 100 1).2 0).2

/-- The same state, seen by a call from thread `t` of process `c`. -/
def Kernel.calledBy (k : Kernel) (c : Nat) (t : ThreadId) : Kernel :=
  { k with currentProcess := c, currentThread := t }

/-- The code a call returns; none when it suspends or its behaviour is undefined. -/
def Outcome.code? : Outcome → Option Error
  | .returned e _ => some e
  | .suspended _ => Option.none
  | .undefined => Option.none

/-- The state in which the current context has been woken with result `r`. -/
def Kernel.wokenWith (k : Kernel) (r : Error) : Kernel :=
  { k with threads := fun u =>
      if u = k.currentThread then { queueWaitResult := r, runnable := true } else k.threads u }

/-- Between `k` and `k1` exactly the earliest-enqueued context of the receive-wait
list of slot `qi`, if any, was removed from the list and woken with OK: the list lost
its head, the send-wait list is as it was, and no other context changed. -/
def wokeOneReceiver (k k1 : Kernel) (qi : Nat) : Prop :=
  (k1.queue qi).receiveQueue = (k.queue qi).receiveQueue.tail ∧
  (k1.queue qi).sendQueue = (k.queue qi).sendQueue ∧
  k1.threads = fun u =>
    if (k.queue qi).receiveQueue.head? = some u then
      { queueWaitResult := Error.OK, runnable := true } else k.threads u

/-- Between `k` and `k1` exactly the earliest-enqueued context of the send-wait list
of slot `qi`, if any, was removed from the list and woken with OK: the list lost its
head, the receive-wait list is as it was, and no other context changed. -/
def wokeOneSender (k k1 : Kernel) (qi : Nat) : Prop :=
  (k1.queue qi).sendQueue = (k.queue qi).sendQueue.tail ∧
  (k1.queue qi).receiveQueue = (k.queue qi).receiveQueue ∧
  k1.threads = fun u =>
    if (k.queue qi).sendQueue.head? = some u then
      { queueWaitResult := Error.OK, runnable := true } else k.threads u

/-- The state an outcome leaves behind, or `k` when there is none. -/
def Outcome.stateOr (o : Outcome) (k : Kernel) : Kernel :=
  match o.state? with
  | some k1 => k1
  | Option.none => k

/-- An empty queue of capacity 1 over the buffer at address 100. -/
def capacityOneKernel : Kernel :=
  Kernel.single { receiveQueue := [], sendQueue := [], first := 0, used := 0, size := 1,
                  messages := 100, uid := 0, pid := 0, flags := MessageQueueFlags.None }

/-- Modelled from the spec: the reschedule primitive at a suspension point makes
another context active (section 4.4). The suspended context takes the lock up again
only when it resumes, so thread `t` of process `c`, made active, enters its calls
with the scheduler lock not held. -/
def Kernel.switchedTo (k : Kernel) (c : Nat) (t : ThreadId) : Kernel :=
  { k with currentProcess := c, currentThread := t, schedulerLocked := false }

/-- Modelled from the spec: the suspended thread `t` of process `c` is made active
again and continues after `rescheduleSelfNoLock`, inside its critical section: the
scheduler lock counts as re-acquired (section 4.4). -/
def Kernel.resumedBy (k : Kernel) (c : Nat) (t : ThreadId) : Kernel :=
  { k with currentProcess := c, currentThread := t, schedulerLocked := true }

/-- The state after context 1 and then context 2 called a blocking receive on the
empty capacity-1 queue: both are suspended on the receive-wait list. -/
def twoReceiversBlocked : Kernel :=
  let k1 := (receiveMessage (capacityOneKernel.switchedTo 0 1) 0 MessageFlags.none).1.stateOr
    capacityOneKernel
  (receiveMessage (k1.switchedTo 0 2) 0 MessageFlags.none).1.stateOr k1

/-- The state after context 3 then sends message 7 to that queue. -/
def twoReceiversOneSend : Kernel :=
  (sendMessage (twoReceiversBlocked.switchedTo 0 3) 0 7 MessageFlags.none).stateOr
    twoReceiversBlocked

/-- The state after context 3 instead jams message 7 into that queue. -/
def twoReceiversOneJam : Kernel :=
  (IOS_JamMessage (twoReceiversBlocked.switchedTo 0 3) 0 7 MessageFlags.none).stateOr
    twoReceiversBlocked

/-- The state after context 1, woken by the send of context 3, resumes its receive. -/
def firstReceiverResumed : Kernel :=
  (receiveMessageResume (twoReceiversOneSend.resumedBy 0 1) 0 MessageFlags.none).1.stateOr
    twoReceiversOneSend

/-- The state after a receive on the full slot 0 of the two-slot table, on whose
send-wait list contexts 5 and 6 wait. -/
def twoSendersOneReceive : Kernel :=
  (receiveMessage fullAndEmptyKernel 0 MessageFlags.none).1.stateOr fullAndEmptyKernel

/-- The state after context 5, woken by that receive, resumes its send of message 9. -/
def firstSenderResumed : Kernel :=
  (sendMessageResume (twoSendersOneReceive.resumedBy 0 5) 0 9 MessageFlags.none).stateOr
    twoSendersOneReceive

/-- The state after context 5, woken by that receive, resumes a jam of message 9. -/
def firstJammerResumed : Kernel :=
  (jamMessageResume (twoSendersOneReceive.resumedBy 0 5) 0 9 MessageFlags.none).stateOr
    twoSendersOneReceive

/-- Between `k` and `k1` the table kept its length, the generation counter its value,
and every slot its `size`, `uid` and `pid`. -/
def sameRegistry (k k1 : Kernel) : Prop :=
  k1.queues.length = k.queues.length ∧ k1.numCreatedQueues = k.numCreatedQueues ∧
  ∀ j, (k1.queue j).size = (k.queue j).size ∧ (k1.queue j).uid = (k.queue j).uid ∧
    (k1.queue j).pid = (k.queue j).pid

/-- A kernel call on the registry: one of the five calls from its entry, or the
continuation of a suspended send, jam or receive on the slot `qi` it had looked up. -/
inductive Call
  | create (messages size : Nat)
  | destroy (id : Nat)
  | send (id : Nat) (m : Message) (flags : MessageFlags)
  | jam (id : Nat) (m : Message) (flags : MessageFlags)
  | receive (id : Nat) (flags : MessageFlags)
  | sendResume (qi : Nat) (m : Message) (flags : MessageFlags)
  | jamResume (qi : Nat) (m : Message) (flags : MessageFlags)
  | receiveResume (qi : Nat) (flags : MessageFlags)

/-- Run a call in state `k`. -/
def Call.run (L : Layout) (k : Kernel) : Call → Outcome
  | .create messages size =>
    .returned (IOS_CreateMessageQueue k messages size).1 (IOS_CreateMessageQueue k messages size).2
  | .destroy id =>
    .returned (IOS_DestroyMessageQueue L k id).1 (IOS_DestroyMessageQueue L k id).2
  | .send id m flags => IOS_SendMessage k id m flags
  | .jam id m flags => IOS_JamMessage k id m flags
  | .receive id flags => (IOS_ReceiveMessage k id flags).1
  | .sendResume qi m flags => sendMessageResume k qi m flags
  | .jamResume qi m flags => jamMessageResume k qi m flags
  | .receiveResume qi flags => (receiveMessageResume k qi flags).1

/-- Whether the call is a create that finds a free slot in state `k`, that is, a
create that initialises a queue and returns its id. -/
def Call.createsQueue (k : Kernel) : Call → Bool
  | .create _ _ => (findFreeSlot k.queues).isSome
  | _ => false

/-- The states reachable from `k0` by kernel calls, with the number of creates that
found a free slot on the way. Between calls other activity (context switches, guest
stores, the scheduler and its lock) may change everything but the table and the
generation counter. A call is followed from any state, whether or not the scheduler
lock is held in it: this only adds states to the reachable ones. -/
inductive Reaches (L : Layout) (k0 : Kernel) : Nat → Kernel → Prop
  | start : Reaches L k0 0 k0
  | call (n : Nat) (k k1 : Kernel) (c : Call) :
      Reaches L k0 n k → (c.run L k).state? = some k1 →
      Reaches L k0 (n + if c.createsQueue k then 1 else 0) k1
  | environment (n : Nat) (k k1 : Kernel) :
      Reaches L k0 n k → k1.queues = k.queues → k1.numCreatedQueues = k.numCreatedQueues →
      Reaches L k0 n k1

/-- The call is refused with Max or suspends its caller, and in the state it leaves
every memory cell is as in `k`: the message buffer was neither read into the output
slot nor written. -/
def Outcome.touchesNoMessage (o : Outcome) (k : Kernel) : Prop :=
  ∃ k1, (o = .returned Error.Max k1 ∨ o = .suspended k1) ∧ k1.memory = k.memory

/-- The call returns OK, and in the state it leaves the memory is that of `k` with `m`
written to the one cell `a`. -/
def Outcome.storesOnlyAt (o : Outcome) (k : Kernel) (a : Nat) (m : Message) : Prop :=
  ∃ k1, o = .returned Error.OK k1 ∧ k1.memory = fun b => if b = a then m else k.memory b

/-- The call returns OK and leaves every memory cell as in `k`. -/
def Outcome.returnsOKReadOnly (o : Outcome) (k : Kernel) : Prop :=
  ∃ k1, o = .returned Error.OK k1 ∧ k1.memory = k.memory

/-- The state in which a blocking send on the full slot 0 of the two-slot table is
resumed after the caller was woken with Intr: the state at its suspension point, with
the caller's wait result set. -/
def resumedWithIntr : Kernel :=
  ((sendMessage fullAndEmptyKernel 0 7 MessageFlags.none).stateOr fullAndEmptyKernel).wokenWith
    Error.Intr

/-- A table of 4092 slots, the first 4091 live and slot 4091 free, with generation
counter `2 ^ 20 - 1`, called from process 0 with the scheduler lock not held. -/
def collisionKernel : Kernel :=
  { queues := List.replicate 4091
      { receiveQueue := [], sendQueue := [], first := 0, used := 0, size := 1,
        messages := 0, uid := 0, pid := 0, flags := MessageQueueFlags.None }
      ++ [MessageQueue.zero],
    numCreatedQueues := 1048575,
    memory := fun a => a,
    threads := fun _ => { queueWaitResult := Error.OK, runnable := true },
    currentThread := 0, currentProcess := 0, schedulerLocked := false }

/-! ## Theorems -/

@[simp] theorem Error.Max_ne_OK : Error.Max ≠ Error.OK := by decide

@[simp] theorem Error.OK_ne_Max : Error.OK ≠ Error.Max := by decide

@[simp] theorem Error.Invalid_ne_OK : Error.Invalid ≠ Error.OK := by decide

@[simp] theorem Error.OK_ne_Invalid : Error.OK ≠ Error.Invalid := by decide

@[simp] theorem Error.Intr_ne_OK : Error.Intr ≠ Error.OK := by decide

@[simp] theorem Error.OK_ne_Intr : Error.OK ≠ Error.Intr := by decide

@[simp] theorem Error.Invalid_ne_Max : Error.Invalid ≠ Error.Max := by decide

@[simp] theorem Error.Max_ne_Invalid : Error.Max ≠ Error.Invalid := by decide

@[simp] theorem Error.cast_inj (a b : Nat) : Error.cast a = Error.cast b ↔ a = b := by
  simp [Error.cast]

theorem Error.cast_eq_Max (v : Nat) : Error.cast v = Error.Max ↔ v = 4294967291 := by
  simp [Error.cast, Error.Max]

theorem queue_setQueue (k : Kernel) (qi qj : Nat) (q : MessageQueue) :
    (k.setQueue qi q).queue qj = if qi = qj ∧ qi < k.queues.length then q else k.queue qj := by
  simp only [Kernel.queue, Kernel.setQueue, List.getD_eq_getElem?_getD, List.getElem?_set]
  by_cases h : qi = qj
  · subst h
    by_cases h2 : qi < k.queues.length
    · simp [h2]
    · simp [h2, List.getElem?_eq_none (Nat.le_of_not_lt h2)]
  · simp [h]

theorem queue_setQueue_same (k : Kernel) (qi : Nat) (q : MessageQueue)
    (h : qi < k.queues.length) : (k.setQueue qi q).queue qi = q := by
  simp [queue_setQueue, h]

theorem length_setQueue (k : Kernel) (qi : Nat) (q : MessageQueue) :
    (k.setQueue qi q).queues.length = k.queues.length := by
  simp [Kernel.setQueue]

/-- What `wakeupOneThreadNoLock` leaves alone: the table length, the memory, the
generation counter, the lock, the caller, and in every slot all members but the
selected wait list. -/
theorem wakeupOne_frame (k : Kernel) (qi : Nat) (w : WaitList) (r : Error) :
    (wakeupOneThreadNoLock k qi w r).queues.length = k.queues.length ∧
    (wakeupOneThreadNoLock k qi w r).memory = k.memory ∧
    (wakeupOneThreadNoLock k qi w r).numCreatedQueues = k.numCreatedQueues ∧
    (wakeupOneThreadNoLock k qi w r).schedulerLocked = k.schedulerLocked ∧
    (wakeupOneThreadNoLock k qi w r).currentThread = k.currentThread ∧
    (wakeupOneThreadNoLock k qi w r).currentProcess = k.currentProcess ∧
    ∀ qj, ((wakeupOneThreadNoLock k qi w r).queue qj).first = (k.queue qj).first ∧
      ((wakeupOneThreadNoLock k qi w r).queue qj).used = (k.queue qj).used ∧
      ((wakeupOneThreadNoLock k qi w r).queue qj).size = (k.queue qj).size ∧
      ((wakeupOneThreadNoLock k qi w r).queue qj).messages = (k.queue qj).messages ∧
      ((wakeupOneThreadNoLock k qi w r).queue qj).uid = (k.queue qj).uid ∧
      ((wakeupOneThreadNoLock k qi w r).queue qj).pid = (k.queue qj).pid ∧
      ((wakeupOneThreadNoLock k qi w r).queue qj).flags = (k.queue qj).flags := by
  unfold wakeupOneThreadNoLock
  dsimp only
  split
  · simp
  · rename_i t rest hw
    refine ⟨by simp [Kernel.setQueue], rfl, rfl, rfl, rfl, rfl, ?_⟩
    intro qj
    have hq : ∀ q1 : MessageQueue, (Kernel.queue { k.setQueue qi q1 with threads := fun u =>
        if u = t then { queueWaitResult := r, runnable := true } else k.threads u } qj)
        = (k.setQueue qi q1).queue qj := fun _ => rfl
    simp only [hq, queue_setQueue]
    split
    · rename_i h
      obtain ⟨rfl, _⟩ := h
      cases w <;> simp [MessageQueue.setWaitList]
    · simp

theorem wakeupOne_queue_same (k : Kernel) (qi : Nat) (w : WaitList) (r : Error)
    (h : qi < k.queues.length) :
    (wakeupOneThreadNoLock k qi w r).queue qi =
      (k.queue qi).setWaitList w ((k.queue qi).waitList w).tail := by
  unfold wakeupOneThreadNoLock
  dsimp only
  split
  · rename_i hw
    rw [hw]
    generalize k.queue qi = q at hw
    cases q
    cases w <;> simp_all [MessageQueue.setWaitList, MessageQueue.waitList]
  · rename_i t rest hw
    rw [hw]
    exact queue_setQueue_same k qi _ h

theorem wakeupOne_queue_other (k : Kernel) (qi qj : Nat) (w : WaitList) (r : Error)
    (h : qj ≠ qi) : (wakeupOneThreadNoLock k qi w r).queue qj = k.queue qj := by
  unfold wakeupOneThreadNoLock
  dsimp only
  split
  · rfl
  · have := queue_setQueue k qi qj ((k.queue qi).setWaitList w ‹_›)
    simp only [show ¬ (qi = qj ∧ qi < k.queues.length) from fun hh => h hh.1.symm,
      if_false] at this
    exact this

theorem wakeupOne_threads (k : Kernel) (qi : Nat) (w : WaitList) (r : Error) :
    (wakeupOneThreadNoLock k qi w r).threads = fun u =>
      if ((k.queue qi).waitList w).head? = some u then
        { queueWaitResult := r, runnable := true } else k.threads u := by
  unfold wakeupOneThreadNoLock
  dsimp only
  split
  · rename_i hw
    simp [hw]
  · rename_i t rest hw
    funext u
    simp [hw, eq_comm]

/-- The transfer of `internal::sendMessage` on a queue that is not full. -/
theorem sendLoop_transfer (k : Kernel) (qi : Nat) (m : Message) (flags : MessageFlags)
    (h : qi < k.queues.length) (hne : (k.queue qi).used ≠ (k.queue qi).size)
    (hs : (k.queue qi).size ≠ 0) :
    ∃ k1, sendLoop k qi m flags = .returned Error.OK k1 ∧
      k1.queue qi = { k.queue qi with
        used := ((k.queue qi).used + 1) % 4294967296,
        receiveQueue := (k.queue qi).receiveQueue.tail } ∧
      (∀ qj, qj ≠ qi → k1.queue qj = k.queue qj) ∧
      k1.memory = (fun a =>
        if a = (k.queue qi).messages +
            (((k.queue qi).first + (k.queue qi).used) % 4294967296) % (k.queue qi).size
        then m else k.memory a) ∧
      k1.queues.length = k.queues.length ∧
      k1.numCreatedQueues = k.numCreatedQueues ∧
      k1.currentThread = k.currentThread ∧
      k1.currentProcess = k.currentProcess ∧
      k1.schedulerLocked = false ∧
      k1.threads = (fun u =>
        if (k.queue qi).receiveQueue.head? = some u then
          { queueWaitResult := Error.OK, runnable := true } else k.threads u) := by
  have hrun : sendLoop k qi m flags = .returned Error.OK (unlockScheduler (rescheduleAllNoLock
      (wakeupOneThreadNoLock ((k.writeMessage ((k.queue qi).messages +
        (((k.queue qi).first + (k.queue qi).used) % 4294967296) % (k.queue qi).size) m).setQueue qi
          { k.queue qi with used := ((k.queue qi).used + 1) % 4294967296 })
        qi .receiveQueue Error.OK))) := by
    simp only [sendLoop, if_neg hne, if_neg hs]
  refine ⟨_, hrun, ?_⟩
  simp only [rescheduleAllNoLock, unlockScheduler]
  set k0 := (k.writeMessage ((k.queue qi).messages +
    (((k.queue qi).first + (k.queue qi).used) % 4294967296) % (k.queue qi).size) m).setQueue qi
      { k.queue qi with used := ((k.queue qi).used + 1) % 4294967296 } with hk0
  have hlen : k0.queues.length = k.queues.length := by simp [hk0, Kernel.setQueue, Kernel.writeMessage]
  have hq0 : k0.queue qi = { k.queue qi with used := ((k.queue qi).used + 1) % 4294967296 } := by
    rw [hk0]; exact queue_setQueue_same _ _ _ (by simpa [Kernel.writeMessage] using h)
  have hqo : ∀ qj, qj ≠ qi → k0.queue qj = k.queue qj := by
    intro qj hj
    rw [hk0, queue_setQueue]
    simp [Ne.symm hj]
    rfl
  have hfr := wakeupOne_frame k0 qi .receiveQueue Error.OK
  refine ⟨?_, ?_, ?_, ?_, ?_, ?_, ?_, trivial, ?_⟩
  · show (wakeupOneThreadNoLock k0 qi .receiveQueue Error.OK).queue qi = _
    rw [wakeupOne_queue_same _ _ _ _ (by omega), hq0]
    simp [MessageQueue.setWaitList, MessageQueue.waitList]
  · intro qj hj
    show (wakeupOneThreadNoLock k0 qi .receiveQueue Error.OK).queue qj = _
    rw [wakeupOne_queue_other _ _ _ _ _ hj, hqo qj hj]
  · show (wakeupOneThreadNoLock k0 qi .receiveQueue Error.OK).memory = _
    rw [hfr.2.1]; rfl
  · show (wakeupOneThreadNoLock k0 qi .receiveQueue Error.OK).queues.length = _
    rw [hfr.1, hlen]
  · show (wakeupOneThreadNoLock k0 qi .receiveQueue Error.OK).numCreatedQueues = _
    rw [hfr.2.2.1]; rfl
  · show (wakeupOneThreadNoLock k0 qi .receiveQueue Error.OK).currentThread = _
    rw [hfr.2.2.2.2.1]; rfl
  · show (wakeupOneThreadNoLock k0 qi .receiveQueue Error.OK).currentProcess = _
    rw [hfr.2.2.2.2.2.1]; rfl
  · show (wakeupOneThreadNoLock k0 qi .receiveQueue Error.OK).threads = _
    rw [wakeupOne_threads, hq0]
    rfl

/-- The common tail of the three transfers: wake one context, reschedule, unlock. -/
theorem wake_unlock_spec (k0 : Kernel) (qi : Nat) (w : WaitList) (h : qi < k0.queues.length) :
    (unlockScheduler (rescheduleAllNoLock (wakeupOneThreadNoLock k0 qi w Error.OK))).queue qi
        = (k0.queue qi).setWaitList w ((k0.queue qi).waitList w).tail ∧
    (∀ qj, qj ≠ qi →
      (unlockScheduler (rescheduleAllNoLock (wakeupOneThreadNoLock k0 qi w Error.OK))).queue qj
        = k0.queue qj) ∧
    (unlockScheduler (rescheduleAllNoLock (wakeupOneThreadNoLock k0 qi w Error.OK))).memory
        = k0.memory ∧
    (unlockScheduler (rescheduleAllNoLock
        (wakeupOneThreadNoLock k0 qi w Error.OK))).queues.length = k0.queues.length ∧
    (unlockScheduler (rescheduleAllNoLock
        (wakeupOneThreadNoLock k0 qi w Error.OK))).numCreatedQueues = k0.numCreatedQueues ∧
    (unlockScheduler (rescheduleAllNoLock
        (wakeupOneThreadNoLock k0 qi w Error.OK))).currentThread = k0.currentThread ∧
    (unlockScheduler (rescheduleAllNoLock
        (wakeupOneThreadNoLock k0 qi w Error.OK))).currentProcess = k0.currentProcess ∧
    (unlockScheduler (rescheduleAllNoLock
        (wakeupOneThreadNoLock k0 qi w Error.OK))).schedulerLocked = false ∧
    (unlockScheduler (rescheduleAllNoLock (wakeupOneThreadNoLock k0 qi w Error.OK))).threads
        = (fun u => if ((k0.queue qi).waitList w).head? = some u then
            { queueWaitResult := Error.OK, runnable := true } else k0.threads u) := by
  have hfr := wakeupOne_frame k0 qi w Error.OK
  refine ⟨?_, ?_, ?_, ?_, ?_, ?_, ?_, rfl, ?_⟩
  · exact wakeupOne_queue_same _ _ _ _ h
  · intro qj hj
    exact wakeupOne_queue_other _ _ _ _ _ hj
  · exact hfr.2.1
  · exact hfr.1
  · exact hfr.2.2.1
  · exact hfr.2.2.2.2.1
  · exact hfr.2.2.2.2.2.1
  · exact wakeupOne_threads _ _ _ _

/-- The transfer of `internal::receiveMessage` on a queue that is not empty. -/
theorem receiveLoop_transfer (k : Kernel) (qi : Nat) (flags : MessageFlags)
    (h : qi < k.queues.length) (hne : (k.queue qi).used ≠ 0)
    (hs : (k.queue qi).size ≠ 0) :
    ∃ k1, receiveLoop k qi flags =
        (.returned Error.OK k1, some (k.memory ((k.queue qi).messages + (k.queue qi).first))) ∧
      k1.queue qi = { k.queue qi with
        first := (((k.queue qi).first + 1) % 4294967296) % (k.queue qi).size,
        used := (k.queue qi).used - 1,
        sendQueue := (k.queue qi).sendQueue.tail } ∧
      (∀ qj, qj ≠ qi → k1.queue qj = k.queue qj) ∧
      k1.memory = k.memory ∧
      k1.queues.length = k.queues.length ∧
      k1.numCreatedQueues = k.numCreatedQueues ∧
      k1.currentThread = k.currentThread ∧
      k1.currentProcess = k.currentProcess ∧
      k1.schedulerLocked = false ∧
      k1.threads = (fun u =>
        if (k.queue qi).sendQueue.head? = some u then
          { queueWaitResult := Error.OK, runnable := true } else k.threads u) := by
  have hrun : receiveLoop k qi flags = (.returned Error.OK (unlockScheduler (rescheduleAllNoLock
      (wakeupOneThreadNoLock (k.setQueue qi { k.queue qi with
          first := (((k.queue qi).first + 1) % 4294967296) % (k.queue qi).size,
          used := (k.queue qi).used - 1 }) qi .sendQueue Error.OK))),
        some (k.memory ((k.queue qi).messages + (k.queue qi).first))) := by
    simp only [receiveLoop, if_neg hne, if_neg hs]
  refine ⟨_, hrun, ?_⟩
  set k0 := k.setQueue qi { k.queue qi with
          first := (((k.queue qi).first + 1) % 4294967296) % (k.queue qi).size,
          used := (k.queue qi).used - 1 } with hk0
  have hlen : k0.queues.length = k.queues.length := by simp [hk0, Kernel.setQueue]
  have hq0 : k0.queue qi = { k.queue qi with
          first := (((k.queue qi).first + 1) % 4294967296) % (k.queue qi).size,
          used := (k.queue qi).used - 1 } := by
    rw [hk0]; exact queue_setQueue_same _ _ _ h
  have hqo : ∀ qj, qj ≠ qi → k0.queue qj = k.queue qj := by
    intro qj hj
    rw [hk0, queue_setQueue]
    simp [Ne.symm hj]
  obtain ⟨h1, h2, h3, h4, h5, h6, h7, h8, h9⟩ := wake_unlock_spec k0 qi .sendQueue (by omega)
  refine ⟨?_, ?_, ?_, ?_, ?_, ?_, ?_, h8, ?_⟩
  · rw [h1, hq0]; simp [MessageQueue.setWaitList, MessageQueue.waitList]
  · intro qj hj; rw [h2 qj hj, hqo qj hj]
  · rw [h3]; rfl
  · rw [h4, hlen]
  · rw [h5]; rfl
  · rw [h6]; rfl
  · rw [h7]; rfl
  · rw [h9, hq0]; rfl

/-- The front insert of `IOS_JamMessage` on a queue that is not full. -/
theorem jamLoop_transfer (k : Kernel) (qi : Nat) (m : Message) (flags : MessageFlags)
    (h : qi < k.queues.length) (hne : (k.queue qi).used ≠ (k.queue qi).size) :
    ∃ k1, jamLoop k qi m flags = .returned Error.OK k1 ∧
      k1.queue qi = { k.queue qi with
        first := (if (k.queue qi).first = 0 then
            ((k.queue qi).size + 4294967296 - 1) % 4294967296 else (k.queue qi).first - 1),
        used := ((k.queue qi).used + 1) % 4294967296,
        receiveQueue := (k.queue qi).receiveQueue.tail } ∧
      (∀ qj, qj ≠ qi → k1.queue qj = k.queue qj) ∧
      k1.memory = (fun a =>
        if a = (k.queue qi).messages + (if (k.queue qi).first = 0 then
            ((k.queue qi).size + 4294967296 - 1) % 4294967296 else (k.queue qi).first - 1)
        then m else k.memory a) ∧
      k1.queues.length = k.queues.length ∧
      k1.numCreatedQueues = k.numCreatedQueues ∧
      k1.currentThread = k.currentThread ∧
      k1.currentProcess = k.currentProcess ∧
      k1.schedulerLocked = false ∧
      k1.threads = (fun u =>
        if (k.queue qi).receiveQueue.head? = some u then
          { queueWaitResult := Error.OK, runnable := true } else k.threads u) := by
  have hrun : jamLoop k qi m flags = .returned Error.OK (unlockScheduler (rescheduleAllNoLock
      (wakeupOneThreadNoLock ((k.writeMessage ((k.queue qi).messages +
        (if (k.queue qi).first = 0 then
            ((k.queue qi).size + 4294967296 - 1) % 4294967296 else (k.queue qi).first - 1))
          m).setQueue qi
          { k.queue qi with
            first := (if (k.queue qi).first = 0 then
              ((k.queue qi).size + 4294967296 - 1) % 4294967296 else (k.queue qi).first - 1),
            used := ((k.queue qi).used + 1) % 4294967296 })
        qi .receiveQueue Error.OK))) := by
    simp only [jamLoop, if_neg hne]
  refine ⟨_, hrun, ?_⟩
  set nf := (if (k.queue qi).first = 0 then
            ((k.queue qi).size + 4294967296 - 1) % 4294967296 else (k.queue qi).first - 1) with hnf
  set k0 := (k.writeMessage ((k.queue qi).messages + nf) m).setQueue qi
      { k.queue qi with first := nf, used := ((k.queue qi).used + 1) % 4294967296 } with hk0
  have hlen : k0.queues.length = k.queues.length := by
    simp [hk0, Kernel.setQueue, Kernel.writeMessage]
  have hq0 : k0.queue qi =
      { k.queue qi with first := nf, used := ((k.queue qi).used + 1) % 4294967296 } := by
    rw [hk0]; exact queue_setQueue_same _ _ _ (by simpa [Kernel.writeMessage] using h)
  have hqo : ∀ qj, qj ≠ qi → k0.queue qj = k.queue qj := by
    intro qj hj
    rw [hk0, queue_setQueue]
    simp [Ne.symm hj]
    rfl
  obtain ⟨h1, h2, h3, h4, h5, h6, h7, h8, h9⟩ := wake_unlock_spec k0 qi .receiveQueue (by omega)
  refine ⟨?_, ?_, ?_, ?_, ?_, ?_, ?_, h8, ?_⟩
  · rw [h1, hq0]; simp [MessageQueue.setWaitList, MessageQueue.waitList]
  · intro qj hj; rw [h2 qj hj, hqo qj hj]
  · rw [h3]; rfl
  · rw [h4, hlen]
  · rw [h5]; rfl
  · rw [h6]; rfl
  · rw [h7]; rfl
  · rw [h9, hq0]; rfl

theorem queue_lockScheduler (k : Kernel) (qi : Nat) : (lockScheduler k).queue qi = k.queue qi :=
  rfl

theorem contents_lockScheduler (k : Kernel) (qi : Nat) :
    contents (lockScheduler k) qi = contents k qi := rfl

/-- Distinct offsets below the capacity select distinct ring cells. -/
theorem ring_index_ne (C f i u : Nat) (hi : i < u) (hu : u < C) :
    (f + i) % C ≠ (f + u) % C := by
  intro h
  have h1 : i % C = u % C := Nat.ModEq.add_left_cancel' f h
  rw [Nat.mod_eq_of_lt (by omega), Nat.mod_eq_of_lt hu] at h1
  omega

/-- A transfer by send appends the message to the logical contents, provided
`first + used` does not overflow 32 bits. -/
theorem contents_send (k k1 : Kernel) (qi : Nat) (m : Message)
    (hused : (k.queue qi).used < (k.queue qi).size)
    (hsz : (k.queue qi).size < 4294967296)
    (hov : (k.queue qi).first + (k.queue qi).used < 4294967296)
    (hq : k1.queue qi = { k.queue qi with
        used := ((k.queue qi).used + 1) % 4294967296,
        receiveQueue := (k.queue qi).receiveQueue.tail })
    (hm : k1.memory = (fun a =>
        if a = (k.queue qi).messages +
            (((k.queue qi).first + (k.queue qi).used) % 4294967296) % (k.queue qi).size
        then m else k.memory a)) :
    contents k1 qi = contents k qi ++ [m] := by
  unfold contents
  simp only [hq, hm]
  rw [Nat.mod_eq_of_lt (show (k.queue qi).used + 1 < 4294967296 by omega),
    Nat.mod_eq_of_lt hov, List.range_succ, List.map_append]
  congr 1
  · apply List.map_congr_left
    intro i hi
    have hi2 : i < (k.queue qi).used := List.mem_range.mp hi
    have := ring_index_ne (k.queue qi).size (k.queue qi).first i (k.queue qi).used hi2 hused
    simp [this]
  · simp

/-- A transfer by receive removes the first element of the logical contents, which
is the message at `first`. -/
theorem contents_receive (k k1 : Kernel) (qi : Nat)
    (hne : (k.queue qi).used ≠ 0)
    (hfirst : (k.queue qi).first < (k.queue qi).size)
    (hsz : (k.queue qi).size < 4294967296)
    (hq : k1.queue qi = { k.queue qi with
        first := (((k.queue qi).first + 1) % 4294967296) % (k.queue qi).size,
        used := (k.queue qi).used - 1,
        sendQueue := (k.queue qi).sendQueue.tail })
    (hm : k1.memory = k.memory) :
    contents k qi =
      k.memory ((k.queue qi).messages + (k.queue qi).first) :: contents k1 qi := by
  unfold contents
  simp only [hq, hm]
  obtain ⟨u, hu⟩ : ∃ u, (k.queue qi).used = u + 1 := ⟨(k.queue qi).used - 1, by omega⟩
  rw [hu, List.range_succ_eq_map, List.map_cons, List.map_map,
    Nat.mod_eq_of_lt (show (k.queue qi).first + 1 < 4294967296 by omega)]
  simp only [Nat.add_zero, Nat.mod_eq_of_lt hfirst, Nat.add_sub_cancel]
  congr 1
  apply List.map_congr_left
  intro i _
  simp only [Function.comp, Nat.mod_add_mod]
  congr 3
  omega

theorem contents_length (k : Kernel) (qi : Nat) :
    (contents k qi).length = (k.queue qi).used := by
  simp [contents]

/-- A call entered with the scheduler lock held does not return. -/
theorem callOp_locked (k : Kernel) (qi : Nat) (flags : MessageFlags) (op : QueueOp)
    (h : k.schedulerLocked = true) : callOp k qi flags op = none := by
  simp [callOp, h]

theorem callOp_send (k : Kernel) (qi : Nat) (flags : MessageFlags) (m : Message)
    (h : k.schedulerLocked = false) :
    callOp k qi flags (.send m) =
      match sendMessage k qi m flags with
      | .returned e k1 => some ((e, Option.none), k1)
      | _ => Option.none := by
  simp [callOp, h]

theorem callOp_receive (k : Kernel) (qi : Nat) (flags : MessageFlags)
    (h : k.schedulerLocked = false) :
    callOp k qi flags .receive =
      match receiveMessage k qi flags with
      | (.returned e k1, out) => some ((e, out), k1)
      | _ => Option.none := by
  simp [callOp, h]

/-- One non-blocking call on a valid queue of capacity at most `2 ^ 31`, entered with
the scheduler lock not held, does what the bounded FIFO list does and keeps the
queue valid; when it returns OK the lock is not held afterwards. -/
theorem callOp_simulates (k : Kernel) (qi : Nat) (op : QueueOp)
    (h : qi < k.queues.length) (hv : (k.queue qi).valid)
    (hC : (k.queue qi).size ≤ 2147483648) (hlock : k.schedulerLocked = false) :
    ∃ k1, callOp k qi MessageFlags.nonBlocking op =
        some ((fifoStep (k.queue qi).size (contents k qi) op).1, k1) ∧
      contents k1 qi = (fifoStep (k.queue qi).size (contents k qi) op).2 ∧
      k1.queues.length = k.queues.length ∧
      (k1.queue qi).valid ∧ (k1.queue qi).size = (k.queue qi).size ∧
      ((fifoStep (k.queue qi).size (contents k qi) op).1.1 = Error.OK →
        k1.schedulerLocked = false) := by
  obtain ⟨h1, h2, h3, h4⟩ := hv
  cases op with
  | send m =>
    rw [callOp_send k qi _ m hlock]
    by_cases hfull : (k.queue qi).used = (k.queue qi).size
    · refine ⟨lockScheduler k, ?_, ?_, rfl, ⟨h1, h2, h3, h4⟩, rfl, ?_⟩
      · simp [sendMessage, sendLoop, queue_lockScheduler, hfull, fifoStep,
          contents_length, MessageFlags.nonBlocking]
      · simp [fifoStep, contents_length, hfull, contents_lockScheduler]
      · simp [fifoStep, contents_length, hfull]
    · obtain ⟨k1, hr, hq, _, hm, hl, _, _, _, hunl, _⟩ :=
        sendLoop_transfer (lockScheduler k) qi m MessageFlags.nonBlocking h hfull (by
          rw [queue_lockScheduler]; omega)
      have hlt : (k.queue qi).used < (k.queue qi).size := by omega
      refine ⟨k1, ?_, ?_, hl, ?_, ?_, fun _ => hunl⟩
      · simp [sendMessage, hr, fifoStep, contents_length, hlt]
      · rw [show (fifoStep (k.queue qi).size (contents k qi) (QueueOp.send m)).2
            = contents k qi ++ [m] by simp [fifoStep, contents_length, hlt]]
        exact contents_send k k1 qi m hlt h2 (by omega) hq hm
      · rw [hq, queue_lockScheduler]
        refine ⟨h1, h2, h3, ?_⟩
        show ((k.queue qi).used + 1) % 4294967296 ≤ (k.queue qi).size
        rw [Nat.mod_eq_of_lt (by omega)]
        omega
      · rw [hq]; rfl
  | receive =>
    rw [callOp_receive k qi _ hlock]
    by_cases hempty : (k.queue qi).used = 0
    · have hc : contents k qi = [] := List.eq_nil_of_length_eq_zero (by
        rw [contents_length]; exact hempty)
      refine ⟨lockScheduler k, ?_, ?_, rfl, ⟨h1, h2, h3, h4⟩, rfl, ?_⟩
      · simp [receiveMessage, receiveLoop, queue_lockScheduler, hempty, fifoStep, hc,
          MessageFlags.nonBlocking]
      · simp [fifoStep, hc, contents_lockScheduler]
      · simp [fifoStep, hc]
    · obtain ⟨k1, hr, hq, _, hm, hl, _, _, _, hunl, _⟩ :=
        receiveLoop_transfer (lockScheduler k) qi MessageFlags.nonBlocking h hempty (by
          rw [queue_lockScheduler]; omega)
      have hc := contents_receive k k1 qi hempty h3 h2 hq hm
      refine ⟨k1, ?_, ?_, hl, ?_, ?_, fun _ => hunl⟩
      · rw [hc]
        simp [receiveMessage, hr, fifoStep]
        rfl
      · rw [hc]; simp [fifoStep]
      · rw [hq, queue_lockScheduler]
        refine ⟨h1, h2, Nat.mod_lt _ (by omega), ?_⟩
        show (k.queue qi).used - 1 ≤ (k.queue qi).size
        omega
      · rw [hq]; rfl

/-- C1 (amended): for a valid queue of capacity `1 ≤ C ≤ 2 ^ 31`, entered with the
scheduler lock not held, and every sequence of non-blocking send / receive calls in
which no call follows a refused one: every call returns, the codes and outputs are
those of the bounded FIFO list started at the logical contents (a send on a
non-full queue gives OK and appends, a receive on a non-empty queue gives OK and
outputs and removes the first element, a refused call gives Max and changes
nothing), and the logical contents at the end are those of the FIFO list. -/
theorem fifo_refinement (k : Kernel) (qi : Nat) (ops : List QueueOp)
    (h : qi < k.queues.length) (hv : (k.queue qi).valid)
    (hC : (k.queue qi).size ≤ 2147483648) (hlock : k.schedulerLocked = false)
    (hops : noCallAfterRefusal (k.queue qi).size (contents k qi) ops = true) :
    ∃ k1, runOps k qi MessageFlags.nonBlocking ops =
        some ((fifoRun (k.queue qi).size (contents k qi) ops).1, k1) ∧
      contents k1 qi = (fifoRun (k.queue qi).size (contents k qi) ops).2 := by
  induction ops generalizing k with
  | nil => exact ⟨k, rfl, rfl⟩
  | cons op ops ih =>
    obtain ⟨k1, hcall, hcont, hlen, hv1, hsize, hunl⟩ :=
      callOp_simulates k qi op h hv hC hlock
    cases ops with
    | nil =>
      refine ⟨k1, ?_, ?_⟩
      · simp only [runOps, hcall, fifoRun]
      · simp only [fifoRun, hcont]
    | cons op2 ops2 =>
      simp only [noCallAfterRefusal, Bool.and_eq_true, decide_eq_true_eq] at hops
      obtain ⟨hok, hrest⟩ := hops
      obtain ⟨k2, hrun, hcont2⟩ := ih k1 (by omega) hv1 (by omega) (hunl hok)
        (by rw [hsize, hcont]; exact hrest)
      refine ⟨k2, ?_, ?_⟩
      · rw [hsize, hcont] at hrun
        rw [runOps]
        simp only [hcall, hrun]
        rfl
      · rw [hsize, hcont] at hcont2
        rw [hcont2]
        rfl

/-- C1, witness: on an empty queue of capacity 2, send 11, send 12, receive, send 13,
receive, receive give 11, 12, 13 in the order sent, and a last receive is refused. -/
theorem fifo_refinement_witness :
    ∃ k1, runOps capacityTwoKernel 0 MessageFlags.nonBlocking endToEndScenario =
        some ([(Error.OK, none), (Error.OK, none), (Error.OK, some 11), (Error.OK, none),
               (Error.OK, some 12), (Error.OK, some 13), (Error.Max, none)], k1) ∧
      contents k1 0 = [] :=
  fifo_refinement capacityTwoKernel 0 endToEndScenario (by decide) (by decide) (by decide)
    (by decide) (by decide)

/-- C1, counterexample: on a valid queue of capacity `2 ^ 32 - 1` with
`first = 2 ^ 32 - 2` and two messages stored, entered with the lock not held,
`first + used` wraps to 0, so a send returns OK but overwrites the second stored
message instead of appending. -/
theorem fifo_refinement_fails_on_overflow :
    0 < overflowKernel.queues.length ∧ (overflowKernel.queue 0).valid ∧
    overflowKernel.schedulerLocked = false ∧
    ¬ ∃ k1, runOps overflowKernel 0 MessageFlags.nonBlocking [.send 7] =
        some ((fifoRun (overflowKernel.queue 0).size (contents overflowKernel 0) [.send 7]).1, k1) ∧
      contents k1 0 =
        (fifoRun (overflowKernel.queue 0).size (contents overflowKernel 0) [.send 7]).2 := by
  refine ⟨by decide, by decide, rfl, ?_⟩
  rintro ⟨k1, hrun, hcont⟩
  obtain ⟨k2, hr, hq, _, hm, _⟩ :=
    sendLoop_transfer (lockScheduler overflowKernel) 0 7 MessageFlags.nonBlocking
      (by decide) (by decide) (by decide)
  have hk : k1 = k2 := by
    simp only [runOps, callOp_send overflowKernel 0 _ 7 rfl, sendMessage, hr] at hrun
    injection hrun with hrun
    injection hrun with _ hrun
    exact hrun.symm
  subst hk
  have h0 : (contents k1 0).get? 1 = some 7 := by
    unfold contents
    rw [hq, hm]
    decide
  rw [hcont] at h0
  revert h0
  decide

/-- The end-to-end scenario of the specification on the empty queue of capacity 2: the
refused third call returns with the scheduler lock held, and the receive that
follows it is entered with the lock held, so the sequence does not run to its end;
its first three calls return OK, OK, Max and leave the lock held. -/
theorem refusedSendScenario_stops :
    runOps capacityTwoKernel 0 MessageFlags.nonBlocking refusedSendScenario = none ∧
    (runOps capacityTwoKernel 0 MessageFlags.nonBlocking (refusedSendScenario.take 3)).map
        Prod.fst = some [(Error.OK, none), (Error.OK, none), (Error.Max, none)] ∧
    (runOps capacityTwoKernel 0 MessageFlags.nonBlocking (refusedSendScenario.take 3)).map
        (fun r => r.2.schedulerLocked) = some true := by
  refine ⟨?_, by decide, by decide⟩
  rfl

/-- The decremented head of jam, for a valid queue: it is below the capacity, it is
the ring predecessor of `first`, and advancing it by one gives `first` back. -/
theorem jam_first_spec (f C : Nat) (hC : 1 ≤ C) (hC2 : C < 4294967296) (hf : f < C) :
    (if f = 0 then (C + 4294967296 - 1) % 4294967296 else f - 1) < C ∧
    (if f = 0 then (C + 4294967296 - 1) % 4294967296 else f - 1) = (f + (C - 1)) % C ∧
    (((if f = 0 then (C + 4294967296 - 1) % 4294967296 else f - 1) + 1) % 4294967296) % C = f := by
  by_cases h0 : f = 0
  · subst h0
    have e : (C + 4294967296 - 1) % 4294967296 = C - 1 := by
      rw [show C + 4294967296 - 1 = (C - 1) + 4294967296 by omega, Nat.add_mod_right,
        Nat.mod_eq_of_lt (by omega)]
    simp only [if_true, e]
    refine ⟨by omega, ?_, ?_⟩
    · rw [Nat.zero_add, Nat.mod_eq_of_lt (by omega)]
    · rw [show C - 1 + 1 = C by omega, Nat.mod_eq_of_lt hC2, Nat.mod_self]
  · simp only [if_neg h0]
    refine ⟨by omega, ?_, ?_⟩
    · rw [show f + (C - 1) = (f - 1) + C by omega, Nat.add_mod_right,
        Nat.mod_eq_of_lt (by omega)]
    · rw [show f - 1 + 1 = f by omega, Nat.mod_eq_of_lt (show f < 4294967296 by omega),
        Nat.mod_eq_of_lt hf]

/-- A front insert by jam puts the message in front of the logical contents. -/
theorem contents_jam (k k1 : Kernel) (qi : Nat) (m : Message)
    (hv : (k.queue qi).valid) (hused : (k.queue qi).used < (k.queue qi).size)
    (hq : k1.queue qi = { k.queue qi with
        first := (if (k.queue qi).first = 0 then
            ((k.queue qi).size + 4294967296 - 1) % 4294967296 else (k.queue qi).first - 1),
        used := ((k.queue qi).used + 1) % 4294967296,
        receiveQueue := (k.queue qi).receiveQueue.tail })
    (hm : k1.memory = (fun a =>
        if a = (k.queue qi).messages + (if (k.queue qi).first = 0 then
            ((k.queue qi).size + 4294967296 - 1) % 4294967296 else (k.queue qi).first - 1)
        then m else k.memory a)) :
    contents k1 qi = m :: contents k qi := by
  obtain ⟨h1, h2, h3, h4⟩ := hv
  obtain ⟨hnf1, hnf2, _⟩ := jam_first_spec (k.queue qi).first (k.queue qi).size h1 h2 h3
  unfold contents
  simp only [hq, hm]
  generalize hnf : (if (k.queue qi).first = 0 then
    ((k.queue qi).size + 4294967296 - 1) % 4294967296 else (k.queue qi).first - 1) = nf at *
  rw [Nat.mod_eq_of_lt (show (k.queue qi).used + 1 < 4294967296 by omega),
    List.range_succ_eq_map, List.map_cons, List.map_map]
  congr 1
  · simp [Nat.mod_eq_of_lt hnf1]
  · apply List.map_congr_left
    intro i hi
    have hi2 : i < (k.queue qi).used := List.mem_range.mp hi
    have hne := ring_index_ne (k.queue qi).size (k.queue qi).first i ((k.queue qi).size - 1)
      (by omega) (by omega)
    have hidx : (nf + (i + 1)) % (k.queue qi).size
        = ((k.queue qi).first + i) % (k.queue qi).size := by
      rw [hnf2, Nat.mod_add_mod,
        show (k.queue qi).first + ((k.queue qi).size - 1) + (i + 1)
          = ((k.queue qi).first + i) + (k.queue qi).size by omega, Nat.add_mod_right]
    simp only [Function.comp, Nat.succ_eq_add_one, hidx]
    rw [if_neg]
    rw [hnf2]
    intro hcontra
    exact hne (Nat.add_left_cancel hcontra)

theorem getMessageQueue_some (k : Kernel) (id qi : Nat) (h : getMessageQueue k id = some qi) :
    qi = id &&& 0xFFF ∧ qi < k.queues.length ∧ (k.queue qi).pid = k.currentProcess := by
  unfold getMessageQueue at h
  dsimp only at h
  split at h
  · cases h
  · split at h
    · cases h
    · rename_i h1 h2
      injection h with h
      subst h
      exact ⟨rfl, by omega, by simpa using h2⟩

theorem getMessageQueue_congr (k k1 : Kernel) (id : Nat)
    (hl : k1.queues.length = k.queues.length) (hp : k1.currentProcess = k.currentProcess)
    (hpid : ∀ qj, (k1.queue qj).pid = (k.queue qj).pid) :
    getMessageQueue k1 id = getMessageQueue k id := by
  simp only [getMessageQueue, hl, hp, hpid]

theorem getMessageQueue_lockScheduler (k : Kernel) (id : Nat) :
    getMessageQueue (lockScheduler k) id = getMessageQueue k id := rfl

/-- Jam on a valid, non-full queue followed by a receive, with the facts needed to
continue from the state after the receive. -/
theorem jam_receive_core (k : Kernel) (id qi : Nat) (B : Message) (flags flags2 : MessageFlags)
    (hlook : getMessageQueue k id = some qi) (hv : (k.queue qi).valid)
    (hlt : (k.queue qi).used < (k.queue qi).size) :
    ∃ k1, IOS_JamMessage k id B flags = .returned Error.OK k1 ∧
      contents k1 qi = B :: contents k qi ∧
      ∃ k2, receiveMessage k1 qi flags2 = (.returned Error.OK k2, some B) ∧
        (k2.queue qi).first = (k.queue qi).first ∧
        (k2.queue qi).used = (k.queue qi).used ∧
        contents k2 qi = contents k qi ∧
        (k2.queue qi).size = (k.queue qi).size ∧
        k2.queues.length = k.queues.length := by
  obtain ⟨_, hlen, _⟩ := getMessageQueue_some k id qi hlook
  have hv0 := hv
  obtain ⟨h1, h2, h3, h4⟩ := hv
  obtain ⟨hnf1, hnf2, hnf3⟩ := jam_first_spec (k.queue qi).first (k.queue qi).size h1 h2 h3
  obtain ⟨k1, hr, hq, _, hm, hl, _⟩ :=
    jamLoop_transfer (lockScheduler k) qi B flags hlen (by rw [queue_lockScheduler]; omega)
  simp only [queue_lockScheduler] at hq hm
  have hjam : contents k1 qi = B :: contents k qi := contents_jam k k1 qi B hv0 hlt hq hm
  have hused1 : (k1.queue qi).used = (k.queue qi).used + 1 := by
    rw [hq]
    show ((k.queue qi).used + 1) % 4294967296 = _
    exact Nat.mod_eq_of_lt (by omega)
  have hsize1 : (k1.queue qi).size = (k.queue qi).size := by rw [hq]
  have hfirst1 : (k1.queue qi).first = (if (k.queue qi).first = 0 then
      ((k.queue qi).size + 4294967296 - 1) % 4294967296 else (k.queue qi).first - 1) := by
    rw [hq]
  obtain ⟨k2, hr2, hq2, _, hm2, hl2, _⟩ :=
    receiveLoop_transfer (lockScheduler k1) qi flags2
      (by show qi < k1.queues.length; rw [hl]; exact hlen)
      (by rw [queue_lockScheduler]; omega) (by rw [queue_lockScheduler]; omega)
  simp only [queue_lockScheduler] at hq2
  have hrec := contents_receive k1 k2 qi (by omega) (by rw [hfirst1, hsize1]; exact hnf1)
    (by omega) hq2 hm2
  rw [hjam] at hrec
  injection hrec with hout hrest
  refine ⟨k1, ?_, hjam, k2, ?_, ?_, ?_, hrest.symm, ?_, ?_⟩
  · simp only [IOS_JamMessage, getMessageQueue_lockScheduler, hlook, hr]
  · simp only [receiveMessage, hr2]
    rw [hout]
    rfl
  · rw [hq2]
    show (((k1.queue qi).first + 1) % 4294967296) % (k1.queue qi).size = _
    rw [hfirst1, hsize1]
    exact hnf3
  · rw [hq2]
    show (k1.queue qi).used - 1 = _
    omega
  · rw [hq2]; exact hsize1
  · rw [hl2]; exact hl

/-- C2: (1) on a valid queue that is not full, jam(B) returns OK and puts B in front
of the logical contents, the previous contents following in their order; an
immediately following receive returns OK, outputs B and restores `first`, `used`
and the logical contents. (2) On an empty valid queue of capacity at least 2,
send(A), jam(B), receive, receive all return OK and the receives output B, then A. -/
theorem jam_front_insert_undone_by_receive :
    (∀ (k : Kernel) (id qi : Nat) (B : Message) (flags flags2 : MessageFlags),
      getMessageQueue k id = some qi → (k.queue qi).valid →
      (k.queue qi).used < (k.queue qi).size →
      ∃ k1, IOS_JamMessage k id B flags = .returned Error.OK k1 ∧
        contents k1 qi = B :: contents k qi ∧
        ∃ k2, receiveMessage k1 qi flags2 = (.returned Error.OK k2, some B) ∧
          (k2.queue qi).first = (k.queue qi).first ∧
          (k2.queue qi).used = (k.queue qi).used ∧
          contents k2 qi = contents k qi) ∧
    (∀ (k : Kernel) (id qi : Nat) (A B : Message) (f1 f2 f3 f4 : MessageFlags),
      getMessageQueue k id = some qi → (k.queue qi).valid →
      (k.queue qi).used = 0 → 2 ≤ (k.queue qi).size →
      ∃ k1 k2 k3 k4, sendMessage k qi A f1 = .returned Error.OK k1 ∧
        IOS_JamMessage k1 id B f2 = .returned Error.OK k2 ∧
        receiveMessage k2 qi f3 = (.returned Error.OK k3, some B) ∧
        receiveMessage k3 qi f4 = (.returned Error.OK k4, some A)) := by
  constructor
  · intro k id qi B flags flags2 hlook hv hlt
    obtain ⟨k1, hj, hc, k2, hr, hf, hu, hc2, _⟩ :=
      jam_receive_core k id qi B flags flags2 hlook hv hlt
    exact ⟨k1, hj, hc, k2, hr, hf, hu, hc2⟩
  · intro k id qi A B f1 f2 f3 f4 hlook hv hused hsize
    obtain ⟨_, hlen, _⟩ := getMessageQueue_some k id qi hlook
    obtain ⟨h1, h2, h3, h4⟩ := hv
    obtain ⟨k1, hr1, hq1, hqo1, hm1, hl1, _, _, hp1, _⟩ :=
      sendLoop_transfer (lockScheduler k) qi A f1 hlen
        (by rw [queue_lockScheduler]; omega) (by rw [queue_lockScheduler]; omega)
    simp only [queue_lockScheduler] at hq1 hm1 hqo1
    have hc1 : contents k1 qi = contents k qi ++ [A] :=
      contents_send k k1 qi A (by omega) h2 (by omega) hq1 hm1
    have hc0 : contents k qi = [] := List.eq_nil_of_length_eq_zero (by
      rw [contents_length]; exact hused)
    rw [hc0, List.nil_append] at hc1
    have hused1 : (k1.queue qi).used = 1 := by
      rw [hq1]
      show ((k.queue qi).used + 1) % 4294967296 = 1
      rw [hused]
    have hsize1 : (k1.queue qi).size = (k.queue qi).size := by rw [hq1]
    have hfirst1 : (k1.queue qi).first = (k.queue qi).first := by rw [hq1]
    have hlook1 : getMessageQueue k1 id = some qi := by
      rw [← hlook]
      apply getMessageQueue_congr k k1 id hl1 hp1
      intro qj
      by_cases hj : qj = qi
      · subst hj; rw [hq1]
      · rw [hqo1 qj hj]
    have hv1 : (k1.queue qi).valid := ⟨by omega, by omega, by omega, by omega⟩
    obtain ⟨k2, hj, _, k3, hr3, hf3, hu3, hc3, hs3, hl3⟩ :=
      jam_receive_core k1 id qi B f2 f3 hlook1 hv1 (by omega)
    obtain ⟨k4, hr4, hq4, _, hm4, _⟩ :=
      receiveLoop_transfer (lockScheduler k3) qi f4
        (by show qi < k3.queues.length; rw [hl3, hl1]; exact hlen)
        (by rw [queue_lockScheduler]; omega) (by rw [queue_lockScheduler]; omega)
    simp only [queue_lockScheduler] at hq4
    have hrec := contents_receive k3 k4 qi (by omega) (by omega) (by omega) hq4 hm4
    rw [hc3, hc1] at hrec
    injection hrec with hout _
    refine ⟨k1, k2, k3, k4, ?_, hj, hr3, ?_⟩
    · simp only [sendMessage, hr1]
    · simp only [receiveMessage, hr4]
      rw [hout]
      rfl

/-- C2, witness: jam on the empty capacity-2 queue (the head wraps from 0 to 1), and
the send / jam / receive / receive scenario on it. -/
theorem jam_front_insert_witness :
    (∃ k1, IOS_JamMessage capacityTwoKernel 0 22 MessageFlags.none = .returned Error.OK k1 ∧
        contents k1 0 = [22] ∧
        ∃ k2, receiveMessage k1 0 MessageFlags.none = (.returned Error.OK k2, some 22) ∧
          (k2.queue 0).first = 0 ∧ (k2.queue 0).used = 0 ∧ contents k2 0 = []) ∧
    (∃ k1 k2 k3 k4,
        sendMessage capacityTwoKernel 0 11 MessageFlags.none = .returned Error.OK k1 ∧
        IOS_JamMessage k1 0 22 MessageFlags.none = .returned Error.OK k2 ∧
        receiveMessage k2 0 MessageFlags.none = (.returned Error.OK k3, some 22) ∧
        receiveMessage k3 0 MessageFlags.none = (.returned Error.OK k4, some 11)) :=
  ⟨jam_front_insert_undone_by_receive.1 capacityTwoKernel 0 0 22 MessageFlags.none
      MessageFlags.none (by decide) (by decide) (by decide),
   jam_front_insert_undone_by_receive.2 capacityTwoKernel 0 0 11 22 MessageFlags.none
      MessageFlags.none MessageFlags.none MessageFlags.none (by decide) (by decide)
      (by decide) (by decide)⟩

/-- The scan of create finds the lowest index of a slot whose `size` is zero. -/
theorem findFreeSlot_some (qs : List MessageQueue) (i : Nat) (h : findFreeSlot qs = some i) :
    i < qs.length ∧ (qs.getD i default).size = 0 ∧
      ∀ j, j < i → (qs.getD j default).size ≠ 0 := by
  induction qs generalizing i with
  | nil => simp [findFreeSlot] at h
  | cons q qs ih =>
    unfold findFreeSlot at h
    split at h
    · rename_i hq
      injection h with h
      subst h
      exact ⟨by simp, by simpa using hq, by intro j hj; omega⟩
    · rename_i hq
      cases hf : findFreeSlot qs with
      | none => simp [hf] at h
      | some i0 =>
        simp [hf] at h
        subst h
        obtain ⟨h1, h2, h3⟩ := ih i0 hf
        refine ⟨by simp; omega, by simpa using h2, ?_⟩
        intro j hj
        cases j with
        | zero => simpa using hq
        | succ j => simpa using h3 j (by omega)

/-- The scan of create fails exactly when no slot has `size` zero. -/
theorem findFreeSlot_none (qs : List MessageQueue) :
    findFreeSlot qs = none ↔ ∀ q ∈ qs, q.size ≠ 0 := by
  induction qs with
  | nil => simp [findFreeSlot]
  | cons q qs ih =>
    unfold findFreeSlot
    by_cases hq : q.size = 0
    · simp [hq]
    · simp [hq, ih]

/-- The scan of create returns the index `i` when slot `i` is free and no slot below
it is. -/
theorem findFreeSlot_eq (qs : List MessageQueue) (i : Nat) (hi : i < qs.length)
    (hfree : (qs.getD i default).size = 0)
    (hmin : ∀ j, j < i → (qs.getD j default).size ≠ 0) : findFreeSlot qs = some i := by
  cases hf : findFreeSlot qs with
  | none =>
    have := (findFreeSlot_none qs).mp hf (qs.getD i default) (by
      rw [List.getD_eq_getElem _ _ hi]; exact List.getElem_mem _)
    exact absurd hfree this
  | some j =>
    obtain ⟨h1, h2, h3⟩ := findFreeSlot_some qs j hf
    rcases Nat.lt_trichotomy i j with hlt | heq | hgt
    · exact absurd hfree (h3 i hlt)
    · rw [heq]
    · exact absurd h2 (hmin j hgt)

/-- What a successful create does, given the slot the scan selects. -/
theorem create_some (k : Kernel) (messages size i : Nat) (h : findFreeSlot k.queues = some i) :
    IOS_CreateMessageQueue k messages size =
      (Error.cast (((k.numCreatedQueues <<< 12) % 4294967296) ||| i),
       unlockScheduler { (lockScheduler k).setQueue i
          { uid := ((k.numCreatedQueues <<< 12) % 4294967296) ||| i
            first := 0
            used := 0
            size := size
            messages := messages
            flags := MessageQueueFlags.None
            pid := k.currentProcess % 256
            receiveQueue := ThreadQueue_Initialise
            sendQueue := ThreadQueue_Initialise } with
          numCreatedQueues := (k.numCreatedQueues + 1) % 4294967296 }) := by
  unfold IOS_CreateMessageQueue
  have h2 : findFreeSlot (lockScheduler k).queues = some i := h
  simp only [h2]
  rfl

/-- What a failed create does. -/
theorem create_none (k : Kernel) (messages size : Nat) (h : findFreeSlot k.queues = none) :
    IOS_CreateMessageQueue k messages size = (Error.Max, unlockScheduler (lockScheduler k)) := by
  unfold IOS_CreateMessageQueue
  have h2 : findFreeSlot (lockScheduler k).queues = none := h
  simp only [h2]

/-- Sends that fit in the free space, entered with the scheduler lock not held, all
return OK, each adds one to `used`, and the lock is not held afterwards. -/
theorem runOps_sends (ms : List Message) (k : Kernel) (qi : Nat) (flags : MessageFlags)
    (h : qi < k.queues.length) (hsz : (k.queue qi).size < 4294967296)
    (hfit : (k.queue qi).used + ms.length ≤ (k.queue qi).size)
    (hlock : k.schedulerLocked = false) :
    ∃ k1, runOps k qi flags (ms.map QueueOp.send) =
        some (List.replicate ms.length (Error.OK, none), k1) ∧
      (k1.queue qi).used = (k.queue qi).used + ms.length ∧
      (k1.queue qi).size = (k.queue qi).size ∧
      k1.queues.length = k.queues.length ∧
      k1.schedulerLocked = false := by
  induction ms generalizing k with
  | nil => exact ⟨k, rfl, rfl, rfl, rfl, hlock⟩
  | cons m ms ih =>
    simp only [List.length_cons] at hfit
    obtain ⟨k1, hr, hq, _, _, hl, _, _, _, hunl, _⟩ :=
      sendLoop_transfer (lockScheduler k) qi m flags h
        (by rw [queue_lockScheduler]; omega) (by rw [queue_lockScheduler]; omega)
    simp only [queue_lockScheduler] at hq
    have hu : (k1.queue qi).used = (k.queue qi).used + 1 := by
      rw [hq]
      show ((k.queue qi).used + 1) % 4294967296 = _
      exact Nat.mod_eq_of_lt (by omega)
    have hs : (k1.queue qi).size = (k.queue qi).size := by rw [hq]
    have hl1 : k1.queues.length = k.queues.length := hl
    obtain ⟨k2, hrun, hu2, hs2, hl2, hunl2⟩ := ih k1 (by omega) (by omega) (by omega) hunl
    refine ⟨k2, ?_, by rw [hu2, hu, List.length_cons]; omega, by rw [hs2, hs],
      by rw [hl2, hl1], hunl2⟩
    simp only [List.map_cons, runOps, callOp_send k qi flags m hlock, sendMessage, hr, hrun,
      List.length_cons, List.replicate_succ]

/-- As many receives as there are stored messages, entered with the scheduler lock not
held, all return OK and each takes one from `used`. -/
theorem runOps_receives (n : Nat) (k : Kernel) (qi : Nat) (flags : MessageFlags)
    (h : qi < k.queues.length) (hs0 : (k.queue qi).size ≠ 0)
    (hfit : n ≤ (k.queue qi).used) (hlock : k.schedulerLocked = false) :
    ∃ outs k1, runOps k qi flags (List.replicate n QueueOp.receive) = some (outs, k1) ∧
      outs.length = n ∧ (∀ r ∈ outs, r.1 = Error.OK) ∧
      (k1.queue qi).used = (k.queue qi).used - n := by
  induction n generalizing k with
  | zero => exact ⟨[], k, rfl, rfl, by simp, rfl⟩
  | succ n ih =>
    obtain ⟨k1, hr, hq, _, _, hl, _, _, _, hunl, _⟩ :=
      receiveLoop_transfer (lockScheduler k) qi flags h
        (by rw [queue_lockScheduler]; omega) (by rw [queue_lockScheduler]; exact hs0)
    simp only [queue_lockScheduler] at hq
    have hu : (k1.queue qi).used = (k.queue qi).used - 1 := by rw [hq]
    have hs : (k1.queue qi).size = (k.queue qi).size := by rw [hq]
    have hl1 : k1.queues.length = k.queues.length := hl
    obtain ⟨outs, k2, hrun, hlen, hall, hu2⟩ :=
      ih k1 (by omega) (by rw [hs]; exact hs0) (by omega) hunl
    refine ⟨(Error.OK, some ((lockScheduler k).memory (((lockScheduler k).queue qi).messages +
      ((lockScheduler k).queue qi).first))) :: outs, k2, ?_, by simp [hlen], ?_,
      by rw [hu2, hu]; omega⟩
    · simp only [List.replicate_succ, runOps, callOp_receive k qi flags hlock, receiveMessage,
        hr, hrun]
    · intro r hr
      rcases List.mem_cons.mp hr with rfl | hr
      · rfl
      · exact hall r hr

/-- C3: on the queue a successful create of capacity `C ≥ 1` has just initialised
(lock not held), `C` consecutive sends all return OK, leave `used = C` and the lock
not held; a further send returns Max with NonBlocking and suspends the caller
without it. The refused send returns with the scheduler lock still held, so the
`C` receives after it do not return: the first of them is entered with the
non-reentrant lock held. From the state before the refused send the `C` receives
all return OK and leave `used = 0`. -/
theorem capacity_bound_until_refused_send (k : Kernel) (messages C qi : Nat)
    (ms : List Message) (m : Message) (f1 f2 : MessageFlags)
    (hC1 : 1 ≤ C) (hC2 : C < 4294967296) (hms : ms.length = C)
    (hfree : findFreeSlot k.queues = some qi) :
    ((IOS_CreateMessageQueue k messages C).2.queue qi).size = C ∧
    ((IOS_CreateMessageQueue k messages C).2.queue qi).used = 0 ∧
    (IOS_CreateMessageQueue k messages C).2.schedulerLocked = false ∧
    ∃ k1, runOps (IOS_CreateMessageQueue k messages C).2 qi f1 (ms.map QueueOp.send) =
        some (List.replicate C (Error.OK, none), k1) ∧
      (k1.queue qi).used = C ∧ k1.schedulerLocked = false ∧
      sendMessage k1 qi m MessageFlags.nonBlocking = .returned Error.Max (lockScheduler k1) ∧
      (lockScheduler k1).schedulerLocked = true ∧
      ((lockScheduler k1).queue qi).used = C ∧
      sendMessage k1 qi m MessageFlags.none =
        .suspended (rescheduleSelfNoLock (sleepThreadNoLock (lockScheduler k1) qi .sendQueue)) ∧
      runOps (lockScheduler k1) qi f2 (List.replicate C QueueOp.receive) = none ∧
      ∃ outs k3, runOps k1 qi f2 (List.replicate C QueueOp.receive) = some (outs, k3) ∧
        outs.length = C ∧ (∀ r ∈ outs, r.1 = Error.OK) ∧ (k3.queue qi).used = 0 := by
  obtain ⟨hlen, hsize0, _⟩ := findFreeSlot_some k.queues qi hfree
  rw [create_some k messages C qi hfree]
  set kc := unlockScheduler { (lockScheduler k).setQueue qi
          { uid := ((k.numCreatedQueues <<< 12) % 4294967296) ||| qi
            first := 0
            used := 0
            size := C
            messages := messages
            flags := MessageQueueFlags.None
            pid := k.currentProcess % 256
            receiveQueue := ThreadQueue_Initialise
            sendQueue := ThreadQueue_Initialise } with
          numCreatedQueues := (k.numCreatedQueues + 1) % 4294967296 } with hkc
  have hq : kc.queue qi =
      { uid := ((k.numCreatedQueues <<< 12) % 4294967296) ||| qi, first := 0, used := 0,
        size := C, messages := messages, flags := MessageQueueFlags.None,
        pid := k.currentProcess % 256, receiveQueue := ThreadQueue_Initialise,
        sendQueue := ThreadQueue_Initialise } :=
    queue_setQueue_same (lockScheduler k) qi _ hlen
  have hl : kc.queues.length = k.queues.length := length_setQueue (lockScheduler k) qi _
  have hkl : kc.schedulerLocked = false := rfl
  refine ⟨by rw [hq], by rw [hq], hkl, ?_⟩
  obtain ⟨k1, hrun, hu1, hs1, hl1, hunl1⟩ := runOps_sends ms kc qi f1 (by omega)
    (by rw [hq]; exact hC2) (by rw [hq]; show 0 + ms.length ≤ C; omega) hkl
  rw [hq] at hu1 hs1
  have hu1' : (k1.queue qi).used = C := by rw [hu1]; show 0 + ms.length = C; omega
  have hs1' : (k1.queue qi).size = C := hs1
  refine ⟨k1, by rw [hrun, hms], hu1', hunl1, ?_, rfl, by rw [queue_lockScheduler, hu1'],
    ?_, ?_, ?_⟩
  · simp [sendMessage, sendLoop, queue_lockScheduler, hu1', hs1', MessageFlags.nonBlocking]
  · simp [sendMessage, sendLoop, queue_lockScheduler, hu1', hs1', MessageFlags.none]
  · obtain ⟨n, rfl⟩ : ∃ n, C = n + 1 := ⟨C - 1, by omega⟩
    rw [List.replicate_succ, runOps, callOp_locked (lockScheduler k1) qi f2 _ rfl]
  · obtain ⟨outs, k3, hrun3, hlen3, hall3, hu3⟩ :=
      runOps_receives C k1 qi f2 (by omega) (by rw [hs1']; omega) (by rw [hu1']) hunl1
    exact ⟨outs, k3, hrun3, hlen3, hall3, by rw [hu3, hu1']; omega⟩

/-- C3, witness: capacity 2 created in the zero-initialised one-slot table. -/
theorem capacity_bound_until_refused_send_witness :
    ((IOS_CreateMessageQueue (Kernel.zeroed 1 0) 100 2).2.queue 0).size = 2 ∧
    ((IOS_CreateMessageQueue (Kernel.zeroed 1 0) 100 2).2.queue 0).used = 0 ∧
    (IOS_CreateMessageQueue (Kernel.zeroed 1 0) 100 2).2.schedulerLocked = false ∧
    ∃ k1, runOps (IOS_CreateMessageQueue (Kernel.zeroed 1 0) 100 2).2 0 MessageFlags.none
          ([11, 12].map QueueOp.send) =
        some (List.replicate 2 (Error.OK, none), k1) ∧
      (k1.queue 0).used = 2 ∧ k1.schedulerLocked = false ∧
      sendMessage k1 0 13 MessageFlags.nonBlocking = .returned Error.Max (lockScheduler k1) ∧
      (lockScheduler k1).schedulerLocked = true ∧
      ((lockScheduler k1).queue 0).used = 2 ∧
      sendMessage k1 0 13 MessageFlags.none =
        .suspended (rescheduleSelfNoLock (sleepThreadNoLock (lockScheduler k1) 0 .sendQueue)) ∧
      runOps (lockScheduler k1) 0 MessageFlags.none (List.replicate 2 QueueOp.receive) = none ∧
      ∃ outs k3, runOps k1 0 MessageFlags.none
            (List.replicate 2 QueueOp.receive) = some (outs, k3) ∧
        outs.length = 2 ∧ (∀ r ∈ outs, r.1 = Error.OK) ∧ (k3.queue 0).used = 0 :=
  capacity_bound_until_refused_send (Kernel.zeroed 1 0) 100 2 0 [11, 12] 13 MessageFlags.none
    MessageFlags.none (by decide) (by decide) (by decide) (by decide)

/-- C3, failing input: a queue of capacity 1 is created in the
zero-initialised one-slot table (lock not held afterwards). The send returns OK and
a further send with NonBlocking returns Max, leaving `used = 1` and the scheduler
lock held; entered with the lock held, the receive that follows does not return.
From the state after the first send alone the receive returns OK and leaves
`used = 0`. -/
theorem refused_send_blocks_following_receive :
    ((IOS_CreateMessageQueue (Kernel.zeroed 1 0) 100 1).2.queue 0).size = 1 ∧
    (IOS_CreateMessageQueue (Kernel.zeroed 1 0) 100 1).2.schedulerLocked = false ∧
    (runOps (IOS_CreateMessageQueue (Kernel.zeroed 1 0) 100 1).2 0 MessageFlags.nonBlocking
        [.send 7, .send 8]).map Prod.fst = some [(Error.OK, none), (Error.Max, none)] ∧
    (runOps (IOS_CreateMessageQueue (Kernel.zeroed 1 0) 100 1).2 0 MessageFlags.nonBlocking
        [.send 7, .send 8]).map (fun r => (r.2.queue 0).used) = some 1 ∧
    (runOps (IOS_CreateMessageQueue (Kernel.zeroed 1 0) 100 1).2 0 MessageFlags.nonBlocking
        [.send 7, .send 8]).map (fun r => r.2.schedulerLocked) = some true ∧
    runOps (IOS_CreateMessageQueue (Kernel.zeroed 1 0) 100 1).2 0 MessageFlags.nonBlocking
        [.send 7, .send 8, .receive] = none ∧
    (runOps (IOS_CreateMessageQueue (Kernel.zeroed 1 0) 100 1).2 0 MessageFlags.nonBlocking
        [.send 7, .receive]).map Prod.fst = some [(Error.OK, none), (Error.OK, some 7)] ∧
    (runOps (IOS_CreateMessageQueue (Kernel.zeroed 1 0) 100 1).2 0 MessageFlags.nonBlocking
        [.send 7, .receive]).map (fun r => (r.2.queue 0).used) = some 0 := by
  refine ⟨by decide, by decide, by decide, by decide, by decide, ?_, by decide, by decide⟩
  rfl

/-- C10: when slot `i` is free and no slot below it is, create selects slot `i`: it
returns the identifier `(g << 12) | i` (32-bit shift, `g` the generation counter
before the call), and afterwards slot `i` has that identifier, head 0, count 0, the
capacity and buffer reference of the arguments, no flags, both wait lists empty and
the caller's process id as owner; every other slot is unchanged. Process ids are
8-bit values, the width of the `pid` member. -/
theorem create_initialises_first_free_slot (k : Kernel) (messages size i : Nat)
    (hi : i < k.queues.length) (hfree : (k.queue i).size = 0)
    (hmin : ∀ j, j < i → (k.queue j).size ≠ 0) (hpid : k.currentProcess < 256) :
    (IOS_CreateMessageQueue k messages size).1 =
      Error.cast (((k.numCreatedQueues <<< 12) % 4294967296) ||| i) ∧
    (IOS_CreateMessageQueue k messages size).2.queue i =
      { receiveQueue := [], sendQueue := [], first := 0, used := 0, size := size,
        messages := messages, uid := ((k.numCreatedQueues <<< 12) % 4294967296) ||| i,
        pid := k.currentProcess, flags := MessageQueueFlags.None } ∧
    (∀ j, j ≠ i → (IOS_CreateMessageQueue k messages size).2.queue j = k.queue j) ∧
    (IOS_CreateMessageQueue k messages size).2.queues.length = k.queues.length := by
  have hf : findFreeSlot k.queues = some i := findFreeSlot_eq k.queues i hi hfree hmin
  rw [create_some k messages size i hf]
  refine ⟨rfl, ?_, ?_, ?_⟩
  · have := queue_setQueue_same (lockScheduler k) i
      { receiveQueue := ThreadQueue_Initialise, sendQueue := ThreadQueue_Initialise, first := 0,
        used := 0, size := size, messages := messages,
        uid := ((k.numCreatedQueues <<< 12) % 4294967296) ||| i,
        pid := k.currentProcess % 256, flags := MessageQueueFlags.None } hi
    have hp : k.currentProcess % 256 = k.currentProcess := Nat.mod_eq_of_lt hpid
    rw [hp] at this
    show ((lockScheduler k).setQueue i _).queue i = _
    rw [hp]
    exact this
  · intro j hj
    have := queue_setQueue (lockScheduler k) i j
      { receiveQueue := ThreadQueue_Initialise, sendQueue := ThreadQueue_Initialise, first := 0,
        used := 0, size := size, messages := messages,
        uid := ((k.numCreatedQueues <<< 12) % 4294967296) ||| i,
        pid := k.currentProcess % 256, flags := MessageQueueFlags.None }
    rw [if_neg (fun hh => hj hh.1.symm)] at this
    exact this
  · exact length_setQueue (lockScheduler k) i _

/-- C10, witness: slot 1 of a two-slot table whose slot 0 is live; the generation
counter `2 ^ 20 + 1` shifts to `4096` in 32 bits, so the identifier is `4097`. -/
theorem create_initialises_first_free_slot_witness :
    (IOS_CreateMessageQueue twoSlotKernel 200 4).1 = Error.cast 4097 ∧
    (IOS_CreateMessageQueue twoSlotKernel 200 4).2.queue 1 =
      { receiveQueue := [], sendQueue := [], first := 0, used := 0, size := 4,
        messages := 200, uid := 4097, pid := 3, flags := MessageQueueFlags.None } ∧
    (∀ j, j ≠ 1 → (IOS_CreateMessageQueue twoSlotKernel 200 4).2.queue j
      = twoSlotKernel.queue j) ∧
    (IOS_CreateMessageQueue twoSlotKernel 200 4).2.queues.length = 2 :=
  create_initialises_first_free_slot twoSlotKernel 200 4 1 (by decide) (by decide)
    (fun j hj => by
      have : j = 0 := by omega
      subst this
      decide) (by decide)

/-- C4: with NonBlocking set, send and jam on a full queue (`used == size`) and
receive on an empty queue (`used == 0`) return Max; the state at the return is the
entry state with the scheduler lock held, so the table (head, count, capacity,
flags and both wait lists of every slot), the memory holding the stored messages
and every context are unchanged, and receive does not write its output slot. -/
theorem nonblocking_would_block_is_noop (k : Kernel) (id qi : Nat) (m : Message)
    (flags : MessageFlags) (hnb : flags.NonBlocking = true) :
    ((k.queue qi).used = (k.queue qi).size →
      sendMessage k qi m flags = .returned Error.Max (lockScheduler k)) ∧
    (getMessageQueue k id = some qi → (k.queue qi).used = (k.queue qi).size →
      IOS_JamMessage k id m flags = .returned Error.Max (lockScheduler k)) ∧
    ((k.queue qi).used = 0 →
      receiveMessage k qi flags = (.returned Error.Max (lockScheduler k), none)) ∧
    (lockScheduler k).queues = k.queues ∧ (lockScheduler k).memory = k.memory ∧
    (lockScheduler k).threads = k.threads ∧
    (lockScheduler k).numCreatedQueues = k.numCreatedQueues := by
  refine ⟨?_, ?_, ?_, rfl, rfl, rfl, rfl⟩
  · intro hfull
    simp [sendMessage, sendLoop, queue_lockScheduler, hfull, hnb]
  · intro hlook hfull
    simp [IOS_JamMessage, getMessageQueue_lockScheduler, hlook, jamLoop, queue_lockScheduler,
      hfull, hnb]
  · intro hempty
    simp [receiveMessage, receiveLoop, queue_lockScheduler, hempty, hnb]

/-- C4, witness: the full slot 0 (two contexts waiting to send) and the empty slot 1
of a two-slot table. -/
theorem nonblocking_would_block_is_noop_witness :
    sendMessage fullAndEmptyKernel 0 7 MessageFlags.nonBlocking
      = .returned Error.Max (lockScheduler fullAndEmptyKernel) ∧
    IOS_JamMessage fullAndEmptyKernel 0 7 MessageFlags.nonBlocking
      = .returned Error.Max (lockScheduler fullAndEmptyKernel) ∧
    receiveMessage fullAndEmptyKernel 1 MessageFlags.nonBlocking
      = (.returned Error.Max (lockScheduler fullAndEmptyKernel), none) :=
  ⟨(nonblocking_would_block_is_noop fullAndEmptyKernel 0 0 7 MessageFlags.nonBlocking rfl).1
      (by decide),
   (nonblocking_would_block_is_noop fullAndEmptyKernel 0 0 7 MessageFlags.nonBlocking rfl).2.1
      (by decide) (by decide),
   (nonblocking_would_block_is_noop fullAndEmptyKernel 1 1 7 MessageFlags.nonBlocking rfl).2.2.1
      (by decide)⟩

theorem setWaitList_fields (q : MessageQueue) (w : WaitList) (l : ThreadQueue) :
    (q.setWaitList w l).first = q.first ∧ (q.setWaitList w l).used = q.used ∧
    (q.setWaitList w l).size = q.size ∧ (q.setWaitList w l).messages = q.messages ∧
    (q.setWaitList w l).uid = q.uid ∧ (q.setWaitList w l).pid = q.pid ∧
    (q.setWaitList w l).flags = q.flags := by
  cases w <;> exact ⟨rfl, rfl, rfl, rfl, rfl, rfl, rfl⟩

/-- What `sleepThreadNoLock` does to the table: slot `qi` gets the caller appended
to the selected wait list, the other slots are unchanged. -/
theorem sleepThread_queue (k : Kernel) (qi qj : Nat) (w : WaitList) :
    (sleepThreadNoLock k qi w).queue qj =
      if qi = qj ∧ qi < k.queues.length then
        (k.queue qi).setWaitList w ((k.queue qi).waitList w ++ [k.currentThread])
      else k.queue qj :=
  queue_setQueue k qi qj _

theorem sleepThread_length (k : Kernel) (qi : Nat) (w : WaitList) :
    (sleepThreadNoLock k qi w).queues.length = k.queues.length :=
  length_setQueue k qi _

/-- The ring invariant of a slot together with the members no transfer changes. -/
theorem sendLoop_keeps_invariant (k : Kernel) (qi : Nat) (m : Message) (flags : MessageFlags)
    (h : qi < k.queues.length) (h1 : 1 ≤ (k.queue qi).size)
    (h2 : (k.queue qi).used ≤ (k.queue qi).size) (h3 : (k.queue qi).first < (k.queue qi).size) :
    ∃ k1, (sendLoop k qi m flags).state? = some k1 ∧
      (k1.queue qi).used ≤ (k1.queue qi).size ∧ (k1.queue qi).first < (k1.queue qi).size ∧
      (k1.queue qi).size = (k.queue qi).size ∧ (k1.queue qi).pid = (k.queue qi).pid := by
  by_cases hfull : (k.queue qi).used = (k.queue qi).size
  · by_cases hnb : flags.NonBlocking = true
    · exact ⟨k, by simp [sendLoop, hfull, hnb, Outcome.state?], h2, h3, rfl, rfl⟩
    · refine ⟨rescheduleSelfNoLock (sleepThreadNoLock k qi .sendQueue),
        by simp [sendLoop, hfull, hnb, Outcome.state?], ?_⟩
      have hq : (rescheduleSelfNoLock (sleepThreadNoLock k qi .sendQueue)).queue qi =
          (k.queue qi).setWaitList .sendQueue
            ((k.queue qi).waitList .sendQueue ++ [k.currentThread]) := by
        show (sleepThreadNoLock k qi .sendQueue).queue qi = _
        rw [sleepThread_queue, if_pos ⟨rfl, h⟩]
      rw [hq]
      exact ⟨h2, h3, rfl, rfl⟩
  · obtain ⟨k1, hr, hq, _⟩ := sendLoop_transfer k qi m flags h hfull (by omega)
    refine ⟨k1, by rw [hr]; rfl, ?_⟩
    rw [hq]
    refine ⟨?_, h3, rfl, rfl⟩
    show ((k.queue qi).used + 1) % 4294967296 ≤ (k.queue qi).size
    exact le_trans (Nat.mod_le _ _) (by omega)

theorem jamLoop_keeps_invariant (k : Kernel) (qi : Nat) (m : Message) (flags : MessageFlags)
    (h : qi < k.queues.length) (h1 : 1 ≤ (k.queue qi).size)
    (h2 : (k.queue qi).used ≤ (k.queue qi).size) (h3 : (k.queue qi).first < (k.queue qi).size) :
    ∃ k1, (jamLoop k qi m flags).state? = some k1 ∧
      (k1.queue qi).used ≤ (k1.queue qi).size ∧ (k1.queue qi).first < (k1.queue qi).size ∧
      (k1.queue qi).size = (k.queue qi).size ∧ (k1.queue qi).pid = (k.queue qi).pid := by
  by_cases hfull : (k.queue qi).used = (k.queue qi).size
  · by_cases hnb : flags.NonBlocking = true
    · exact ⟨k, by simp [jamLoop, hfull, hnb, Outcome.state?], h2, h3, rfl, rfl⟩
    · refine ⟨rescheduleSelfNoLock (sleepThreadNoLock k qi .sendQueue),
        by simp [jamLoop, hfull, hnb, Outcome.state?], ?_⟩
      have hq : (rescheduleSelfNoLock (sleepThreadNoLock k qi .sendQueue)).queue qi =
          (k.queue qi).setWaitList .sendQueue
            ((k.queue qi).waitList .sendQueue ++ [k.currentThread]) := by
        show (sleepThreadNoLock k qi .sendQueue).queue qi = _
        rw [sleepThread_queue, if_pos ⟨rfl, h⟩]
      rw [hq]
      exact ⟨h2, h3, rfl, rfl⟩
  · obtain ⟨k1, hr, hq, _⟩ := jamLoop_transfer k qi m flags h hfull
    refine ⟨k1, by rw [hr]; rfl, ?_⟩
    rw [hq]
    refine ⟨?_, ?_, rfl, rfl⟩
    · show ((k.queue qi).used + 1) % 4294967296 ≤ (k.queue qi).size
      exact le_trans (Nat.mod_le _ _) (by omega)
    · show (if (k.queue qi).first = 0 then ((k.queue qi).size + 4294967296 - 1) % 4294967296
        else (k.queue qi).first - 1) < (k.queue qi).size
      split
      · rw [show (k.queue qi).size + 4294967296 - 1 = ((k.queue qi).size - 1) + 4294967296
          by omega, Nat.add_mod_right]
        exact lt_of_le_of_lt (Nat.mod_le _ _) (by omega)
      · omega

theorem receiveLoop_keeps_invariant (k : Kernel) (qi : Nat) (flags : MessageFlags)
    (h : qi < k.queues.length) (h1 : 1 ≤ (k.queue qi).size)
    (h2 : (k.queue qi).used ≤ (k.queue qi).size) (h3 : (k.queue qi).first < (k.queue qi).size) :
    ∃ k1, (receiveLoop k qi flags).1.state? = some k1 ∧
      (k1.queue qi).used ≤ (k1.queue qi).size ∧ (k1.queue qi).first < (k1.queue qi).size ∧
      (k1.queue qi).size = (k.queue qi).size ∧ (k1.queue qi).pid = (k.queue qi).pid := by
  by_cases hempty : (k.queue qi).used = 0
  · by_cases hnb : flags.NonBlocking = true
    · exact ⟨k, by simp [receiveLoop, hempty, hnb, Outcome.state?], h2, h3, rfl, rfl⟩
    · refine ⟨rescheduleSelfNoLock (sleepThreadNoLock k qi .receiveQueue),
        by simp [receiveLoop, hempty, hnb, Outcome.state?], ?_⟩
      have hq : (rescheduleSelfNoLock (sleepThreadNoLock k qi .receiveQueue)).queue qi =
          (k.queue qi).setWaitList .receiveQueue
            ((k.queue qi).waitList .receiveQueue ++ [k.currentThread]) := by
        show (sleepThreadNoLock k qi .receiveQueue).queue qi = _
        rw [sleepThread_queue, if_pos ⟨rfl, h⟩]
      rw [hq]
      exact ⟨h2, h3, rfl, rfl⟩
  · obtain ⟨k1, hr, hq, _⟩ := receiveLoop_transfer k qi flags h hempty (by omega)
    refine ⟨k1, by rw [hr]; rfl, ?_⟩
    rw [hq]
    refine ⟨?_, Nat.mod_lt _ (by omega), rfl, rfl⟩
    show (k.queue qi).used - 1 ≤ (k.queue qi).size
    omega

/-- C5: (1) for a slot with `1 ≤ size`, `used ≤ size` and `first < size`, every send,
jam and receive, entered from the start or resumed after a suspension, with any
flags and whatever it returns, ends in a state where the slot again has
`used ≤ size` and `first < size` and has the same `size` and the same `pid`.
(2) The same for `IOS_JamMessage` entered through the lookup of an id.
(3) The slot a successful create of capacity at least 1 initialises satisfies
`1 ≤ size`, `used ≤ size` and `first < size`. -/
theorem queue_invariant_preserved :
    (∀ (k : Kernel) (qi : Nat) (m : Message) (flags : MessageFlags),
      qi < k.queues.length → 1 ≤ (k.queue qi).size →
      (k.queue qi).used ≤ (k.queue qi).size → (k.queue qi).first < (k.queue qi).size →
      (sendMessage k qi m flags).keepsInvariant k qi ∧
      (sendMessageResume k qi m flags).keepsInvariant k qi ∧
      (jamMessageResume k qi m flags).keepsInvariant k qi ∧
      (receiveMessage k qi flags).1.keepsInvariant k qi ∧
      (receiveMessageResume k qi flags).1.keepsInvariant k qi) ∧
    (∀ (k : Kernel) (id qi : Nat) (m : Message) (flags : MessageFlags),
      getMessageQueue k id = some qi → 1 ≤ (k.queue qi).size →
      (k.queue qi).used ≤ (k.queue qi).size → (k.queue qi).first < (k.queue qi).size →
      (IOS_JamMessage k id m flags).keepsInvariant k qi) ∧
    (∀ (k : Kernel) (messages size i : Nat),
      findFreeSlot k.queues = some i → 1 ≤ size →
      1 ≤ ((IOS_CreateMessageQueue k messages size).2.queue i).size ∧
      ((IOS_CreateMessageQueue k messages size).2.queue i).used
        ≤ ((IOS_CreateMessageQueue k messages size).2.queue i).size ∧
      ((IOS_CreateMessageQueue k messages size).2.queue i).first
        < ((IOS_CreateMessageQueue k messages size).2.queue i).size) := by
  refine ⟨?_, ?_, ?_⟩
  · intro k qi m flags h h1 h2 h3
    have hstay : ∀ e, (Outcome.returned e k).keepsInvariant k qi :=
      fun e => ⟨k, rfl, h2, h3, rfl, rfl⟩
    refine ⟨?_, ?_, ?_, ?_, ?_⟩
    · exact sendLoop_keeps_invariant (lockScheduler k) qi m flags h h1 h2 h3
    · unfold sendMessageResume
      dsimp only
      split
      · exact hstay _
      · exact sendLoop_keeps_invariant k qi m flags h h1 h2 h3
    · unfold jamMessageResume
      dsimp only
      split
      · exact hstay _
      · exact jamLoop_keeps_invariant k qi m flags h h1 h2 h3
    · exact receiveLoop_keeps_invariant (lockScheduler k) qi flags h h1 h2 h3
    · unfold receiveMessageResume
      dsimp only
      split
      · exact hstay _
      · exact receiveLoop_keeps_invariant k qi flags h h1 h2 h3
  · intro k id qi m flags hlook h1 h2 h3
    obtain ⟨_, h, _⟩ := getMessageQueue_some k id qi hlook
    have : IOS_JamMessage k id m flags = jamLoop (lockScheduler k) qi m flags := by
      simp only [IOS_JamMessage, getMessageQueue_lockScheduler, hlook]
    rw [this]
    exact jamLoop_keeps_invariant (lockScheduler k) qi m flags h h1 h2 h3
  · intro k messages size i hfree hsize
    obtain ⟨hlen, _, _⟩ := findFreeSlot_some k.queues i hfree
    rw [create_some k messages size i hfree]
    have hq := queue_setQueue_same (lockScheduler k) i
      { receiveQueue := ThreadQueue_Initialise, sendQueue := ThreadQueue_Initialise, first := 0,
        used := 0, size := size, messages := messages,
        uid := ((k.numCreatedQueues <<< 12) % 4294967296) ||| i,
        pid := k.currentProcess % 256, flags := MessageQueueFlags.None } hlen
    show 1 ≤ (((lockScheduler k).setQueue i _).queue i).size ∧
      (((lockScheduler k).setQueue i _).queue i).used
        ≤ (((lockScheduler k).setQueue i _).queue i).size ∧
      (((lockScheduler k).setQueue i _).queue i).first
        < (((lockScheduler k).setQueue i _).queue i).size
    rw [hq]
    exact ⟨hsize, Nat.zero_le _, by show 0 < size; omega⟩

/-- C5, witness: the full slot 0 of a two-slot table (every call of part 1, and jam
by id), and a create of capacity 2 in the zero-initialised one-slot table. -/
theorem queue_invariant_preserved_witness :
    ((sendMessage fullAndEmptyKernel 0 7 MessageFlags.none).keepsInvariant fullAndEmptyKernel 0 ∧
      (sendMessageResume fullAndEmptyKernel 0 7 MessageFlags.none).keepsInvariant
        fullAndEmptyKernel 0 ∧
      (jamMessageResume fullAndEmptyKernel 0 7 MessageFlags.none).keepsInvariant
        fullAndEmptyKernel 0 ∧
      (receiveMessage fullAndEmptyKernel 0 MessageFlags.none).1.keepsInvariant
        fullAndEmptyKernel 0 ∧
      (receiveMessageResume fullAndEmptyKernel 0 MessageFlags.none).1.keepsInvariant
        fullAndEmptyKernel 0) ∧
    (IOS_JamMessage fullAndEmptyKernel 0 7 MessageFlags.none).keepsInvariant
      fullAndEmptyKernel 0 ∧
    (1 ≤ ((IOS_CreateMessageQueue (Kernel.zeroed 1 0) 100 2).2.queue 0).size ∧
      ((IOS_CreateMessageQueue (Kernel.zeroed 1 0) 100 2).2.queue 0).used
        ≤ ((IOS_CreateMessageQueue (Kernel.zeroed 1 0) 100 2).2.queue 0).size ∧
      ((IOS_CreateMessageQueue (Kernel.zeroed 1 0) 100 2).2.queue 0).first
        < ((IOS_CreateMessageQueue (Kernel.zeroed 1 0) 100 2).2.queue 0).size) :=
  ⟨queue_invariant_preserved.1 fullAndEmptyKernel 0 7 MessageFlags.none
      (by decide) (by decide) (by decide) (by decide),
   queue_invariant_preserved.2.1 fullAndEmptyKernel 0 0 7 MessageFlags.none
      (by decide) (by decide) (by decide) (by decide),
   queue_invariant_preserved.2.2 (Kernel.zeroed 1 0) 100 2 0 (by decide) (by decide)⟩

/-- What `wakeupAllThreadsNoLock` does to the table: the selected wait list of slot
`qi` becomes empty. -/
theorem wakeupAll_queue (k : Kernel) (qi qj : Nat) (w : WaitList) (r : Error) :
    (wakeupAllThreadsNoLock k qi w r).queue qj =
      if qi = qj ∧ qi < k.queues.length then (k.queue qi).setWaitList w [] else k.queue qj :=
  queue_setQueue k qi qj _

theorem wakeupAll_length (k : Kernel) (qi : Nat) (w : WaitList) (r : Error) :
    (wakeupAllThreadsNoLock k qi w r).queues.length = k.queues.length :=
  length_setQueue k qi _

/-- The part of destroy after the flag test: wake all waiters of both lists, memset,
unlock. -/
theorem destroy_tail (L : Layout) (k0 : Kernel) (qi : Nat) (hlen : qi < k0.queues.length) :
    (unlockScheduler ((wakeupAllThreadsNoLock (wakeupAllThreadsNoLock k0 qi .sendQueue Error.Intr)
        qi .receiveQueue Error.Intr).setQueue qi (memsetThreadQueueBytes L
          ((wakeupAllThreadsNoLock (wakeupAllThreadsNoLock k0 qi .sendQueue Error.Intr)
            qi .receiveQueue Error.Intr).queue qi)))).queue qi
      = memsetThreadQueueBytes L { k0.queue qi with sendQueue := [], receiveQueue := [] } ∧
    (∀ qj, qj ≠ qi →
      (unlockScheduler ((wakeupAllThreadsNoLock
        (wakeupAllThreadsNoLock k0 qi .sendQueue Error.Intr)
        qi .receiveQueue Error.Intr).setQueue qi (memsetThreadQueueBytes L
          ((wakeupAllThreadsNoLock (wakeupAllThreadsNoLock k0 qi .sendQueue Error.Intr)
            qi .receiveQueue Error.Intr).queue qi)))).queue qj = k0.queue qj) ∧
    (unlockScheduler ((wakeupAllThreadsNoLock (wakeupAllThreadsNoLock k0 qi .sendQueue Error.Intr)
        qi .receiveQueue Error.Intr).setQueue qi (memsetThreadQueueBytes L
          ((wakeupAllThreadsNoLock (wakeupAllThreadsNoLock k0 qi .sendQueue Error.Intr)
            qi .receiveQueue Error.Intr).queue qi)))).queues.length = k0.queues.length := by
  have hq : ∀ (kk : Kernel) (q : MessageQueue) (qj : Nat),
      (unlockScheduler (kk.setQueue qi q)).queue qj = (kk.setQueue qi q).queue qj :=
    fun _ _ _ => rfl
  have hl1 : (wakeupAllThreadsNoLock (wakeupAllThreadsNoLock k0 qi .sendQueue Error.Intr)
      qi .receiveQueue Error.Intr).queues.length = k0.queues.length := by
    rw [wakeupAll_length, wakeupAll_length]
  refine ⟨?_, ?_, ?_⟩
  · rw [hq, queue_setQueue_same _ _ _ (by rw [hl1]; exact hlen)]
    congr 1
    rw [wakeupAll_queue, if_pos ⟨rfl, by rw [wakeupAll_length]; exact hlen⟩,
      wakeupAll_queue, if_pos ⟨rfl, hlen⟩]
    rfl
  · intro qj hj
    have hne : ∀ n : Nat, ¬ (qi = qj ∧ qi < n) := fun _ hh => hj hh.1.symm
    rw [hq, queue_setQueue, if_neg (hne _), wakeupAll_queue, if_neg (hne _), wakeupAll_queue,
      if_neg (hne _)]
  · show ((wakeupAllThreadsNoLock (wakeupAllThreadsNoLock k0 qi .sendQueue Error.Intr)
      qi .receiveQueue Error.Intr).setQueue qi _).queues.length = _
    rw [length_setQueue, hl1]

/-- What a successful destroy does to the table and to the rest of the state, from a
state in which the lookup of the id succeeds. -/
theorem destroy_some (L : Layout) (k : Kernel) (id qi : Nat)
    (hlook : getMessageQueue k id = some qi) :
    ∃ k1, IOS_DestroyMessageQueue L k id = (Error.OK, k1) ∧
      k1.queue qi = memsetThreadQueueBytes L
        { k.queue qi with flags := MessageQueueFlags.None, sendQueue := [], receiveQueue := [] } ∧
      (∀ qj, qj ≠ qi → k1.queue qj = k.queue qj) ∧
      k1.queues.length = k.queues.length ∧
      k1.numCreatedQueues = k.numCreatedQueues ∧
      k1.memory = k.memory ∧
      k1.currentProcess = k.currentProcess ∧
      k1.currentThread = k.currentThread ∧
      k1.schedulerLocked = false := by
  obtain ⟨_, hlen, _⟩ := getMessageQueue_some k id qi hlook
  unfold IOS_DestroyMessageQueue
  simp only [getMessageQueue_lockScheduler, hlook]
  by_cases hflag : ((lockScheduler k).queue qi).flags.RegisteredEventHandler = true
  · simp only [if_pos hflag]
    obtain ⟨h1, h2, h3⟩ := destroy_tail L ((lockScheduler k).setQueue qi
      { (lockScheduler k).queue qi with flags := { RegisteredEventHandler := false } }) qi
      (by rw [length_setQueue]; exact hlen)
    refine ⟨_, rfl, ?_, ?_, ?_, rfl, rfl, rfl, rfl, rfl⟩
    · rw [h1, queue_setQueue_same (lockScheduler k) qi _ hlen]
      rfl
    · intro qj hj
      rw [h2 qj hj, queue_setQueue (lockScheduler k), if_neg (fun hh => hj hh.1.symm)]
      rfl
    · rw [h3, length_setQueue (lockScheduler k)]
      rfl
  · simp only [if_neg hflag]
    obtain ⟨h1, h2, h3⟩ := destroy_tail L (lockScheduler k) qi hlen
    refine ⟨_, rfl, ?_, ?_, ?_, rfl, rfl, rfl, rfl, rfl⟩
    · rw [h1]
      congr 1
      have hf : ((lockScheduler k).queue qi).flags = MessageQueueFlags.None := by
        cases hfl : ((lockScheduler k).queue qi).flags with
        | mk b =>
          rw [hfl] at hflag
          cases b
          · rfl
          · exact absurd rfl hflag
      rw [queue_lockScheduler] at hf ⊢
      rw [← hf]
    · intro qj hj
      rw [h2 qj hj]
      rfl
    · rw [h3]
      rfl

/-- What destroy does when the lookup of the id fails. -/
theorem destroy_none (L : Layout) (k : Kernel) (id : Nat) (hlook : getMessageQueue k id = none) :
    IOS_DestroyMessageQueue L k id = (Error.Invalid, unlockScheduler (lockScheduler k)) := by
  unfold IOS_DestroyMessageQueue
  simp only [getMessageQueue_lockScheduler, hlook]

/-- Destroy leaves `size` as it is whenever the `size` member lies outside the first
`sizeof(ThreadQueue)` bytes of the struct. -/
theorem destroy_keeps_uncovered_size (L : Layout) (k : Kernel) (id qi : Nat)
    (hlook : getMessageQueue k id = some qi) (hL : L Member.size = false) :
    (IOS_DestroyMessageQueue L k id).1 = Error.OK ∧
    ((IOS_DestroyMessageQueue L k id).2.queue qi).size = (k.queue qi).size := by
  obtain ⟨k1, hr, hq, _⟩ := destroy_some L k id qi hlook
  rw [hr]
  refine ⟨rfl, ?_⟩
  show (k1.queue qi).size = _
  rw [hq]
  simp [memsetThreadQueueBytes, hL]

/-- C6, the code at the failing input: with `receiveQueue` as the first member of the
struct, destroying slot 0 of a full two-slot table returns OK and empties the wait
lists and clears the flag, but `first`, `used`, `size`, `messages`, `uid` and `pid`
keep their values; the slot is not free and a following create returns Max. -/
theorem destroy_does_not_free_slot :
    (∀ q ∈ liveTableKernel.queues, q.size ≠ 0) ∧
    (IOS_DestroyMessageQueue Layout.receiveQueueFirst liveTableKernel 8192).1 = Error.OK ∧
    (IOS_DestroyMessageQueue Layout.receiveQueueFirst liveTableKernel 8192).2.queue 0 =
      { receiveQueue := [], sendQueue := [], first := 1, used := 2, size := 2,
        messages := 100, uid := 8192, pid := 3, flags := MessageQueueFlags.None } ∧
    (IOS_CreateMessageQueue
      (IOS_DestroyMessageQueue Layout.receiveQueueFirst liveTableKernel 8192).2 300 1).1
      = Error.Max := by
  refine ⟨by decide, by decide, by decide, by decide⟩

/-- C7 (amended): after a destroy that returned OK, every call of destroy, send, jam
and receive with the same id from a process other than the destroying (owning)
process and other than process 0 returns Invalid and leaves the state as it was,
whatever the layout. -/
theorem destroyed_id_invalid_for_other_processes (L : Layout) (k : Kernel) (id c : Nat)
    (t : ThreadId) (m : Message) (flags : MessageFlags)
    (hok : (IOS_DestroyMessageQueue L k id).1 = Error.OK)
    (hc : c ≠ k.currentProcess) (hc0 : c ≠ 0) :
    IOS_DestroyMessageQueue L ((IOS_DestroyMessageQueue L k id).2.calledBy c t) id =
      (Error.Invalid, (IOS_DestroyMessageQueue L k id).2.calledBy c t) ∧
    IOS_SendMessage ((IOS_DestroyMessageQueue L k id).2.calledBy c t) id m flags =
      .returned Error.Invalid ((IOS_DestroyMessageQueue L k id).2.calledBy c t) ∧
    IOS_JamMessage ((IOS_DestroyMessageQueue L k id).2.calledBy c t) id m flags =
      .returned Error.Invalid ((IOS_DestroyMessageQueue L k id).2.calledBy c t) ∧
    IOS_ReceiveMessage ((IOS_DestroyMessageQueue L k id).2.calledBy c t) id flags =
      (.returned Error.Invalid ((IOS_DestroyMessageQueue L k id).2.calledBy c t), none) := by
  cases hlook : getMessageQueue k id with
  | none =>
    rw [destroy_none L k id hlook] at hok
    cases hok
  | some qi =>
    obtain ⟨hqi, hlen, hpid⟩ := getMessageQueue_some k id qi hlook
    obtain ⟨k1, hr, hq, _, hl, _, _, _, _, hlock⟩ := destroy_some L k id qi hlook
    rw [hr]
    show IOS_DestroyMessageQueue L (k1.calledBy c t) id = (Error.Invalid, k1.calledBy c t) ∧
      IOS_SendMessage (k1.calledBy c t) id m flags = .returned Error.Invalid (k1.calledBy c t) ∧
      IOS_JamMessage (k1.calledBy c t) id m flags = .returned Error.Invalid (k1.calledBy c t) ∧
      IOS_ReceiveMessage (k1.calledBy c t) id flags
        = (.returned Error.Invalid (k1.calledBy c t), none)
    have hpid1 : (k1.queue qi).pid ≠ c := by
      rw [hq]
      show (if L Member.pid then 0 else (k.queue qi).pid) ≠ c
      split
      · exact fun h => hc0 h.symm
      · rw [hpid]; exact fun h => hc h.symm
    have hnone : getMessageQueue (k1.calledBy c t) id = none := by
      unfold getMessageQueue
      dsimp only
      rw [← hqi]
      split
      · rfl
      · rw [if_pos]
        exact hpid1
    have hunlock : unlockScheduler (lockScheduler (k1.calledBy c t)) = k1.calledBy c t := by
      cases k1
      simp only [Kernel.calledBy, lockScheduler, unlockScheduler] at hlock ⊢
      simp [hlock]
    refine ⟨?_, ?_, ?_, ?_⟩
    · rw [destroy_none L _ id hnone, hunlock]
    · simp only [IOS_SendMessage, hnone]
    · simp only [IOS_JamMessage, getMessageQueue_lockScheduler, hnone, hunlock]
    · simp only [IOS_ReceiveMessage, hnone]

/-- C7, witness: slot 0 of the full two-slot table is destroyed by its owner, process
3; calls with its id from thread 1 of process 4 return Invalid and change nothing. -/
theorem destroyed_id_invalid_for_other_processes_witness :
    IOS_DestroyMessageQueue Layout.receiveQueueFirst
        ((IOS_DestroyMessageQueue Layout.receiveQueueFirst liveTableKernel 8192).2.calledBy 4 1)
        8192 =
      (Error.Invalid,
        (IOS_DestroyMessageQueue Layout.receiveQueueFirst liveTableKernel 8192).2.calledBy 4 1) ∧
    IOS_SendMessage
        ((IOS_DestroyMessageQueue Layout.receiveQueueFirst liveTableKernel 8192).2.calledBy 4 1)
        8192 7 MessageFlags.none =
      .returned Error.Invalid
        ((IOS_DestroyMessageQueue Layout.receiveQueueFirst liveTableKernel 8192).2.calledBy 4 1) ∧
    IOS_JamMessage
        ((IOS_DestroyMessageQueue Layout.receiveQueueFirst liveTableKernel 8192).2.calledBy 4 1)
        8192 7 MessageFlags.none =
      .returned Error.Invalid
        ((IOS_DestroyMessageQueue Layout.receiveQueueFirst liveTableKernel 8192).2.calledBy 4 1) ∧
    IOS_ReceiveMessage
        ((IOS_DestroyMessageQueue Layout.receiveQueueFirst liveTableKernel 8192).2.calledBy 4 1)
        8192 MessageFlags.none =
      (.returned Error.Invalid
        ((IOS_DestroyMessageQueue Layout.receiveQueueFirst liveTableKernel 8192).2.calledBy 4 1),
        none) :=
  destroyed_id_invalid_for_other_processes Layout.receiveQueueFirst liveTableKernel 8192 4 1 7
    MessageFlags.none (by decide) (by decide) (by decide)

/-- C7, counterexample: process 0 creates a queue of capacity 1 in the zero-initialised
one-slot table (id 0) and destroys it (OK). A second destroy of id 0 by process 0
returns OK again, not Invalid, both when the memset clears the whole slot and when
it clears only the `receiveQueue` member; a non-blocking send with id 0 returns Max
in the first case and OK in the second. -/
theorem destroyed_id_still_found_by_owner :
    (IOS_CreateMessageQueue (Kernel.zeroed 1 0) 100 1).1 = Error.cast 0 ∧
    (IOS_DestroyMessageQueue Layout.all
      (IOS_CreateMessageQueue (Kernel.zeroed 1 0) 100 1).2 0).1 = Error.OK ∧
    (IOS_DestroyMessageQueue Layout.all (createdThenDestroyed Layout.all) 0).1 = Error.OK ∧
    (IOS_SendMessage (createdThenDestroyed Layout.all) 0 7 MessageFlags.nonBlocking).code?
      = some Error.Max ∧
    (IOS_DestroyMessageQueue Layout.receiveQueueFirst
      (IOS_CreateMessageQueue (Kernel.zeroed 1 0) 100 1).2 0).1 = Error.OK ∧
    (IOS_DestroyMessageQueue Layout.receiveQueueFirst
      (createdThenDestroyed Layout.receiveQueueFirst) 0).1 = Error.OK ∧
    (IOS_SendMessage (createdThenDestroyed Layout.receiveQueueFirst) 0 7
      MessageFlags.nonBlocking).code? = some Error.OK := by
  refine ⟨by decide, by decide, by decide, by decide, by decide, by decide, by decide⟩

/-- C8 (amended): for an id whose low 12 bits select a free slot, destroy returns
Invalid exactly when the `pid` member of that slot differs from the calling
process id; it then wakes no context and leaves the table, the generation counter
and the memory unchanged. -/
theorem destroy_rejects_free_slot_of_other_owner (L : Layout) (k : Kernel) (id : Nat)
    (hrange : id &&& 0xFFF < k.queues.length)
    (hfree : (k.queue (id &&& 0xFFF)).size = 0) :
    ((IOS_DestroyMessageQueue L k id).1 = Error.Invalid ↔
      (k.queue (id &&& 0xFFF)).pid ≠ k.currentProcess) ∧
    ((IOS_DestroyMessageQueue L k id).1 = Error.Invalid →
      (IOS_DestroyMessageQueue L k id).2.queues = k.queues ∧
      (IOS_DestroyMessageQueue L k id).2.threads = k.threads ∧
      (IOS_DestroyMessageQueue L k id).2.numCreatedQueues = k.numCreatedQueues ∧
      (IOS_DestroyMessageQueue L k id).2.memory = k.memory) := by
  have _hfree := hfree
  by_cases hpid : (k.queue (id &&& 0xFFF)).pid = k.currentProcess
  · have hlook : getMessageQueue k id = some (id &&& 0xFFF) := by
      unfold getMessageQueue
      dsimp only
      rw [if_neg (by omega), if_neg (by simpa using hpid)]
    obtain ⟨k1, hr, _⟩ := destroy_some L k id _ hlook
    rw [hr]
    exact ⟨⟨fun h => absurd h Error.OK_ne_Invalid, fun h => absurd hpid h⟩,
      fun h => absurd h Error.OK_ne_Invalid⟩
  · have hlook : getMessageQueue k id = none := by
      unfold getMessageQueue
      dsimp only
      rw [if_neg (by omega), if_pos hpid]
    rw [destroy_none L k id hlook]
    exact ⟨⟨fun _ => hpid, fun _ => rfl⟩, fun _ => ⟨rfl, rfl, rfl, rfl⟩⟩

/-- C8, witness: slot 0 of the zero-initialised one-slot table, id 4096, called from
process 2. -/
theorem destroy_rejects_free_slot_of_other_owner_witness :
    ((IOS_DestroyMessageQueue Layout.receiveQueueFirst (Kernel.zeroed 1 2) 4096).1
        = Error.Invalid ↔
      ((Kernel.zeroed 1 2).queue (4096 &&& 0xFFF)).pid ≠ (Kernel.zeroed 1 2).currentProcess) ∧
    ((IOS_DestroyMessageQueue Layout.receiveQueueFirst (Kernel.zeroed 1 2) 4096).1
        = Error.Invalid →
      (IOS_DestroyMessageQueue Layout.receiveQueueFirst (Kernel.zeroed 1 2) 4096).2.queues
        = (Kernel.zeroed 1 2).queues ∧
      (IOS_DestroyMessageQueue Layout.receiveQueueFirst (Kernel.zeroed 1 2) 4096).2.threads
        = (Kernel.zeroed 1 2).threads ∧
      (IOS_DestroyMessageQueue Layout.receiveQueueFirst (Kernel.zeroed 1 2) 4096).2.numCreatedQueues
        = (Kernel.zeroed 1 2).numCreatedQueues ∧
      (IOS_DestroyMessageQueue Layout.receiveQueueFirst (Kernel.zeroed 1 2) 4096).2.memory
        = (Kernel.zeroed 1 2).memory) :=
  destroy_rejects_free_slot_of_other_owner Layout.receiveQueueFirst (Kernel.zeroed 1 2) 4096
    (by decide) (by decide)

/-- C8, counterexample: in the zero-initialised one-slot table slot 0 is free (its
`size` is 0) and was never created, yet destroy with id 0 called from process 0
returns OK, whatever the layout of the slot. -/
theorem destroy_accepts_free_slot_of_process_zero :
    0 &&& 0xFFF < (Kernel.zeroed 1 0).queues.length ∧
    ((Kernel.zeroed 1 0).queue (0 &&& 0xFFF)).size = 0 ∧
    (IOS_DestroyMessageQueue Layout.all (Kernel.zeroed 1 0) 0).1 = Error.OK ∧
    (IOS_DestroyMessageQueue Layout.receiveQueueFirst (Kernel.zeroed 1 0) 0).1 = Error.OK := by
  refine ⟨by decide, by decide, by decide, by decide⟩

/-- The identifier create builds, `(g << 12) | i` in 32 bits, for a slot index below
`2 ^ 12`: the low 20 bits of the generation counter above the 12 bits of the index. -/
theorem uid_eq_mul_add (g i : Nat) (hi : i < 4096) :
    (((g <<< 12) % 4294967296) ||| i) = 4096 * (g % 1048576) + i := by
  have h1 : (g <<< 12) % 4294967296 = 2 ^ 12 * (g % 1048576) := by
    rw [Nat.shiftLeft_eq]
    omega
  rw [h1, ← Nat.mul_add_lt_is_or (by norm_num; exact hi)]

theorem uid_low_bits (g i : Nat) (hi : i < 4096) :
    (((g <<< 12) % 4294967296) ||| i) &&& 0xFFF = i := by
  rw [uid_eq_mul_add g i hi, show (0xFFF : Nat) = 2 ^ 12 - 1 by norm_num,
    Nat.and_pow_two_sub_one_eq_mod]
  omega

theorem uid_high_bits (g i : Nat) (hi : i < 4096) (hg : g < 1048576) :
    (((g <<< 12) % 4294967296) ||| i) >>> 12 = g := by
  rw [uid_eq_mul_add g i hi, Nat.shiftRight_eq_div_pow]
  omega

/-- The lookup as a single case distinction. -/
theorem getMessageQueue_eq (k : Kernel) (id : Nat) :
    getMessageQueue k id =
      if k.queues.length ≤ id &&& 0xFFF ∨ (k.queue (id &&& 0xFFF)).pid ≠ k.currentProcess
      then none else some (id &&& 0xFFF) := by
  unfold getMessageQueue
  dsimp only
  by_cases h1 : id &&& 0xFFF ≥ k.queues.length
  · rw [if_pos h1, if_pos (Or.inl h1)]
  · rw [if_neg h1]
    by_cases h2 : (k.queue (id &&& 0xFFF)).pid ≠ k.currentProcess
    · rw [if_pos h2, if_pos (Or.inr h2)]
    · rw [if_neg h2, if_neg (by
        intro h
        rcases h with h | h
        · exact h1 h
        · exact h2 h)]

/-- The slot a successful create leaves at the selected index, and the table length. -/
theorem create_slot (k : Kernel) (messages size i : Nat) (h : findFreeSlot k.queues = some i) :
    (IOS_CreateMessageQueue k messages size).2.queue i =
      { receiveQueue := [], sendQueue := [], first := 0, used := 0, size := size,
        messages := messages, uid := ((k.numCreatedQueues <<< 12) % 4294967296) ||| i,
        pid := k.currentProcess % 256, flags := MessageQueueFlags.None } ∧
    (∀ j, j ≠ i → (IOS_CreateMessageQueue k messages size).2.queue j = k.queue j) ∧
    (IOS_CreateMessageQueue k messages size).2.queues.length = k.queues.length ∧
    (IOS_CreateMessageQueue k messages size).2.numCreatedQueues
      = (k.numCreatedQueues + 1) % 4294967296 ∧
    (IOS_CreateMessageQueue k messages size).2.currentProcess = k.currentProcess ∧
    (IOS_CreateMessageQueue k messages size).2.schedulerLocked = false := by
  obtain ⟨hlen, _, _⟩ := findFreeSlot_some k.queues i h
  rw [create_some k messages size i h]
  refine ⟨?_, ?_, ?_, rfl, rfl, rfl⟩
  · exact queue_setQueue_same (lockScheduler k) i _ hlen
  · intro j hj
    have := queue_setQueue (lockScheduler k) i j
      { receiveQueue := ThreadQueue_Initialise, sendQueue := ThreadQueue_Initialise, first := 0,
        used := 0, size := size, messages := messages,
        uid := ((k.numCreatedQueues <<< 12) % 4294967296) ||| i,
        pid := k.currentProcess % 256, flags := MessageQueueFlags.None }
    rw [if_neg (fun hh => hj hh.1.symm)] at this
    exact this
  · exact length_setQueue (lockScheduler k) i _

/-- The scan of create skips a run of live slots. -/
theorem findFreeSlot_replicate_append (n : Nat) (q : MessageQueue) (rest : List MessageQueue)
    (hq : q.size ≠ 0) :
    findFreeSlot (List.replicate n q ++ rest) = (findFreeSlot rest).map (· + n) := by
  induction n with
  | zero => simp
  | succ n ih =>
    rw [List.replicate_succ, List.cons_append, findFreeSlot, if_neg hq, ih]
    cases findFreeSlot rest <;> simp
    omega

theorem findFreeSlot_collisionKernel : findFreeSlot collisionKernel.queues = some 4091 := by
  unfold collisionKernel
  dsimp only
  rw [findFreeSlot_replicate_append 4091 _ _ (by decide)]
  rfl

/-- C9 (amended): create returns the value Max if and only if no slot of the table has
`size` zero or the identifier it builds for the slot it selects is the bit pattern
of Max, `0xFFFFFFFB`; in a table of at most 4091 slots the second case cannot occur,
so there create returns Max if and only if no slot has `size` zero. When no slot has
`size` zero create returns Max and every slot, the generation counter, the memory
and the contexts are unchanged. -/
theorem create_fails_iff_table_full (k : Kernel) (messages size : Nat) :
    ((IOS_CreateMessageQueue k messages size).1 = Error.Max ↔
      (∀ q ∈ k.queues, q.size ≠ 0) ∨
      ∃ i, findFreeSlot k.queues = some i ∧
        ((k.numCreatedQueues <<< 12) % 4294967296) ||| i = 4294967291) ∧
    (k.queues.length ≤ 4091 →
      ((IOS_CreateMessageQueue k messages size).1 = Error.Max ↔ ∀ q ∈ k.queues, q.size ≠ 0)) ∧
    ((∀ q ∈ k.queues, q.size ≠ 0) →
      (IOS_CreateMessageQueue k messages size).1 = Error.Max ∧
      (IOS_CreateMessageQueue k messages size).2.queues = k.queues ∧
      (IOS_CreateMessageQueue k messages size).2.numCreatedQueues = k.numCreatedQueues ∧
      (IOS_CreateMessageQueue k messages size).2.memory = k.memory ∧
      (IOS_CreateMessageQueue k messages size).2.threads = k.threads) := by
  cases hf : findFreeSlot k.queues with
  | none =>
    have hfull := (findFreeSlot_none k.queues).mp hf
    rw [create_none k messages size hf]
    exact ⟨⟨fun _ => Or.inl hfull, fun _ => rfl⟩, fun _ => ⟨fun _ => hfull, fun _ => rfl⟩,
      fun _ => ⟨rfl, rfl, rfl, rfl, rfl⟩⟩
  | some i =>
    obtain ⟨hi, _, _⟩ := findFreeSlot_some k.queues i hf
    rw [create_some k messages size i hf]
    have hne : ¬ ∀ q ∈ k.queues, q.size ≠ 0 := by
      intro hall
      rw [(findFreeSlot_none k.queues).mpr hall] at hf
      cases hf
    refine ⟨⟨?_, ?_⟩, ?_, fun h => absurd h hne⟩
    · intro h
      exact Or.inr ⟨i, rfl, (Error.cast_eq_Max _).mp h⟩
    · intro h
      rcases h with h | ⟨j, hj, hv⟩
      · exact absurd h hne
      · injection hj with hj
        subst hj
        exact (Error.cast_eq_Max _).mpr hv
    · intro hlen
      refine ⟨fun h => ?_, fun h => absurd h hne⟩
      have hv := (Error.cast_eq_Max _).mp h
      have hlow := uid_low_bits k.numCreatedQueues i (by omega)
      rw [hv] at hlow
      have : (4294967291 : Nat) &&& 0xFFF = 4091 := by decide
      omega

/-- C9, witness: the full two-slot table (create returns Max and changes nothing) and
the two-slot table with a free slot (create does not return Max). -/
theorem create_fails_iff_table_full_witness :
    ((IOS_CreateMessageQueue liveTableKernel 300 1).1 = Error.Max ↔
      ∀ q ∈ liveTableKernel.queues, q.size ≠ 0) ∧
    ((IOS_CreateMessageQueue twoSlotKernel 200 4).1 = Error.Max ↔
      ∀ q ∈ twoSlotKernel.queues, q.size ≠ 0) ∧
    ((IOS_CreateMessageQueue liveTableKernel 300 1).1 = Error.Max ∧
      (IOS_CreateMessageQueue liveTableKernel 300 1).2.queues = liveTableKernel.queues ∧
      (IOS_CreateMessageQueue liveTableKernel 300 1).2.numCreatedQueues
        = liveTableKernel.numCreatedQueues ∧
      (IOS_CreateMessageQueue liveTableKernel 300 1).2.memory = liveTableKernel.memory ∧
      (IOS_CreateMessageQueue liveTableKernel 300 1).2.threads = liveTableKernel.threads) ∧
    (IOS_CreateMessageQueue twoSlotKernel 200 4).1 ≠ Error.Max :=
  ⟨(create_fails_iff_table_full liveTableKernel 300 1).2.1 (by decide),
   (create_fails_iff_table_full twoSlotKernel 200 4).2.1 (by decide),
   (create_fails_iff_table_full liveTableKernel 300 1).2.2 (by decide),
   by decide⟩

/-- C9, counterexample: in a table of 4092 slots whose first 4091 slots are live and
whose slot 4091 is free, with generation counter `2 ^ 20 - 1`, create selects slot
4091, builds the identifier `0xFFFFFFFB` and returns it: the returned value is Max
although a slot has `size` zero, and the slot and the counter have changed. -/
theorem create_returns_max_with_free_slot :
    collisionKernel.queues.length = 4092 ∧
    (collisionKernel.queue 4091).size = 0 ∧
    (¬ ∀ q ∈ collisionKernel.queues, q.size ≠ 0) ∧
    (IOS_CreateMessageQueue collisionKernel 100 1).1 = Error.Max ∧
    ((IOS_CreateMessageQueue collisionKernel 100 1).2.queue 4091).size = 1 ∧
    (IOS_CreateMessageQueue collisionKernel 100 1).2.numCreatedQueues ≠
      collisionKernel.numCreatedQueues := by
  have hf := findFreeSlot_collisionKernel
  obtain ⟨hi, hfree, _⟩ := findFreeSlot_some _ _ hf
  obtain ⟨hq, _, _, hn, _⟩ := create_slot collisionKernel 100 1 4091 hf
  have hlen : collisionKernel.queues.length = 4092 := by
    unfold collisionKernel
    dsimp only
    rw [List.length_append, List.length_replicate]
    rfl
  refine ⟨hlen, hfree, ?_, ?_, by rw [hq], ?_⟩
  · intro hall
    rw [(findFreeSlot_none _).mpr hall] at hf
    cases hf
  · rw [create_some collisionKernel 100 1 4091 hf]
    decide
  · rw [hn]
    decide

/-- C11: in a table of at most 4096 slots, with any value of the generation counter, a
create that selects slot `i` returns an identifier whose low 12 bits are `i`, and a
lookup of that identifier by the creating process (an 8-bit process id) returns slot
`i`, immediately and in every later state that has the same table length and the
same `pid` member in slot `i`. -/
theorem identifier_round_trip (k : Kernel) (messages size i : Nat)
    (hlen : k.queues.length ≤ 4096) (hpid : k.currentProcess < 256)
    (hfree : findFreeSlot k.queues = some i) :
    ∃ id, (IOS_CreateMessageQueue k messages size).1 = Error.cast id ∧
      id &&& 0xFFF = i ∧
      getMessageQueue (IOS_CreateMessageQueue k messages size).2 id = some i ∧
      ∀ k2 : Kernel,
        k2.queues.length = (IOS_CreateMessageQueue k messages size).2.queues.length →
        (k2.queue i).pid = ((IOS_CreateMessageQueue k messages size).2.queue i).pid →
        k2.currentProcess = k.currentProcess →
        getMessageQueue k2 id = some i := by
  obtain ⟨hi, _, _⟩ := findFreeSlot_some k.queues i hfree
  obtain ⟨hq, _, hl, _, hp, _⟩ := create_slot k messages size i hfree
  have hlow := uid_low_bits k.numCreatedQueues i (by omega)
  have hlook : ∀ k2 : Kernel,
      k2.queues.length = (IOS_CreateMessageQueue k messages size).2.queues.length →
      (k2.queue i).pid = ((IOS_CreateMessageQueue k messages size).2.queue i).pid →
      k2.currentProcess = k.currentProcess →
      getMessageQueue k2 (((k.numCreatedQueues <<< 12) % 4294967296) ||| i) = some i := by
    intro k2 h1 h2 h3
    rw [getMessageQueue_eq, hlow, if_neg]
    intro h
    rcases h with h | h
    · omega
    · apply h
      rw [h2, hq, h3]
      exact Nat.mod_eq_of_lt hpid
  refine ⟨((k.numCreatedQueues <<< 12) % 4294967296) ||| i, ?_, hlow, ?_, hlook⟩
  · rw [create_some k messages size i hfree]
  · exact hlook _ rfl rfl hp

/-- C11, witness: slot 1 of the two-slot table, generation counter `2 ^ 20 + 1`. -/
theorem identifier_round_trip_witness :
    ∃ id, (IOS_CreateMessageQueue twoSlotKernel 200 4).1 = Error.cast id ∧
      id &&& 0xFFF = 1 ∧
      getMessageQueue (IOS_CreateMessageQueue twoSlotKernel 200 4).2 id = some 1 ∧
      ∀ k2 : Kernel,
        k2.queues.length = (IOS_CreateMessageQueue twoSlotKernel 200 4).2.queues.length →
        (k2.queue 1).pid = ((IOS_CreateMessageQueue twoSlotKernel 200 4).2.queue 1).pid →
        k2.currentProcess = twoSlotKernel.currentProcess →
        getMessageQueue k2 id = some 1 :=
  identifier_round_trip twoSlotKernel 200 4 1 (by decide) (by decide) (by decide)

theorem unlock_lock_eq (k : Kernel) (h : k.schedulerLocked = false) :
    unlockScheduler (lockScheduler k) = k := by
  cases k
  simp only [lockScheduler, unlockScheduler] at h ⊢
  simp [h]

/-- The five calls when the lookup of the id fails: all return Invalid; send and
receive leave the state untouched, jam and destroy leave it with the lock not held. -/
theorem calls_invalid_of_lookup_none (L : Layout) (k : Kernel) (id : Nat) (m : Message)
    (flags : MessageFlags) (h : getMessageQueue k id = none) :
    IOS_SendMessage k id m flags = .returned Error.Invalid k ∧
    IOS_JamMessage k id m flags = .returned Error.Invalid (unlockScheduler (lockScheduler k)) ∧
    IOS_ReceiveMessage k id flags = (.returned Error.Invalid k, none) ∧
    IOS_DestroyMessageQueue L k id = (Error.Invalid, unlockScheduler (lockScheduler k)) := by
  refine ⟨?_, ?_, ?_, destroy_none L k id h⟩
  · simp only [IOS_SendMessage, h]
  · simp only [IOS_JamMessage, getMessageQueue_lockScheduler, h]
  · simp only [IOS_ReceiveMessage, h]

/-- C12: (1) the lookup yields null exactly when the low 12 bits of the id are not
below the number of slots or the `pid` member of the selected slot differs from the
current process id, and yields the slot at index `id & 0xFFF` otherwise. (2) In a
table of at most 4096 slots, a queue created while the current process is `P1` (an
8-bit process id) is not found when the current process is `P2 ≠ P1`: the lookup
yields null and send, jam, receive and destroy return Invalid, changing nothing. -/
theorem lookup_bounds_and_isolation :
    (∀ (k : Kernel) (id : Nat),
      getMessageQueue k id =
        if k.queues.length ≤ id &&& 0xFFF ∨ (k.queue (id &&& 0xFFF)).pid ≠ k.currentProcess
        then none else some (id &&& 0xFFF)) ∧
    (∀ (L : Layout) (k : Kernel) (messages size i P2 : Nat) (t : ThreadId) (m : Message)
        (flags : MessageFlags),
      k.queues.length ≤ 4096 → k.currentProcess < 256 → findFreeSlot k.queues = some i →
      P2 ≠ k.currentProcess →
      ∃ id, (IOS_CreateMessageQueue k messages size).1 = Error.cast id ∧
        getMessageQueue ((IOS_CreateMessageQueue k messages size).2.calledBy P2 t) id = none ∧
        IOS_SendMessage ((IOS_CreateMessageQueue k messages size).2.calledBy P2 t) id m flags
          = .returned Error.Invalid ((IOS_CreateMessageQueue k messages size).2.calledBy P2 t) ∧
        IOS_JamMessage ((IOS_CreateMessageQueue k messages size).2.calledBy P2 t) id m flags
          = .returned Error.Invalid ((IOS_CreateMessageQueue k messages size).2.calledBy P2 t) ∧
        IOS_ReceiveMessage ((IOS_CreateMessageQueue k messages size).2.calledBy P2 t) id flags
          = (.returned Error.Invalid ((IOS_CreateMessageQueue k messages size).2.calledBy P2 t),
              none) ∧
        IOS_DestroyMessageQueue L ((IOS_CreateMessageQueue k messages size).2.calledBy P2 t) id
          = (Error.Invalid, (IOS_CreateMessageQueue k messages size).2.calledBy P2 t)) := by
  refine ⟨getMessageQueue_eq, ?_⟩
  intro L k messages size i P2 t m flags hlen hpid hfree hP
  obtain ⟨hi, _, _⟩ := findFreeSlot_some k.queues i hfree
  obtain ⟨hq, _, hl, _, _, hlock⟩ := create_slot k messages size i hfree
  have hlow := uid_low_bits k.numCreatedQueues i (by omega)
  have hnone : getMessageQueue ((IOS_CreateMessageQueue k messages size).2.calledBy P2 t)
      (((k.numCreatedQueues <<< 12) % 4294967296) ||| i) = none := by
    rw [getMessageQueue_eq, hlow, if_pos]
    right
    show ((IOS_CreateMessageQueue k messages size).2.queue i).pid ≠ P2
    rw [hq]
    show k.currentProcess % 256 ≠ P2
    rw [Nat.mod_eq_of_lt hpid]
    exact fun h => hP h.symm
  obtain ⟨h1, h2, h3, h4⟩ := calls_invalid_of_lookup_none L _ _ m flags hnone
  have hun := unlock_lock_eq ((IOS_CreateMessageQueue k messages size).2.calledBy P2 t) hlock
  rw [hun] at h2 h4
  exact ⟨_, by rw [create_some k messages size i hfree], hnone, h1, h2, h3, h4⟩

/-- C12, witness: the lookup in the full two-slot table, and a queue created by
process 3 in slot 1 of the two-slot table, then used from thread 9 of process 4. -/
theorem lookup_bounds_and_isolation_witness :
    getMessageQueue liveTableKernel 8192 = some 0 ∧
    getMessageQueue liveTableKernel 8194 = none ∧
    getMessageQueue (liveTableKernel.calledBy 4 9) 8192 = none ∧
    ∃ id, (IOS_CreateMessageQueue twoSlotKernel 200 4).1 = Error.cast id ∧
      getMessageQueue ((IOS_CreateMessageQueue twoSlotKernel 200 4).2.calledBy 4 9) id = none ∧
      IOS_SendMessage ((IOS_CreateMessageQueue twoSlotKernel 200 4).2.calledBy 4 9) id 7
          MessageFlags.none
        = .returned Error.Invalid ((IOS_CreateMessageQueue twoSlotKernel 200 4).2.calledBy 4 9) ∧
      IOS_JamMessage ((IOS_CreateMessageQueue twoSlotKernel 200 4).2.calledBy 4 9) id 7
          MessageFlags.none
        = .returned Error.Invalid ((IOS_CreateMessageQueue twoSlotKernel 200 4).2.calledBy 4 9) ∧
      IOS_ReceiveMessage ((IOS_CreateMessageQueue twoSlotKernel 200 4).2.calledBy 4 9) id
          MessageFlags.none
        = (.returned Error.Invalid ((IOS_CreateMessageQueue twoSlotKernel 200 4).2.calledBy 4 9),
            none) ∧
      IOS_DestroyMessageQueue Layout.receiveQueueFirst
          ((IOS_CreateMessageQueue twoSlotKernel 200 4).2.calledBy 4 9) id
        = (Error.Invalid, (IOS_CreateMessageQueue twoSlotKernel 200 4).2.calledBy 4 9) :=
  ⟨by rw [lookup_bounds_and_isolation.1]; decide,
   by rw [lookup_bounds_and_isolation.1]; decide,
   by rw [lookup_bounds_and_isolation.1]; decide,
   lookup_bounds_and_isolation.2 Layout.receiveQueueFirst twoSlotKernel 200 4 1 4 9 7
     MessageFlags.none (by decide) (by decide) (by decide) (by decide)⟩

theorem wakeupAll_threads (k : Kernel) (qi : Nat) (w : WaitList) (r : Error) :
    (wakeupAllThreadsNoLock k qi w r).threads = fun u =>
      if u ∈ (k.queue qi).waitList w then { queueWaitResult := r, runnable := true }
      else k.threads u := rfl

/-- The contexts after the two `wakeupAllThreadsNoLock` calls of destroy. -/
theorem destroy_tail_threads (L : Layout) (k0 : Kernel) (qi : Nat)
    (hlen : qi < k0.queues.length) :
    (unlockScheduler ((wakeupAllThreadsNoLock (wakeupAllThreadsNoLock k0 qi .sendQueue Error.Intr)
        qi .receiveQueue Error.Intr).setQueue qi (memsetThreadQueueBytes L
          ((wakeupAllThreadsNoLock (wakeupAllThreadsNoLock k0 qi .sendQueue Error.Intr)
            qi .receiveQueue Error.Intr).queue qi)))).threads
      = fun u =>
        if u ∈ (k0.queue qi).receiveQueue then { queueWaitResult := Error.Intr, runnable := true }
        else if u ∈ (k0.queue qi).sendQueue then
          { queueWaitResult := Error.Intr, runnable := true }
        else k0.threads u := by
  show (wakeupAllThreadsNoLock (wakeupAllThreadsNoLock k0 qi .sendQueue Error.Intr)
        qi .receiveQueue Error.Intr).threads = _
  rw [wakeupAll_threads, wakeupAll_threads, wakeupAll_queue, if_pos ⟨rfl, hlen⟩]
  rfl

/-- The contexts after a destroy whose lookup succeeds. -/
theorem destroy_threads (L : Layout) (k : Kernel) (id qi : Nat)
    (hlook : getMessageQueue k id = some qi) :
    (IOS_DestroyMessageQueue L k id).2.threads = fun u =>
      if u ∈ (k.queue qi).receiveQueue then { queueWaitResult := Error.Intr, runnable := true }
      else if u ∈ (k.queue qi).sendQueue then
        { queueWaitResult := Error.Intr, runnable := true }
      else k.threads u := by
  obtain ⟨_, hlen, _⟩ := getMessageQueue_some k id qi hlook
  unfold IOS_DestroyMessageQueue
  simp only [getMessageQueue_lockScheduler, hlook]
  by_cases hflag : ((lockScheduler k).queue qi).flags.RegisteredEventHandler = true
  · simp only [if_pos hflag]
    rw [destroy_tail_threads L ((lockScheduler k).setQueue qi _) qi
      (by rw [length_setQueue]; exact hlen), queue_setQueue_same (lockScheduler k) qi _ hlen]
    rfl
  · simp only [if_neg hflag]
    rw [destroy_tail_threads L (lockScheduler k) qi hlen]
    rfl

/-- C13: when destroy returns OK, every context that was on the send-wait list or on
the receive-wait list of the slot has `waitResult = Intr` and is runnable, both wait
lists of the slot are empty, and every context that was on neither list is as it
was. -/
theorem destroy_interrupts_every_waiter (L : Layout) (k : Kernel) (id : Nat)
    (hok : (IOS_DestroyMessageQueue L k id).1 = Error.OK) :
    (∀ u, u ∈ (k.queue (id &&& 0xFFF)).sendQueue ∨ u ∈ (k.queue (id &&& 0xFFF)).receiveQueue →
      (IOS_DestroyMessageQueue L k id).2.threads u
        = { queueWaitResult := Error.Intr, runnable := true }) ∧
    ((IOS_DestroyMessageQueue L k id).2.queue (id &&& 0xFFF)).sendQueue = [] ∧
    ((IOS_DestroyMessageQueue L k id).2.queue (id &&& 0xFFF)).receiveQueue = [] ∧
    (∀ u, u ∉ (k.queue (id &&& 0xFFF)).sendQueue → u ∉ (k.queue (id &&& 0xFFF)).receiveQueue →
      (IOS_DestroyMessageQueue L k id).2.threads u = k.threads u) := by
  cases hlook : getMessageQueue k id with
  | none =>
    rw [destroy_none L k id hlook] at hok
    cases hok
  | some qi =>
    obtain ⟨hqi, hlen, _⟩ := getMessageQueue_some k id qi hlook
    subst hqi
    have hth := destroy_threads L k id _ hlook
    obtain ⟨k1, hr, hq, _⟩ := destroy_some L k id _ hlook
    rw [hth, hr]
    refine ⟨?_, ?_, ?_, ?_⟩
    · intro u hu
      by_cases h1 : u ∈ (k.queue (id &&& 0xFFF)).receiveQueue
      · simp only [if_pos h1]
      · simp only [if_neg h1]
        rcases hu with hu | hu
        · simp only [if_pos hu]
        · exact absurd hu h1
    · show (k1.queue (id &&& 0xFFF)).sendQueue = []
      rw [hq]
      simp [memsetThreadQueueBytes]
    · show (k1.queue (id &&& 0xFFF)).receiveQueue = []
      rw [hq]
      simp [memsetThreadQueueBytes]
    · intro u h1 h2
      simp only [if_neg h1, if_neg h2]

/-- C13, witness: slot 0 of the full two-slot table, contexts 5 and 6 waiting to send. -/
theorem destroy_interrupts_every_waiter_witness :
    (∀ u, u ∈ (liveTableKernel.queue (8192 &&& 0xFFF)).sendQueue ∨
        u ∈ (liveTableKernel.queue (8192 &&& 0xFFF)).receiveQueue →
      (IOS_DestroyMessageQueue Layout.receiveQueueFirst liveTableKernel 8192).2.threads u
        = { queueWaitResult := Error.Intr, runnable := true }) ∧
    ((IOS_DestroyMessageQueue Layout.receiveQueueFirst liveTableKernel 8192).2.queue
      (8192 &&& 0xFFF)).sendQueue = [] ∧
    ((IOS_DestroyMessageQueue Layout.receiveQueueFirst liveTableKernel 8192).2.queue
      (8192 &&& 0xFFF)).receiveQueue = [] ∧
    (∀ u, u ∉ (liveTableKernel.queue (8192 &&& 0xFFF)).sendQueue →
        u ∉ (liveTableKernel.queue (8192 &&& 0xFFF)).receiveQueue →
      (IOS_DestroyMessageQueue Layout.receiveQueueFirst liveTableKernel 8192).2.threads u
        = liveTableKernel.threads u) :=
  destroy_interrupts_every_waiter Layout.receiveQueueFirst liveTableKernel 8192 (by decide)

/-- C14: for send, jam and receive without NonBlocking. (1) On a full (for receive:
empty) queue the call suspends the caller on the wait list. (2) Resumed with
`waitResult = r ≠ OK` the call returns `r` at once, in the very state it was resumed
in (no wait, no change of head, count, messages or wait lists, no wake) and receive
writes no output. (3) Resumed with OK the call goes back to the test of its loop:
it is the loop run from the resumed state, so on a queue that is still full (empty)
it suspends again without transferring. -/
theorem non_ok_wake_aborts (k : Kernel) (id qi : Nat) (m : Message) (flags : MessageFlags)
    (hb : flags.NonBlocking = false) :
    ((k.queue qi).used = (k.queue qi).size →
      sendMessage k qi m flags =
        .suspended (rescheduleSelfNoLock (sleepThreadNoLock (lockScheduler k) qi .sendQueue))) ∧
    (getMessageQueue k id = some qi → (k.queue qi).used = (k.queue qi).size →
      IOS_JamMessage k id m flags =
        .suspended (rescheduleSelfNoLock (sleepThreadNoLock (lockScheduler k) qi .sendQueue))) ∧
    ((k.queue qi).used = 0 →
      receiveMessage k qi flags =
        (.suspended (rescheduleSelfNoLock (sleepThreadNoLock (lockScheduler k) qi .receiveQueue)),
          none)) ∧
    ((k.threads k.currentThread).queueWaitResult ≠ Error.OK →
      sendMessageResume k qi m flags
        = .returned (k.threads k.currentThread).queueWaitResult k ∧
      jamMessageResume k qi m flags
        = .returned (k.threads k.currentThread).queueWaitResult k ∧
      receiveMessageResume k qi flags
        = (.returned (k.threads k.currentThread).queueWaitResult k, none)) ∧
    ((k.threads k.currentThread).queueWaitResult = Error.OK →
      sendMessageResume k qi m flags = sendLoop k qi m flags ∧
      jamMessageResume k qi m flags = jamLoop k qi m flags ∧
      receiveMessageResume k qi flags = receiveLoop k qi flags ∧
      ((k.queue qi).used = (k.queue qi).size →
        sendMessageResume k qi m flags =
          .suspended (rescheduleSelfNoLock (sleepThreadNoLock k qi .sendQueue)) ∧
        jamMessageResume k qi m flags =
          .suspended (rescheduleSelfNoLock (sleepThreadNoLock k qi .sendQueue))) ∧
      ((k.queue qi).used = 0 →
        receiveMessageResume k qi flags =
          (.suspended (rescheduleSelfNoLock (sleepThreadNoLock k qi .receiveQueue)), none))) := by
  refine ⟨?_, ?_, ?_, ?_, ?_⟩
  · intro hfull
    simp [sendMessage, sendLoop, queue_lockScheduler, hfull, hb]
  · intro hlook hfull
    simp [IOS_JamMessage, getMessageQueue_lockScheduler, hlook, jamLoop, queue_lockScheduler,
      hfull, hb]
  · intro hempty
    simp [receiveMessage, receiveLoop, queue_lockScheduler, hempty, hb]
  · intro hr
    refine ⟨?_, ?_, ?_⟩
    · simp only [sendMessageResume, if_pos hr]
    · simp only [jamMessageResume, if_pos hr]
    · simp only [receiveMessageResume, if_pos hr]
  · intro hr
    have hn : ¬ (k.threads k.currentThread).queueWaitResult ≠ Error.OK := fun h => h hr
    have h1 : sendMessageResume k qi m flags = sendLoop k qi m flags := by
      simp only [sendMessageResume, if_neg hn]
    have h2 : jamMessageResume k qi m flags = jamLoop k qi m flags := by
      simp only [jamMessageResume, if_neg hn]
    have h3 : receiveMessageResume k qi flags = receiveLoop k qi flags := by
      simp only [receiveMessageResume, if_neg hn]
    refine ⟨h1, h2, h3, ?_, ?_⟩
    · intro hfull
      rw [h1, h2]
      constructor
      · simp [sendLoop, hfull, hb]
      · simp [jamLoop, hfull, hb]
    · intro hempty
      rw [h3]
      simp [receiveLoop, hempty, hb]

/-- C14, witness: the full slot 0 and the empty slot 1 of a two-slot table; the entry
of each call suspends, and a resumption with Intr returns Intr in the resumed
state. -/
theorem non_ok_wake_aborts_witness :
    sendMessage fullAndEmptyKernel 0 7 MessageFlags.none =
      .suspended (rescheduleSelfNoLock
        (sleepThreadNoLock (lockScheduler fullAndEmptyKernel) 0 .sendQueue)) ∧
    IOS_JamMessage fullAndEmptyKernel 0 7 MessageFlags.none =
      .suspended (rescheduleSelfNoLock
        (sleepThreadNoLock (lockScheduler fullAndEmptyKernel) 0 .sendQueue)) ∧
    receiveMessage fullAndEmptyKernel 1 MessageFlags.none =
      (.suspended (rescheduleSelfNoLock
        (sleepThreadNoLock (lockScheduler fullAndEmptyKernel) 1 .receiveQueue)), none) ∧
    (sendMessageResume (fullAndEmptyKernel.wokenWith Error.Intr) 0 7 MessageFlags.none
        = .returned ((fullAndEmptyKernel.wokenWith Error.Intr).threads
            (fullAndEmptyKernel.wokenWith Error.Intr).currentThread).queueWaitResult
            (fullAndEmptyKernel.wokenWith Error.Intr) ∧
      jamMessageResume (fullAndEmptyKernel.wokenWith Error.Intr) 0 7 MessageFlags.none
        = .returned ((fullAndEmptyKernel.wokenWith Error.Intr).threads
            (fullAndEmptyKernel.wokenWith Error.Intr).currentThread).queueWaitResult
            (fullAndEmptyKernel.wokenWith Error.Intr) ∧
      receiveMessageResume (fullAndEmptyKernel.wokenWith Error.Intr) 0 MessageFlags.none
        = (.returned ((fullAndEmptyKernel.wokenWith Error.Intr).threads
            (fullAndEmptyKernel.wokenWith Error.Intr).currentThread).queueWaitResult
            (fullAndEmptyKernel.wokenWith Error.Intr), none)) ∧
    ((fullAndEmptyKernel.wokenWith Error.Intr).threads
      (fullAndEmptyKernel.wokenWith Error.Intr).currentThread).queueWaitResult = Error.Intr :=
  ⟨(non_ok_wake_aborts fullAndEmptyKernel 0 0 7 MessageFlags.none rfl).1 (by decide),
   (non_ok_wake_aborts fullAndEmptyKernel 0 0 7 MessageFlags.none rfl).2.1
      (by decide) (by decide),
   (non_ok_wake_aborts fullAndEmptyKernel 1 1 7 MessageFlags.none rfl).2.2.1 (by decide),
   (non_ok_wake_aborts (fullAndEmptyKernel.wokenWith Error.Intr) 0 0 7 MessageFlags.none
      rfl).2.2.2.1 (by decide),
   by decide⟩

/-- A send loop that returns OK went through the transfer. -/
theorem sendLoop_ok (k k1 : Kernel) (qi : Nat) (m : Message) (flags : MessageFlags)
    (h : qi < k.queues.length) (hr : sendLoop k qi m flags = .returned Error.OK k1) :
    wokeOneReceiver k k1 qi := by
  by_cases hfull : (k.queue qi).used = (k.queue qi).size
  · by_cases hnb : flags.NonBlocking = true
    · simp [sendLoop, hfull, hnb] at hr
    · simp [sendLoop, hfull, hnb] at hr
  · by_cases hs : (k.queue qi).size = 0
    · have hu : sendLoop k qi m flags = .undefined := by
        simp only [sendLoop, if_neg hfull, if_pos hs]
      rw [hu] at hr
      cases hr
    · obtain ⟨k2, hr2, hq, _, _, _, _, _, _, _, hth⟩ := sendLoop_transfer k qi m flags h hfull hs
      rw [hr2] at hr
      injection hr with _ hk
      subst hk
      exact ⟨by rw [hq], by rw [hq], hth⟩

/-- A jam loop that returns OK went through the front insert. -/
theorem jamLoop_ok (k k1 : Kernel) (qi : Nat) (m : Message) (flags : MessageFlags)
    (h : qi < k.queues.length) (hr : jamLoop k qi m flags = .returned Error.OK k1) :
    wokeOneReceiver k k1 qi := by
  by_cases hfull : (k.queue qi).used = (k.queue qi).size
  · by_cases hnb : flags.NonBlocking = true
    · simp [jamLoop, hfull, hnb] at hr
    · simp [jamLoop, hfull, hnb] at hr
  · obtain ⟨k2, hr2, hq, _, _, _, _, _, _, _, hth⟩ := jamLoop_transfer k qi m flags h hfull
    rw [hr2] at hr
    injection hr with _ hk
    subst hk
    exact ⟨by rw [hq], by rw [hq], hth⟩

/-- A receive loop that returns OK went through the transfer. -/
theorem receiveLoop_ok (k k1 : Kernel) (qi : Nat) (flags : MessageFlags) (out : Option Message)
    (h : qi < k.queues.length) (hr : receiveLoop k qi flags = (.returned Error.OK k1, out)) :
    wokeOneSender k k1 qi := by
  by_cases hempty : (k.queue qi).used = 0
  · by_cases hnb : flags.NonBlocking = true
    · simp [receiveLoop, hempty, hnb] at hr
    · simp [receiveLoop, hempty, hnb] at hr
  · by_cases hs : (k.queue qi).size = 0
    · have hu : (receiveLoop k qi flags).1 = .undefined := by
        simp only [receiveLoop, if_neg hempty, if_pos hs]
      rw [hr] at hu
      cases hu
    · obtain ⟨k2, hr2, hq, _, _, _, _, _, _, _, hth⟩ := receiveLoop_transfer k qi flags h hempty hs
      rw [hr2] at hr
      injection hr with hr _
      injection hr with _ hk
      subst hk
      exact ⟨by rw [hq], by rw [hq], hth⟩

/-- C15: a send on a queue that is not full and has `size ≠ 0`, and a jam on a queue
that is not full, return OK, and so does a receive on a queue that is not empty
and has `size ≠ 0`; the same holds for a call resumed with wait result OK. Every
send and every jam that returns OK, entered from the start or resumed, removes
exactly the earliest-enqueued context (if any) from the receive-wait list of the
queue, wakes it with OK, and leaves the send-wait list, the other receive-waiters
and every other context untouched; every receive that returns OK does the same on
the send-wait list and leaves the receive-wait list untouched. -/
theorem one_wake_per_transfer (k : Kernel) (id qi : Nat) (m : Message)
    (flags : MessageFlags) (h : qi < k.queues.length) :
    ((k.queue qi).used ≠ (k.queue qi).size → (k.queue qi).size ≠ 0 →
      ∃ k1, sendMessage k qi m flags = .returned Error.OK k1) ∧
    (∀ k1, sendMessage k qi m flags = .returned Error.OK k1 → wokeOneReceiver k k1 qi) ∧
    ((k.threads k.currentThread).queueWaitResult = Error.OK →
      (k.queue qi).used ≠ (k.queue qi).size → (k.queue qi).size ≠ 0 →
      ∃ k1, sendMessageResume k qi m flags = .returned Error.OK k1) ∧
    (∀ k1, sendMessageResume k qi m flags = .returned Error.OK k1 →
      wokeOneReceiver k k1 qi) ∧
    (getMessageQueue k id = some qi → (k.queue qi).used ≠ (k.queue qi).size →
      ∃ k1, IOS_JamMessage k id m flags = .returned Error.OK k1) ∧
    (getMessageQueue k id = some qi →
      ∀ k1, IOS_JamMessage k id m flags = .returned Error.OK k1 → wokeOneReceiver k k1 qi) ∧
    ((k.threads k.currentThread).queueWaitResult = Error.OK →
      (k.queue qi).used ≠ (k.queue qi).size →
      ∃ k1, jamMessageResume k qi m flags = .returned Error.OK k1) ∧
    (∀ k1, jamMessageResume k qi m flags = .returned Error.OK k1 → wokeOneReceiver k k1 qi) ∧
    ((k.queue qi).used ≠ 0 → (k.queue qi).size ≠ 0 →
      ∃ k1, receiveMessage k qi flags =
        (.returned Error.OK k1, some (k.memory ((k.queue qi).messages + (k.queue qi).first)))) ∧
    (∀ k1 out, receiveMessage k qi flags = (.returned Error.OK k1, out) →
      wokeOneSender k k1 qi) ∧
    ((k.threads k.currentThread).queueWaitResult = Error.OK →
      (k.queue qi).used ≠ 0 → (k.queue qi).size ≠ 0 →
      ∃ k1, receiveMessageResume k qi flags =
        (.returned Error.OK k1, some (k.memory ((k.queue qi).messages + (k.queue qi).first)))) ∧
    (∀ k1 out, receiveMessageResume k qi flags = (.returned Error.OK k1, out) →
      wokeOneSender k k1 qi) := by
  refine ⟨?_, ?_, ?_, ?_, ?_, ?_, ?_, ?_, ?_, ?_, ?_, ?_⟩
  · intro hne hs
    obtain ⟨k1, hr, _⟩ := sendLoop_transfer (lockScheduler k) qi m flags h hne hs
    exact ⟨k1, hr⟩
  · intro k1 hr
    exact sendLoop_ok (lockScheduler k) k1 qi m flags h hr
  · intro hw hne hs
    obtain ⟨k1, hr, _⟩ := sendLoop_transfer k qi m flags h hne hs
    exact ⟨k1, by simp only [sendMessageResume, hw, ne_eq, not_true_eq_false, if_false, hr]⟩
  · intro k1 hr
    unfold sendMessageResume at hr
    dsimp only at hr
    split at hr
    · rename_i hne
      injection hr with he _
      exact absurd he hne
    · exact sendLoop_ok k k1 qi m flags h hr
  · intro hlook hne
    obtain ⟨k1, hr, _⟩ := jamLoop_transfer (lockScheduler k) qi m flags h hne
    exact ⟨k1, by simp only [IOS_JamMessage, getMessageQueue_lockScheduler, hlook, hr]⟩
  · intro hlook k1 hr
    simp only [IOS_JamMessage, getMessageQueue_lockScheduler, hlook] at hr
    exact jamLoop_ok (lockScheduler k) k1 qi m flags h hr
  · intro hw hne
    obtain ⟨k1, hr, _⟩ := jamLoop_transfer k qi m flags h hne
    exact ⟨k1, by simp only [jamMessageResume, hw, ne_eq, not_true_eq_false, if_false, hr]⟩
  · intro k1 hr
    unfold jamMessageResume at hr
    dsimp only at hr
    split at hr
    · rename_i hne
      injection hr with he _
      exact absurd he hne
    · exact jamLoop_ok k k1 qi m flags h hr
  · intro hne hs
    obtain ⟨k1, hr, _⟩ := receiveLoop_transfer (lockScheduler k) qi flags h hne hs
    exact ⟨k1, hr⟩
  · intro k1 out hr
    exact receiveLoop_ok (lockScheduler k) k1 qi flags out h hr
  · intro hw hne hs
    obtain ⟨k1, hr, _⟩ := receiveLoop_transfer k qi flags h hne hs
    exact ⟨k1, by simp only [receiveMessageResume, hw, ne_eq, not_true_eq_false, if_false, hr]⟩
  · intro k1 out hr
    unfold receiveMessageResume at hr
    dsimp only at hr
    split at hr
    · rename_i hne
      injection hr with hr _
      injection hr with he _
      exact absurd he hne
    · exact receiveLoop_ok k k1 qi flags out h hr

/-- C15, witness: contexts 1 and 2 block in receive on the empty capacity-1 queue, in
that order; the send of context 3 (and likewise a jam) returns OK, takes context 1
off the receive-wait list and wakes it with OK, and context 2 stays on the list,
not runnable; context 1, resumed, receives message 7 with OK. On the full slot 0
of the two-slot table, with contexts 5 and 6 waiting to send, a receive returns OK
and wakes context 5 only; context 5, resumed, sends (or jams) with OK and wakes
nobody else. -/
theorem one_wake_per_transfer_witness :
    (twoReceiversBlocked.queue 0).receiveQueue = [1, 2] ∧
    sendMessage (twoReceiversBlocked.switchedTo 0 3) 0 7 MessageFlags.none
      = .returned Error.OK twoReceiversOneSend ∧
    wokeOneReceiver (twoReceiversBlocked.switchedTo 0 3) twoReceiversOneSend 0 ∧
    (twoReceiversOneSend.queue 0).receiveQueue = [2] ∧
    twoReceiversOneSend.threads 1 = { queueWaitResult := Error.OK, runnable := true } ∧
    (twoReceiversOneSend.threads 2).runnable = false ∧
    (∃ k1, IOS_JamMessage (twoReceiversBlocked.switchedTo 0 3) 0 7 MessageFlags.none
      = .returned Error.OK k1) ∧
    wokeOneReceiver (twoReceiversBlocked.switchedTo 0 3) twoReceiversOneJam 0 ∧
    (twoReceiversOneJam.queue 0).receiveQueue = [2] ∧
    (twoReceiversOneJam.threads 2).runnable = false ∧
    (∃ k1, receiveMessageResume (twoReceiversOneSend.resumedBy 0 1) 0 MessageFlags.none
      = (.returned Error.OK k1, some 7)) ∧
    wokeOneSender (twoReceiversOneSend.resumedBy 0 1) firstReceiverResumed 0 ∧
    (firstReceiverResumed.queue 0).receiveQueue = [2] ∧
    (fullAndEmptyKernel.queue 0).sendQueue = [5, 6] ∧
    (∃ k1, receiveMessage fullAndEmptyKernel 0 MessageFlags.none
      = (.returned Error.OK k1, some 101)) ∧
    wokeOneSender fullAndEmptyKernel twoSendersOneReceive 0 ∧
    (twoSendersOneReceive.queue 0).sendQueue = [6] ∧
    (∃ k1, sendMessageResume (twoSendersOneReceive.resumedBy 0 5) 0 9 MessageFlags.none
      = .returned Error.OK k1) ∧
    wokeOneReceiver (twoSendersOneReceive.resumedBy 0 5) firstSenderResumed 0 ∧
    (firstSenderResumed.queue 0).sendQueue = [6] ∧
    (∃ k1, jamMessageResume (twoSendersOneReceive.resumedBy 0 5) 0 9 MessageFlags.none
      = .returned Error.OK k1) ∧
    wokeOneReceiver (twoSendersOneReceive.resumedBy 0 5) firstJammerResumed 0 ∧
    (firstJammerResumed.queue 0).sendQueue = [6] :=
  ⟨by decide, rfl,
   (one_wake_per_transfer (twoReceiversBlocked.switchedTo 0 3) 0 0 7 MessageFlags.none
      (by decide)).2.1 twoReceiversOneSend rfl,
   by decide, by decide, by decide,
   (one_wake_per_transfer (twoReceiversBlocked.switchedTo 0 3) 0 0 7 MessageFlags.none
      (by decide)).2.2.2.2.1 (by decide) (by decide),
   (one_wake_per_transfer (twoReceiversBlocked.switchedTo 0 3) 0 0 7 MessageFlags.none
      (by decide)).2.2.2.2.2.1 (by decide) twoReceiversOneJam rfl,
   by decide, by decide,
   (one_wake_per_transfer (twoReceiversOneSend.resumedBy 0 1) 0 0 7 MessageFlags.none
      (by decide)).2.2.2.2.2.2.2.2.2.2.1 (by decide) (by decide) (by decide),
   (one_wake_per_transfer (twoReceiversOneSend.resumedBy 0 1) 0 0 7 MessageFlags.none
      (by decide)).2.2.2.2.2.2.2.2.2.2.2 firstReceiverResumed (some 7) rfl,
   by decide, by decide,
   (one_wake_per_transfer fullAndEmptyKernel 0 0 7 MessageFlags.none
      (by decide)).2.2.2.2.2.2.2.2.1 (by decide) (by decide),
   (one_wake_per_transfer fullAndEmptyKernel 0 0 7 MessageFlags.none
      (by decide)).2.2.2.2.2.2.2.2.2.1 twoSendersOneReceive (some 101) rfl,
   by decide,
   (one_wake_per_transfer (twoSendersOneReceive.resumedBy 0 5) 0 0 9 MessageFlags.none
      (by decide)).2.2.1 (by decide) (by decide) (by decide),
   (one_wake_per_transfer (twoSendersOneReceive.resumedBy 0 5) 0 0 9 MessageFlags.none
      (by decide)).2.2.2.1 firstSenderResumed rfl,
   by decide,
   (one_wake_per_transfer (twoSendersOneReceive.resumedBy 0 5) 0 0 9 MessageFlags.none
      (by decide)).2.2.2.2.2.2.1 (by decide) (by decide),
   (one_wake_per_transfer (twoSendersOneReceive.resumedBy 0 5) 0 0 9 MessageFlags.none
      (by decide)).2.2.2.2.2.2.2.1 firstJammerResumed rfl,
   by decide⟩

theorem sameRegistry_refl (k : Kernel) : sameRegistry k k :=
  ⟨rfl, rfl, fun _ => ⟨rfl, rfl, rfl⟩⟩

theorem sameRegistry_trans (k k1 k2 : Kernel) (h1 : sameRegistry k k1)
    (h2 : sameRegistry k1 k2) : sameRegistry k k2 :=
  ⟨h2.1.trans h1.1, h2.2.1.trans h1.2.1, fun j =>
    ⟨((h2.2.2 j).1).trans (h1.2.2 j).1, ((h2.2.2 j).2.1).trans (h1.2.2 j).2.1,
      ((h2.2.2 j).2.2).trans (h1.2.2 j).2.2⟩⟩

theorem sameRegistry_sleep (k : Kernel) (qi : Nat) (w : WaitList) :
    sameRegistry k (sleepThreadNoLock k qi w) := by
  refine ⟨sleepThread_length k qi w, rfl, ?_⟩
  intro j
  rw [sleepThread_queue]
  split
  · rename_i h
    obtain ⟨rfl, _⟩ := h
    obtain ⟨_, _, h3, _, h5, h6, _⟩ := setWaitList_fields (k.queue qi) w
      ((k.queue qi).waitList w ++ [k.currentThread])
    exact ⟨h3, h5, h6⟩
  · exact ⟨rfl, rfl, rfl⟩

/-- Storing a slot that has the `size`, `uid` and `pid` of the slot it replaces, then
waking one context, rescheduling and unlocking, keeps the registry data. -/
theorem sameRegistry_store_wake (k k0 : Kernel) (qi : Nat) (q : MessageQueue) (w : WaitList)
    (hk0 : sameRegistry k k0)
    (hs : q.size = (k0.queue qi).size) (hu : q.uid = (k0.queue qi).uid)
    (hp : q.pid = (k0.queue qi).pid) :
    sameRegistry k
      (unlockScheduler (rescheduleAllNoLock (wakeupOneThreadNoLock (k0.setQueue qi q) qi w
        Error.OK))) := by
  obtain ⟨f1, _, f3, _, _, _, f7⟩ := wakeupOne_frame (k0.setQueue qi q) qi w Error.OK
  refine ⟨?_, ?_, ?_⟩
  · show (wakeupOneThreadNoLock (k0.setQueue qi q) qi w Error.OK).queues.length = _
    rw [f1, length_setQueue, hk0.1]
  · show (wakeupOneThreadNoLock (k0.setQueue qi q) qi w Error.OK).numCreatedQueues = _
    rw [f3]
    exact hk0.2.1
  · intro j
    obtain ⟨_, _, g3, _, g5, g6, _⟩ := f7 j
    show ((wakeupOneThreadNoLock (k0.setQueue qi q) qi w Error.OK).queue j).size = _ ∧
      ((wakeupOneThreadNoLock (k0.setQueue qi q) qi w Error.OK).queue j).uid = _ ∧
      ((wakeupOneThreadNoLock (k0.setQueue qi q) qi w Error.OK).queue j).pid = _
    rw [g3, g5, g6, queue_setQueue]
    split
    · rename_i h
      obtain ⟨rfl, _⟩ := h
      exact ⟨hs.trans (hk0.2.2 qi).1, hu.trans (hk0.2.2 qi).2.1, hp.trans (hk0.2.2 qi).2.2⟩
    · exact hk0.2.2 j

theorem sendLoop_sameRegistry (k k1 : Kernel) (qi : Nat) (m : Message) (flags : MessageFlags)
    (h : (sendLoop k qi m flags).state? = some k1) : sameRegistry k k1 := by
  unfold sendLoop at h
  dsimp only at h
  split at h
  · split at h
    · injection h with h
      subst h
      exact sameRegistry_refl k
    · injection h with h
      subst h
      exact sameRegistry_sleep k qi .sendQueue
  · split at h
    · cases h
    · injection h with h
      subst h
      exact sameRegistry_store_wake k (k.writeMessage _ m) qi _ .receiveQueue
        ⟨rfl, rfl, fun _ => ⟨rfl, rfl, rfl⟩⟩ rfl rfl rfl

theorem jamLoop_sameRegistry (k k1 : Kernel) (qi : Nat) (m : Message) (flags : MessageFlags)
    (h : (jamLoop k qi m flags).state? = some k1) : sameRegistry k k1 := by
  unfold jamLoop at h
  dsimp only at h
  split at h
  · split at h
    · injection h with h
      subst h
      exact sameRegistry_refl k
    · injection h with h
      subst h
      exact sameRegistry_sleep k qi .sendQueue
  · injection h with h
    subst h
    exact sameRegistry_store_wake k (k.writeMessage _ m) qi _ .receiveQueue
      ⟨rfl, rfl, fun _ => ⟨rfl, rfl, rfl⟩⟩ rfl rfl rfl

theorem receiveLoop_sameRegistry (k k1 : Kernel) (qi : Nat) (flags : MessageFlags)
    (h : (receiveLoop k qi flags).1.state? = some k1) : sameRegistry k k1 := by
  unfold receiveLoop at h
  dsimp only at h
  split at h
  · split at h
    · injection h with h
      subst h
      exact sameRegistry_refl k
    · injection h with h
      subst h
      exact sameRegistry_sleep k qi .receiveQueue
  · split at h
    · cases h
    · injection h with h
      subst h
      exact sameRegistry_store_wake k k qi _ .sendQueue (sameRegistry_refl k) rfl rfl rfl

/-- Send, jam and receive, from the entry or resumed, keep the registry data. -/
theorem transfer_calls_sameRegistry (L : Layout) (k k1 : Kernel) (c : Call)
    (hc : ∀ messages size, c ≠ Call.create messages size) (hd : ∀ id, c ≠ Call.destroy id)
    (h : (c.run L k).state? = some k1) : sameRegistry k k1 := by
  cases c with
  | create messages size => exact absurd rfl (hc messages size)
  | destroy id => exact absurd rfl (hd id)
  | send id m flags =>
    simp only [Call.run, IOS_SendMessage] at h
    split at h
    · injection h with h
      subst h
      exact sameRegistry_refl k
    · exact sendLoop_sameRegistry (lockScheduler k) k1 _ m flags h
  | jam id m flags =>
    simp only [Call.run, IOS_JamMessage] at h
    split at h
    · injection h with h
      subst h
      exact ⟨rfl, rfl, fun _ => ⟨rfl, rfl, rfl⟩⟩
    · exact jamLoop_sameRegistry (lockScheduler k) k1 _ m flags h
  | receive id flags =>
    simp only [Call.run, IOS_ReceiveMessage] at h
    split at h
    · injection h with h
      subst h
      exact sameRegistry_refl k
    · exact receiveLoop_sameRegistry (lockScheduler k) k1 _ flags h
  | sendResume qi m flags =>
    simp only [Call.run, sendMessageResume] at h
    split at h
    · injection h with h
      subst h
      exact sameRegistry_refl k
    · exact sendLoop_sameRegistry k k1 qi m flags h
  | jamResume qi m flags =>
    simp only [Call.run, jamMessageResume] at h
    split at h
    · injection h with h
      subst h
      exact sameRegistry_refl k
    · exact jamLoop_sameRegistry k k1 qi m flags h
  | receiveResume qi flags =>
    simp only [Call.run, receiveMessageResume] at h
    split at h
    · injection h with h
      subst h
      exact sameRegistry_refl k
    · exact receiveLoop_sameRegistry k k1 qi flags h

/-- Destroy keeps the table length and the generation counter, whatever it returns. -/
theorem destroy_counter (L : Layout) (k : Kernel) (id : Nat) :
    (IOS_DestroyMessageQueue L k id).2.numCreatedQueues = k.numCreatedQueues ∧
    (IOS_DestroyMessageQueue L k id).2.queues.length = k.queues.length := by
  cases hlook : getMessageQueue k id with
  | none =>
    rw [destroy_none L k id hlook]
    exact ⟨rfl, rfl⟩
  | some qi =>
    obtain ⟨k1, hr, _, _, hl, hn, _⟩ := destroy_some L k id qi hlook
    rw [hr]
    exact ⟨hn, hl⟩

/-- How each call changes the generation counter and the table length. -/
theorem call_counter (L : Layout) (k k1 : Kernel) (c : Call)
    (h : (c.run L k).state? = some k1) :
    k1.numCreatedQueues =
      (if c.createsQueue k then (k.numCreatedQueues + 1) % 4294967296
        else k.numCreatedQueues) ∧
    k1.queues.length = k.queues.length := by
  cases c with
  | create messages size =>
    simp only [Call.run, Outcome.state?] at h
    injection h with h
    subst h
    cases hf : findFreeSlot k.queues with
    | none =>
      rw [create_none k messages size hf]
      simp [Call.createsQueue, hf, unlockScheduler, lockScheduler]
    | some i =>
      obtain ⟨_, _, hl, hn, _⟩ := create_slot k messages size i hf
      simp [Call.createsQueue, hf, hl, hn]
  | destroy id =>
    simp only [Call.run, Outcome.state?] at h
    injection h with h
    subst h
    simpa [Call.createsQueue] using destroy_counter L k id
  | send id m flags =>
    have := transfer_calls_sameRegistry L k k1 _ (fun _ _ hh => by cases hh)
      (fun _ hh => by cases hh) h
    exact ⟨by simpa [Call.createsQueue] using this.2.1, this.1⟩
  | jam id m flags =>
    have := transfer_calls_sameRegistry L k k1 _ (fun _ _ hh => by cases hh)
      (fun _ hh => by cases hh) h
    exact ⟨by simpa [Call.createsQueue] using this.2.1, this.1⟩
  | receive id flags =>
    have := transfer_calls_sameRegistry L k k1 _ (fun _ _ hh => by cases hh)
      (fun _ hh => by cases hh) h
    exact ⟨by simpa [Call.createsQueue] using this.2.1, this.1⟩
  | sendResume qi m flags =>
    have := transfer_calls_sameRegistry L k k1 _ (fun _ _ hh => by cases hh)
      (fun _ hh => by cases hh) h
    exact ⟨by simpa [Call.createsQueue] using this.2.1, this.1⟩
  | jamResume qi m flags =>
    have := transfer_calls_sameRegistry L k k1 _ (fun _ _ hh => by cases hh)
      (fun _ hh => by cases hh) h
    exact ⟨by simpa [Call.createsQueue] using this.2.1, this.1⟩
  | receiveResume qi flags =>
    have := transfer_calls_sameRegistry L k k1 _ (fun _ _ hh => by cases hh)
      (fun _ hh => by cases hh) h
    exact ⟨by simpa [Call.createsQueue] using this.2.1, this.1⟩

/-- In a state reached from a zero-initialised table the table has its initial length
and the generation counter is the number of creates that returned an id, modulo
`2 ^ 32`. -/
theorem reaches_counter (L : Layout) (nslots pid n : Nat) (k : Kernel)
    (h : Reaches L (Kernel.zeroed nslots pid) n k) :
    k.numCreatedQueues = n % 4294967296 ∧ k.queues.length = nslots := by
  induction h with
  | start => exact ⟨rfl, by simp [Kernel.zeroed]⟩
  | call n k k1 c _ hrun ih =>
    obtain ⟨h1, h2⟩ := call_counter L k k1 c hrun
    refine ⟨?_, by rw [h2]; exact ih.2⟩
    rw [h1]
    split
    · rw [ih.1]
      omega
    · rw [ih.1]
      simp
  | environment n k k1 _ hq hn ih =>
    exact ⟨by rw [hn]; exact ih.1, by rw [hq]; exact ih.2⟩

/-- C16 (amended): (1) a call changes the single counter `numCreatedQueues` as follows:
a create that finds a free slot adds exactly 1 modulo `2 ^ 32`, whichever slot it
selects; a create that finds none and every destroy, send, jam and receive (entered
or resumed, whatever they return) leave it unchanged. (2) A create that finds a free
slot returns the identifier built for it, a create that finds none returns Max, and
in a table of at most 4091 slots a create finds no free slot exactly when it returns
Max. (3) In a state reached from the zero-initialised table the counter is the
number of creates that found a free slot, modulo `2 ^ 32`. (4) Hence, in a table of
at most 4096 slots, the create that follows `n < 2 ^ 20` successful creates and
finds a free slot returns an id whose bits above the low 12 are `n`. -/
theorem generation_counter_counts_creations :
    (∀ (L : Layout) (k k1 : Kernel) (c : Call), (c.run L k).state? = some k1 →
      k1.numCreatedQueues =
        if c.createsQueue k then (k.numCreatedQueues + 1) % 4294967296
        else k.numCreatedQueues) ∧
    (∀ (k : Kernel) (messages size : Nat),
      ((Call.create messages size).createsQueue k = true →
        ∃ i, findFreeSlot k.queues = some i ∧
          (IOS_CreateMessageQueue k messages size).1
            = Error.cast (((k.numCreatedQueues <<< 12) % 4294967296) ||| i)) ∧
      ((Call.create messages size).createsQueue k = false →
        (IOS_CreateMessageQueue k messages size).1 = Error.Max) ∧
      (k.queues.length ≤ 4091 →
        ((Call.create messages size).createsQueue k = false ↔
          (IOS_CreateMessageQueue k messages size).1 = Error.Max))) ∧
    (∀ (L : Layout) (nslots pid n : Nat) (k : Kernel),
      Reaches L (Kernel.zeroed nslots pid) n k → k.numCreatedQueues = n % 4294967296) ∧
    (∀ (L : Layout) (nslots pid n : Nat) (k : Kernel) (messages size : Nat),
      nslots ≤ 4096 → n < 1048576 → Reaches L (Kernel.zeroed nslots pid) n k →
      (Call.create messages size).createsQueue k = true →
      (IOS_CreateMessageQueue k messages size).1.value >>> 12 = n) := by
  refine ⟨fun L k k1 c h => (call_counter L k k1 c h).1, ?_,
    fun L nslots pid n k h => (reaches_counter L nslots pid n k h).1, ?_⟩
  · intro k messages size
    cases hf : findFreeSlot k.queues with
    | none =>
      rw [create_none k messages size hf]
      refine ⟨?_, fun _ => rfl, fun _ => ⟨fun _ => rfl, fun _ => ?_⟩⟩
      · intro h
        simp [Call.createsQueue, hf] at h
      · simp [Call.createsQueue, hf]
    | some i =>
      obtain ⟨hi, _, _⟩ := findFreeSlot_some k.queues i hf
      rw [create_some k messages size i hf]
      refine ⟨fun _ => ⟨i, rfl, rfl⟩, ?_, ?_⟩
      · intro h
        simp [Call.createsQueue, hf] at h
      · intro hlen
        have hne : Error.cast (((k.numCreatedQueues <<< 12) % 4294967296) ||| i)
            ≠ Error.Max := by
          intro h
          have hv := (Error.cast_eq_Max _).mp h
          have hlow := uid_low_bits k.numCreatedQueues i (by omega)
          rw [hv] at hlow
          have : (4294967291 : Nat) &&& 0xFFF = 4091 := by decide
          omega
        constructor
        · intro h
          simp [Call.createsQueue, hf] at h
        · intro h
          exact absurd h hne
  · intro L nslots pid n k messages size hn hlt hreach hcr
    obtain ⟨hc, hl⟩ := reaches_counter L nslots pid n k hreach
    cases hf : findFreeSlot k.queues with
    | none => simp [Call.createsQueue, hf] at hcr
    | some i =>
      obtain ⟨hi, _, _⟩ := findFreeSlot_some k.queues i hf
      rw [create_some k messages size i hf]
      have hc1 : k.numCreatedQueues = n := by
        rw [hc]
        exact Nat.mod_eq_of_lt (by omega)
      rw [hc1]
      exact uid_high_bits n i (by omega) hlt

/-- C16, witness: in the zero-initialised two-slot table the first create returns id
0 and raises the counter to 1, a send leaves it at 1, and the second create finds
slot 1 and returns the id `4097`, whose bits above the low 12 are 1. -/
theorem generation_counter_counts_creations_witness :
    (IOS_CreateMessageQueue (Kernel.zeroed 2 0) 100 2).1 = Error.cast 0 ∧
    (IOS_CreateMessageQueue (Kernel.zeroed 2 0) 100 2).2.numCreatedQueues = 1 ∧
    (∀ k1, (IOS_SendMessage (IOS_CreateMessageQueue (Kernel.zeroed 2 0) 100 2).2 0 7
        MessageFlags.none).state? = some k1 → k1.numCreatedQueues = 1) ∧
    (IOS_CreateMessageQueue (IOS_CreateMessageQueue (Kernel.zeroed 2 0) 100 2).2 200 2).1
      = Error.cast 4097 ∧
    ((Call.create 200 2).createsQueue (IOS_CreateMessageQueue (Kernel.zeroed 2 0) 100 2).2
        = false ↔
      (IOS_CreateMessageQueue (IOS_CreateMessageQueue (Kernel.zeroed 2 0) 100 2).2 200 2).1
        = Error.Max) ∧
    (IOS_CreateMessageQueue (IOS_CreateMessageQueue (Kernel.zeroed 2 0) 100 2).2 200 2).1.value
      >>> 12 = 1 :=
  ⟨by decide,
   generation_counter_counts_creations.1 Layout.receiveQueueFirst (Kernel.zeroed 2 0) _
     (Call.create 100 2) rfl,
   fun k1 h => generation_counter_counts_creations.1 Layout.receiveQueueFirst
     (IOS_CreateMessageQueue (Kernel.zeroed 2 0) 100 2).2 k1 (Call.send 0 7 MessageFlags.none) h,
   by decide,
   (generation_counter_counts_creations.2.1
     (IOS_CreateMessageQueue (Kernel.zeroed 2 0) 100 2).2 200 2).2.2 (by decide),
   generation_counter_counts_creations.2.2.2 Layout.receiveQueueFirst 2 0 1
     (IOS_CreateMessageQueue (Kernel.zeroed 2 0) 100 2).2 200 2 (by decide) (by decide)
     (Reaches.call 0 (Kernel.zeroed 2 0) _ (Call.create 100 2) Reaches.start rfl)
     (by decide)⟩

/-- C16, counterexample: in the table of 4092 slots with slot 4091 free and generation
counter `2 ^ 20 - 1`, create returns the value Max (the identifier `0xFFFFFFFB` of
slot 4091) and the counter goes from `2 ^ 20 - 1` to `2 ^ 20`: a create that returns
Max has changed the counter. -/
theorem create_returning_max_increments_counter :
    (IOS_CreateMessageQueue collisionKernel 100 1).1 = Error.Max ∧
    collisionKernel.numCreatedQueues = 1048575 ∧
    (IOS_CreateMessageQueue collisionKernel 100 1).2.numCreatedQueues = 1048576 := by
  have hf := findFreeSlot_collisionKernel
  obtain ⟨_, _, _, hn, _⟩ := create_slot collisionKernel 100 1 4091 hf
  refine ⟨?_, rfl, ?_⟩
  · rw [create_some collisionKernel 100 1 4091 hf]
    decide
  · rw [hn]
    decide

theorem zeroed_queue (nslots pid i : Nat) :
    (Kernel.zeroed nslots pid).queue i = MessageQueue.zero := by
  simp only [Kernel.queue, Kernel.zeroed, List.getD_eq_getElem?_getD, List.getElem?_replicate]
  split <;> rfl

/-- The index invariant of the registry: a slot with a non-zero `size` holds an
identifier whose low 12 bits are its own index. One call keeps it, in a table of at
most 4096 slots and with a layout in which the bytes destroy clears hold `size`
whenever they hold `uid`. -/
theorem call_keeps_uid_index (L : Layout) (k k1 : Kernel) (c : Call)
    (hn : k.queues.length ≤ 4096) (hL : L Member.uid = true → L Member.size = true)
    (hrun : (c.run L k).state? = some k1)
    (ih : ∀ i, i < k.queues.length → (k.queue i).size ≠ 0 → (k.queue i).uid &&& 0xFFF = i) :
    ∀ i, i < k1.queues.length → (k1.queue i).size ≠ 0 → (k1.queue i).uid &&& 0xFFF = i := by
  have hlen := (call_counter L k k1 c hrun).2
  intro i hi hs
  rw [hlen] at hi
  by_cases hc : ∃ messages size, c = Call.create messages size
  · obtain ⟨messages, size, rfl⟩ := hc
    simp only [Call.run, Outcome.state?] at hrun
    injection hrun with hrun
    subst hrun
    cases hf : findFreeSlot k.queues with
    | none =>
      rw [create_none k messages size hf] at hs ⊢
      exact ih i hi hs
    | some j =>
      obtain ⟨hq, hqo, _⟩ := create_slot k messages size j hf
      obtain ⟨hj, _, _⟩ := findFreeSlot_some k.queues j hf
      by_cases hij : i = j
      · subst hij
        rw [hq]
        exact uid_low_bits k.numCreatedQueues i (by omega)
      · rw [hqo i hij] at hs ⊢
        exact ih i hi hs
  · by_cases hd : ∃ id, c = Call.destroy id
    · obtain ⟨id, rfl⟩ := hd
      simp only [Call.run, Outcome.state?] at hrun
      injection hrun with hrun
      subst hrun
      cases hlook : getMessageQueue k id with
      | none =>
        rw [destroy_none L k id hlook] at hs ⊢
        exact ih i hi hs
      | some qi =>
        obtain ⟨k2, hr, hq, hqo, _⟩ := destroy_some L k id qi hlook
        rw [hr] at hs ⊢
        by_cases hiq : i = qi
        · subst hiq
          change (k2.queue i).size ≠ 0 at hs
          show (k2.queue i).uid &&& 0xFFF = i
          rw [hq] at hs ⊢
          have hsz : L Member.size = false := by
            cases hLs : L Member.size with
            | false => rfl
            | true => simp [memsetThreadQueueBytes, hLs] at hs
          have hu : L Member.uid = false := by
            cases hLu : L Member.uid with
            | false => rfl
            | true => rw [hL hLu] at hsz; cases hsz
          simp only [memsetThreadQueueBytes, hsz, hu] at hs ⊢
          exact ih i hi (by simpa using hs)
        · change (k2.queue i).size ≠ 0 at hs
          show (k2.queue i).uid &&& 0xFFF = i
          rw [hqo i hiq] at hs ⊢
          exact ih i hi hs
    · have hreg := transfer_calls_sameRegistry L k k1 c
        (fun messages size h => hc ⟨messages, size, h⟩) (fun id h => hd ⟨id, h⟩) hrun
      obtain ⟨h1, h2, _⟩ := hreg.2.2 i
      rw [h1] at hs
      rw [h2]
      exact ih i hi hs

theorem reaches_uid_index (L : Layout) (nslots pid n : Nat) (k : Kernel)
    (hn : nslots ≤ 4096) (hL : L Member.uid = true → L Member.size = true)
    (h : Reaches L (Kernel.zeroed nslots pid) n k) :
    ∀ i, i < k.queues.length → (k.queue i).size ≠ 0 → (k.queue i).uid &&& 0xFFF = i := by
  induction h with
  | start =>
    intro i _ hs
    rw [zeroed_queue] at hs
    exact absurd rfl hs
  | call n k k1 c hreach hrun ih =>
    have hlen := (reaches_counter L nslots pid n k hreach).2
    exact call_keeps_uid_index L k k1 c (by omega) hL hrun ih
  | environment n k k1 _ hq _ ih =>
    intro i hi hs
    have hqi : k1.queue i = k.queue i := by simp only [Kernel.queue, hq]
    rw [hqi] at hs ⊢
    rw [hq] at hi
    exact ih i hi hs

/-- C17: in every state reached from the zero-initialised table (of at most 4096 slots)
by create, destroy, send, jam and receive calls, any two distinct slots whose `size`
is non-zero hold different identifiers. The layout parameter of destroy is one in
which the cleared bytes hold `size` whenever they hold `uid`. -/
theorem identifiers_unique_among_live_slots (L : Layout) (nslots pid n : Nat) (k : Kernel)
    (i j : Nat) (hn : nslots ≤ 4096) (hL : L Member.uid = true → L Member.size = true)
    (h : Reaches L (Kernel.zeroed nslots pid) n k)
    (hi : i < k.queues.length) (hj : j < k.queues.length) (hij : i ≠ j)
    (hsi : (k.queue i).size ≠ 0) (hsj : (k.queue j).size ≠ 0) :
    (k.queue i).uid ≠ (k.queue j).uid := by
  have hinv := reaches_uid_index L nslots pid n k hn hL h
  intro heq
  have h1 := hinv i hi hsi
  have h2 := hinv j hj hsj
  rw [heq, h2] at h1
  exact hij h1.symm

/-- C17, witness: two creates in the zero-initialised two-slot table; slots 0 and 1
are live and hold the identifiers 0 and 4097. -/
theorem identifiers_unique_among_live_slots_witness :
    ((IOS_CreateMessageQueue (IOS_CreateMessageQueue (Kernel.zeroed 2 0) 100 2).2 200 2).2.queue
        0).uid
      ≠ ((IOS_CreateMessageQueue (IOS_CreateMessageQueue (Kernel.zeroed 2 0) 100 2).2 200
          2).2.queue 1).uid :=
  identifiers_unique_among_live_slots Layout.receiveQueueFirst 2 0 2
    (IOS_CreateMessageQueue (IOS_CreateMessageQueue (Kernel.zeroed 2 0) 100 2).2 200 2).2 0 1
    (by decide) (by decide)
    (Reaches.call 1 (IOS_CreateMessageQueue (Kernel.zeroed 2 0) 100 2).2 _ (Call.create 200 2)
      (Reaches.call 0 (Kernel.zeroed 2 0) _ (Call.create 100 2) Reaches.start rfl) rfl)
    (by decide) (by decide) (by decide) (by decide) (by decide)

/-- C18, the code at the failing inputs: called with the scheduler lock not held on a
full (for receive: empty) queue with NonBlocking, send, jam and receive return Max
with the lock held; a blocking send resumed with Intr returns Intr with the lock
held. -/
theorem lock_left_held_on_early_return :
    fullAndEmptyKernel.schedulerLocked = false ∧
    (IOS_SendMessage fullAndEmptyKernel 0 7 MessageFlags.nonBlocking).code? = some Error.Max ∧
    ((IOS_SendMessage fullAndEmptyKernel 0 7 MessageFlags.nonBlocking).stateOr
      fullAndEmptyKernel).schedulerLocked = true ∧
    (IOS_JamMessage fullAndEmptyKernel 0 7 MessageFlags.nonBlocking).code? = some Error.Max ∧
    ((IOS_JamMessage fullAndEmptyKernel 0 7 MessageFlags.nonBlocking).stateOr
      fullAndEmptyKernel).schedulerLocked = true ∧
    (IOS_ReceiveMessage fullAndEmptyKernel 1 MessageFlags.nonBlocking).1.code?
      = some Error.Max ∧
    ((IOS_ReceiveMessage fullAndEmptyKernel 1 MessageFlags.nonBlocking).1.stateOr
      fullAndEmptyKernel).schedulerLocked = true ∧
    (sendMessageResume resumedWithIntr 0 7 MessageFlags.none).code? = some Error.Intr ∧
    ((sendMessageResume resumedWithIntr 0 7 MessageFlags.none).stateOr
      fullAndEmptyKernel).schedulerLocked = true := by
  refine ⟨by decide, by decide, by decide, by decide, by decide, by decide, by decide,
    by decide, by decide⟩

/-- C19: for a slot `qi` that the lookup of `id` returns, with `used ≤ size` and
(`size = 0` or `first < size`), a free slot with `size = 0` included, and any flags:
send, jam and receive never end in undefined behaviour (`% size` with `size = 0`).
A send on a full queue and a receive on an empty one are refused with Max or
suspend, and touch no message cell. Otherwise `size ≠ 0`, the call returns OK, and
the one buffer index it uses is below `size`: send writes only the cell
`messages + (first + used) mod size`, jam writes only the cell `messages + i` for
the decremented head `i`, and receive outputs the cell `messages + first` and
writes no memory cell. -/
theorem no_division_by_zero_no_index_out_of_range (k : Kernel) (id qi : Nat) (m : Message)
    (flags : MessageFlags) (hlook : getMessageQueue k id = some qi)
    (h1 : (k.queue qi).used ≤ (k.queue qi).size)
    (h2 : (k.queue qi).size = 0 ∨ (k.queue qi).first < (k.queue qi).size) :
    IOS_SendMessage k id m flags ≠ .undefined ∧
    IOS_JamMessage k id m flags ≠ .undefined ∧
    (IOS_ReceiveMessage k id flags).1 ≠ .undefined ∧
    (((k.queue qi).used = (k.queue qi).size ∧
        (IOS_SendMessage k id m flags).touchesNoMessage k) ∨
      ((k.queue qi).used ≠ (k.queue qi).size ∧ (k.queue qi).size ≠ 0 ∧
        (((k.queue qi).first + (k.queue qi).used) % 4294967296) % (k.queue qi).size
          < (k.queue qi).size ∧
        (IOS_SendMessage k id m flags).storesOnlyAt k ((k.queue qi).messages +
          (((k.queue qi).first + (k.queue qi).used) % 4294967296) % (k.queue qi).size) m)) ∧
    (((k.queue qi).used = (k.queue qi).size ∧
        (IOS_JamMessage k id m flags).touchesNoMessage k) ∨
      ((k.queue qi).used ≠ (k.queue qi).size ∧ (k.queue qi).size ≠ 0 ∧
        (if (k.queue qi).first = 0 then ((k.queue qi).size + 4294967296 - 1) % 4294967296
          else (k.queue qi).first - 1) < (k.queue qi).size ∧
        (IOS_JamMessage k id m flags).storesOnlyAt k ((k.queue qi).messages +
          (if (k.queue qi).first = 0 then ((k.queue qi).size + 4294967296 - 1) % 4294967296
            else (k.queue qi).first - 1)) m)) ∧
    (((k.queue qi).used = 0 ∧ (IOS_ReceiveMessage k id flags).2 = none ∧
        (IOS_ReceiveMessage k id flags).1.touchesNoMessage k) ∨
      ((k.queue qi).used ≠ 0 ∧ (k.queue qi).size ≠ 0 ∧
        (k.queue qi).first < (k.queue qi).size ∧
        (IOS_ReceiveMessage k id flags).2 =
          some (k.memory ((k.queue qi).messages + (k.queue qi).first)) ∧
        (IOS_ReceiveMessage k id flags).1.returnsOKReadOnly k)) := by
  obtain ⟨_, h, _⟩ := getMessageQueue_some k id qi hlook
  have hsend : IOS_SendMessage k id m flags = sendLoop (lockScheduler k) qi m flags := by
    simp only [IOS_SendMessage, hlook, sendMessage]
  have hjam : IOS_JamMessage k id m flags = jamLoop (lockScheduler k) qi m flags := by
    simp only [IOS_JamMessage, getMessageQueue_lockScheduler, hlook]
  have hrecv : IOS_ReceiveMessage k id flags = receiveLoop (lockScheduler k) qi flags := by
    simp only [IOS_ReceiveMessage, hlook, receiveMessage]
  have hsendD : ((k.queue qi).used = (k.queue qi).size ∧
        (sendLoop (lockScheduler k) qi m flags).touchesNoMessage k) ∨
      ((k.queue qi).used ≠ (k.queue qi).size ∧ (k.queue qi).size ≠ 0 ∧
        (((k.queue qi).first + (k.queue qi).used) % 4294967296) % (k.queue qi).size
          < (k.queue qi).size ∧
        (sendLoop (lockScheduler k) qi m flags).storesOnlyAt k ((k.queue qi).messages +
          (((k.queue qi).first + (k.queue qi).used) % 4294967296) % (k.queue qi).size) m) := by
    by_cases hfull : (k.queue qi).used = (k.queue qi).size
    · left
      refine ⟨hfull, ?_⟩
      by_cases hnb : flags.NonBlocking = true
      · exact ⟨lockScheduler k, Or.inl (by
          simp [sendLoop, queue_lockScheduler, hfull, hnb]), rfl⟩
      · exact ⟨rescheduleSelfNoLock (sleepThreadNoLock (lockScheduler k) qi .sendQueue),
          Or.inr (by simp [sendLoop, queue_lockScheduler, hfull, hnb]), rfl⟩
    · right
      have hs : (k.queue qi).size ≠ 0 := by omega
      obtain ⟨k1, hr, _, _, hm, _⟩ :=
        sendLoop_transfer (lockScheduler k) qi m flags h hfull hs
      exact ⟨hfull, hs, Nat.mod_lt _ (by omega), k1, hr, hm⟩
  have hjamD : ((k.queue qi).used = (k.queue qi).size ∧
        (jamLoop (lockScheduler k) qi m flags).touchesNoMessage k) ∨
      ((k.queue qi).used ≠ (k.queue qi).size ∧ (k.queue qi).size ≠ 0 ∧
        (if (k.queue qi).first = 0 then ((k.queue qi).size + 4294967296 - 1) % 4294967296
          else (k.queue qi).first - 1) < (k.queue qi).size ∧
        (jamLoop (lockScheduler k) qi m flags).storesOnlyAt k ((k.queue qi).messages +
          (if (k.queue qi).first = 0 then ((k.queue qi).size + 4294967296 - 1) % 4294967296
            else (k.queue qi).first - 1)) m) := by
    by_cases hfull : (k.queue qi).used = (k.queue qi).size
    · left
      refine ⟨hfull, ?_⟩
      by_cases hnb : flags.NonBlocking = true
      · exact ⟨lockScheduler k, Or.inl (by
          simp [jamLoop, queue_lockScheduler, hfull, hnb]), rfl⟩
      · exact ⟨rescheduleSelfNoLock (sleepThreadNoLock (lockScheduler k) qi .sendQueue),
          Or.inr (by simp [jamLoop, queue_lockScheduler, hfull, hnb]), rfl⟩
    · right
      have hs : (k.queue qi).size ≠ 0 := by omega
      obtain ⟨k1, hr, _, _, hm, _⟩ := jamLoop_transfer (lockScheduler k) qi m flags h hfull
      refine ⟨hfull, hs, ?_, k1, hr, hm⟩
      split
      · rw [show (k.queue qi).size + 4294967296 - 1 = ((k.queue qi).size - 1) + 4294967296
          by omega, Nat.add_mod_right]
        exact lt_of_le_of_lt (Nat.mod_le _ _) (by omega)
      · omega
  have hrecvD : ((k.queue qi).used = 0 ∧ (receiveLoop (lockScheduler k) qi flags).2 = none ∧
        (receiveLoop (lockScheduler k) qi flags).1.touchesNoMessage k) ∨
      ((k.queue qi).used ≠ 0 ∧ (k.queue qi).size ≠ 0 ∧
        (k.queue qi).first < (k.queue qi).size ∧
        (receiveLoop (lockScheduler k) qi flags).2 =
          some (k.memory ((k.queue qi).messages + (k.queue qi).first)) ∧
        (receiveLoop (lockScheduler k) qi flags).1.returnsOKReadOnly k) := by
    by_cases hempty : (k.queue qi).used = 0
    · left
      refine ⟨hempty, ?_⟩
      by_cases hnb : flags.NonBlocking = true
      · exact ⟨by simp [receiveLoop, queue_lockScheduler, hempty, hnb],
          lockScheduler k, Or.inl (by
          simp [receiveLoop, queue_lockScheduler, hempty, hnb]), rfl⟩
      · exact ⟨by simp [receiveLoop, queue_lockScheduler, hempty, hnb],
          rescheduleSelfNoLock (sleepThreadNoLock (lockScheduler k) qi .receiveQueue),
          Or.inr (by simp [receiveLoop, queue_lockScheduler, hempty, hnb]), rfl⟩
    · right
      have hs : (k.queue qi).size ≠ 0 := by omega
      obtain ⟨k1, hr, _, _, hm, _⟩ :=
        receiveLoop_transfer (lockScheduler k) qi flags h hempty hs
      exact ⟨hempty, hs, by omega, by rw [hr]; rfl, k1, by rw [hr], hm⟩
  rw [hsend, hjam, hrecv]
  refine ⟨?_, ?_, ?_, hsendD, hjamD, hrecvD⟩
  · rcases hsendD with ⟨_, k1, hr | hr, _⟩ | ⟨_, _, _, k1, hr, _⟩ <;>
      rw [hr] <;> exact fun h => Outcome.noConfusion h
  · rcases hjamD with ⟨_, k1, hr | hr, _⟩ | ⟨_, _, _, k1, hr, _⟩ <;>
      rw [hr] <;> exact fun h => Outcome.noConfusion h
  · rcases hrecvD with ⟨_, _, k1, hr | hr, _⟩ | ⟨_, _, _, _, k1, hr, _⟩ <;>
      rw [hr] <;> exact fun h => Outcome.noConfusion h

/-- C19, witness: in the two-slot table, on the empty slot 1 (capacity 2, buffer at
200, head 0) a send writes only cell `200 + 0` and a jam only cell `200 + 1`, and
a receive is refused; on the full slot 0 (capacity 2, buffer at 100, head 1) a send
and a jam are refused and a receive outputs cell `100 + 1`; on the free slot 0 of
the zero-initialised one-slot table (`size = 0`) all three are refused and none
ends in undefined behaviour. -/
theorem no_division_by_zero_no_index_out_of_range_witness :
    (getMessageQueue fullAndEmptyKernel 1 = some 1 ∧
      ((fullAndEmptyKernel.queue 1).used ≠ (fullAndEmptyKernel.queue 1).size ∧
        (fullAndEmptyKernel.queue 1).size ≠ 0 ∧ 0 < (fullAndEmptyKernel.queue 1).size ∧
        (IOS_SendMessage fullAndEmptyKernel 1 7 MessageFlags.nonBlocking).storesOnlyAt
          fullAndEmptyKernel 200 7) ∧
      ((fullAndEmptyKernel.queue 1).used ≠ (fullAndEmptyKernel.queue 1).size ∧
        (fullAndEmptyKernel.queue 1).size ≠ 0 ∧ 1 < (fullAndEmptyKernel.queue 1).size ∧
        (IOS_JamMessage fullAndEmptyKernel 1 7 MessageFlags.nonBlocking).storesOnlyAt
          fullAndEmptyKernel 201 7) ∧
      ((fullAndEmptyKernel.queue 1).used = 0 ∧
        (IOS_ReceiveMessage fullAndEmptyKernel 1 MessageFlags.nonBlocking).2 = none ∧
        (IOS_ReceiveMessage fullAndEmptyKernel 1 MessageFlags.nonBlocking).1.touchesNoMessage
          fullAndEmptyKernel)) ∧
    (getMessageQueue fullAndEmptyKernel 0 = some 0 ∧
      ((fullAndEmptyKernel.queue 0).used = (fullAndEmptyKernel.queue 0).size ∧
        (IOS_SendMessage fullAndEmptyKernel 0 7 MessageFlags.nonBlocking).touchesNoMessage
          fullAndEmptyKernel) ∧
      ((fullAndEmptyKernel.queue 0).used = (fullAndEmptyKernel.queue 0).size ∧
        (IOS_JamMessage fullAndEmptyKernel 0 7 MessageFlags.nonBlocking).touchesNoMessage
          fullAndEmptyKernel) ∧
      ((fullAndEmptyKernel.queue 0).used ≠ 0 ∧ (fullAndEmptyKernel.queue 0).size ≠ 0 ∧
        1 < (fullAndEmptyKernel.queue 0).size ∧
        (IOS_ReceiveMessage fullAndEmptyKernel 0 MessageFlags.nonBlocking).2 =
          some (fullAndEmptyKernel.memory 101) ∧
        (IOS_ReceiveMessage fullAndEmptyKernel 0 MessageFlags.nonBlocking).1.returnsOKReadOnly
          fullAndEmptyKernel)) ∧
    (getMessageQueue (Kernel.zeroed 1 0) 0 = some 0 ∧
      ((Kernel.zeroed 1 0).queue 0).size = 0 ∧
      IOS_SendMessage (Kernel.zeroed 1 0) 0 7 MessageFlags.nonBlocking ≠ .undefined ∧
      IOS_JamMessage (Kernel.zeroed 1 0) 0 7 MessageFlags.nonBlocking ≠ .undefined ∧
      (IOS_ReceiveMessage (Kernel.zeroed 1 0) 0 MessageFlags.nonBlocking).1 ≠ .undefined ∧
      (IOS_SendMessage (Kernel.zeroed 1 0) 0 7 MessageFlags.nonBlocking).touchesNoMessage
        (Kernel.zeroed 1 0) ∧
      (IOS_JamMessage (Kernel.zeroed 1 0) 0 7 MessageFlags.nonBlocking).touchesNoMessage
        (Kernel.zeroed 1 0) ∧
      (IOS_ReceiveMessage (Kernel.zeroed 1 0) 0 MessageFlags.nonBlocking).1.touchesNoMessage
        (Kernel.zeroed 1 0)) :=
  ⟨⟨by decide,
    (no_division_by_zero_no_index_out_of_range fullAndEmptyKernel 1 1 7
      MessageFlags.nonBlocking (by decide) (by decide) (by decide)).2.2.2.1.resolve_left
      (fun h => absurd h.1 (by decide)),
    (no_division_by_zero_no_index_out_of_range fullAndEmptyKernel 1 1 7
      MessageFlags.nonBlocking (by decide) (by decide) (by decide)).2.2.2.2.1.resolve_left
      (fun h => absurd h.1 (by decide)),
    (no_division_by_zero_no_index_out_of_range fullAndEmptyKernel 1 1 7
      MessageFlags.nonBlocking (by decide) (by decide) (by decide)).2.2.2.2.2.resolve_right
      (fun h => h.1 (by decide))⟩,
   ⟨by decide,
    (no_division_by_zero_no_index_out_of_range fullAndEmptyKernel 0 0 7
      MessageFlags.nonBlocking (by decide) (by decide) (by decide)).2.2.2.1.resolve_right
      (fun h => h.1 (by decide)),
    (no_division_by_zero_no_index_out_of_range fullAndEmptyKernel 0 0 7
      MessageFlags.nonBlocking (by decide) (by decide) (by decide)).2.2.2.2.1.resolve_right
      (fun h => h.1 (by decide)),
    (no_division_by_zero_no_index_out_of_range fullAndEmptyKernel 0 0 7
      MessageFlags.nonBlocking (by decide) (by decide) (by decide)).2.2.2.2.2.resolve_left
      (fun h => absurd h.1 (by decide))⟩,
   ⟨by decide, by decide,
    (no_division_by_zero_no_index_out_of_range (Kernel.zeroed 1 0) 0 0 7
      MessageFlags.nonBlocking (by decide) (by decide) (by decide)).1,
    (no_division_by_zero_no_index_out_of_range (Kernel.zeroed 1 0) 0 0 7
      MessageFlags.nonBlocking (by decide) (by decide) (by decide)).2.1,
    (no_division_by_zero_no_index_out_of_range (Kernel.zeroed 1 0) 0 0 7
      MessageFlags.nonBlocking (by decide) (by decide) (by decide)).2.2.1,
    ((no_division_by_zero_no_index_out_of_range (Kernel.zeroed 1 0) 0 0 7
      MessageFlags.nonBlocking (by decide) (by decide) (by decide)).2.2.2.1.resolve_right
      (fun h => h.1 rfl)).2,
    ((no_division_by_zero_no_index_out_of_range (Kernel.zeroed 1 0) 0 0 7
      MessageFlags.nonBlocking (by decide) (by decide) (by decide)).2.2.2.2.1.resolve_right
      (fun h => h.1 rfl)).2,
    ((no_division_by_zero_no_index_out_of_range (Kernel.zeroed 1 0) 0 0 7
      MessageFlags.nonBlocking (by decide) (by decide) (by decide)).2.2.2.2.2.resolve_right
      (fun h => h.1 rfl)).2.2⟩⟩

/-- C20 (amended): in a table of at most 4096 slots, after a create with capacity at
least 1 that returns an id, the selected slot is no longer free, and a second create
issued with no destroy in between either returns Max or returns an id that differs
from the first in its low 12 bits; in both cases it leaves the first queue's slot
(head, count, capacity, buffer reference, owner, identifier) as it was. -/
theorem successful_create_occupies_slot (k : Kernel) (messages size messages2 size2 i : Nat)
    (hlen : k.queues.length ≤ 4096) (hsize : 1 ≤ size)
    (hfree : findFreeSlot k.queues = some i) :
    ((IOS_CreateMessageQueue k messages size).2.queue i).size ≠ 0 ∧
    ((IOS_CreateMessageQueue (IOS_CreateMessageQueue k messages size).2 messages2 size2).1
        = Error.Max ∨
      ∃ id1 id2, (IOS_CreateMessageQueue k messages size).1 = Error.cast id1 ∧
        (IOS_CreateMessageQueue (IOS_CreateMessageQueue k messages size).2 messages2 size2).1
          = Error.cast id2 ∧
        id2 &&& 0xFFF ≠ id1 &&& 0xFFF) ∧
    (IOS_CreateMessageQueue (IOS_CreateMessageQueue k messages size).2 messages2 size2).2.queue i
      = (IOS_CreateMessageQueue k messages size).2.queue i := by
  obtain ⟨hi, _, _⟩ := findFreeSlot_some k.queues i hfree
  obtain ⟨hq, _, hl, _, _, _⟩ := create_slot k messages size i hfree
  have hid1 : (IOS_CreateMessageQueue k messages size).1
      = Error.cast (((k.numCreatedQueues <<< 12) % 4294967296) ||| i) := by
    rw [create_some k messages size i hfree]
  have hocc : ((IOS_CreateMessageQueue k messages size).2.queue i).size ≠ 0 := by
    rw [hq]
    show size ≠ 0
    omega
  refine ⟨hocc, ?_⟩
  cases hf2 : findFreeSlot (IOS_CreateMessageQueue k messages size).2.queues with
  | none =>
    rw [create_none _ messages2 size2 hf2]
    exact ⟨Or.inl rfl, rfl⟩
  | some j =>
    obtain ⟨hj, hjfree, _⟩ := findFreeSlot_some _ j hf2
    have hji : j ≠ i := by
      intro h
      subst h
      exact hocc hjfree
    obtain ⟨_, hqo2, _⟩ := create_slot (IOS_CreateMessageQueue k messages size).2 messages2 size2
      j hf2
    refine ⟨Or.inr ⟨_, _, hid1, by rw [create_some _ messages2 size2 j hf2], ?_⟩,
      hqo2 i (Ne.symm hji)⟩
    rw [uid_low_bits _ j (by omega), uid_low_bits _ i (by omega)]
    exact hji

/-- C20, witness: two creates of capacity 2 in the zero-initialised two-slot table. -/
theorem successful_create_occupies_slot_witness :
    ((IOS_CreateMessageQueue (Kernel.zeroed 2 0) 100 2).2.queue 0).size ≠ 0 ∧
    ((IOS_CreateMessageQueue (IOS_CreateMessageQueue (Kernel.zeroed 2 0) 100 2).2 200 2).1
        = Error.Max ∨
      ∃ id1 id2, (IOS_CreateMessageQueue (Kernel.zeroed 2 0) 100 2).1 = Error.cast id1 ∧
        (IOS_CreateMessageQueue (IOS_CreateMessageQueue (Kernel.zeroed 2 0) 100 2).2 200 2).1
          = Error.cast id2 ∧
        id2 &&& 0xFFF ≠ id1 &&& 0xFFF) ∧
    (IOS_CreateMessageQueue (IOS_CreateMessageQueue (Kernel.zeroed 2 0) 100 2).2 200 2).2.queue 0
      = (IOS_CreateMessageQueue (Kernel.zeroed 2 0) 100 2).2.queue 0 :=
  successful_create_occupies_slot (Kernel.zeroed 2 0) 100 2 200 2 0 (by decide) (by decide)
    (by decide)

/-- C20, counterexample: in the zero-initialised two-slot table a create with capacity
0 returns the id 0 and leaves slot 0 free (`size = 0`); the second create returns
the id `4096`, whose low 12 bits select slot 0 again, and overwrites the capacity
and the buffer reference of the first queue. -/
theorem create_with_capacity_zero_leaves_slot_free :
    (IOS_CreateMessageQueue (Kernel.zeroed 2 0) 100 0).1 = Error.cast 0 ∧
    ((IOS_CreateMessageQueue (Kernel.zeroed 2 0) 100 0).2.queue 0).size = 0 ∧
    ((IOS_CreateMessageQueue (Kernel.zeroed 2 0) 100 0).2.queue 0).messages = 100 ∧
    (IOS_CreateMessageQueue (IOS_CreateMessageQueue (Kernel.zeroed 2 0) 100 0).2 200 5).1
      = Error.cast 4096 ∧
    4096 &&& 0xFFF = 0 &&& 0xFFF ∧
    ((IOS_CreateMessageQueue (IOS_CreateMessageQueue (Kernel.zeroed 2 0) 100 0).2 200 5).2.queue
      0).size = 5 ∧
    ((IOS_CreateMessageQueue (IOS_CreateMessageQueue (Kernel.zeroed 2 0) 100 0).2 200 5).2.queue
      0).messages = 200 := by
  refine ⟨by decide, by decide, by decide, by decide, by decide, by decide, by decide⟩

end ios.kernel
